import Mathlib

/-! Onboarding workflow: a shallow embedding of `app/jobs/onboarding`.

The development models `workload.go` (the reconciliation engine and the job
runner), `jobs.go` (events) and the in-memory tracker of
`github_client_test.go`.

Conventions of the embedding.

* A Go pointer that may be nil is an `Option`; the nil-safe getters of the
  go-github structures (`GetTitle`, `GetNumber`, ...) return the zero value on
  `none`, exactly as the generated Go accessors do.
* A remote call returns `Except String α`: the `error` carries `err.Error()`.
* Go `int` values are `Int`; no computation of the package approaches the
  64-bit range.
* Every remote call is recorded in a chronological trace of `Call` values, so
  that "makes no create call" is a statement about the trace.
* The pagination loops `for { ... }` need not terminate (a server may report a
  next page forever), so they take a fuel argument and return `none` when it
  is exhausted.
* A `time.Time` is given by its wall-clock reading; elapsed time is taken in a
  `Location`, which tells the offset from UTC at each reading, so that a clock
  shift between two readings shows in `Time.Sub`.
* A string reached through a pointer of a request is passed as the value it
  has when the call is made (see `runTasks` and `TestIssues.Create` for the one
  place where the Go code keeps such a pointer).
-/

namespace Onboarding

/-! ## Time -/

/-- Wall-clock reading of a Go `time.Time` in its location: `day` counts the
calendar days from 1970-01-01 and `nsec` is the reading of the clock inside
that day, in nanoseconds. -/
structure Time where
  day : Int
  nsec : Int
deriving DecidableEq, Repr

/-- A `time.Location` as far as elapsed time depends on it: `offset r` is the
offset from UTC, in nanoseconds, that the location has at the wall-clock
reading `r` (east of Greenwich positive). The instant of a reading is the
reading minus its offset. For a reading inside the hour that a clock shift
skips or repeats, `offset` stands for the offset Go's `time.Date` settles on. -/
structure Location where
  offset : Time → Int

/-- Nanoseconds of one 24-hour day. -/
def nsecPerDay : Int := 86400 * 1000000000

/-- Go `time.Weekday` values: Sunday = 0, ..., Saturday = 6. -/
def Sunday : Int := 0

def Monday : Int := 1

def Tuesday : Int := 2

def Wednesday : Int := 3

def Thursday : Int := 4

def Friday : Int := 5

def Saturday : Int := 6

/-- Method `Time.Weekday`: 1970-01-01 was a Thursday. -/
def Time.Weekday (t : Time) : Int := (t.day + 4) % 7

/-- Method `Time.AddDate(0, 0, days)`: Go normalises the calendar date
`day + days` and keeps the wall-clock reading. Only the `days` argument is
modelled, the two others are 0 at the single call site. The reading is the one
Go hands to `time.Date`; when a clock shift of the location skips that reading,
the time Go returns shows a reading moved by the shift. -/
def Time.AddDate (t : Time) (days : Int) : Time := { t with day := t.day + days }

/-- Method `Time.Sub` for two times of the location `loc`: the time elapsed
from `u` to `t` in nanoseconds, which is the difference of the two instants.
It is the difference of the wall-clock readings less the amount by which the
offset from UTC grew in between (Go keeps the instant in each `time.Time`). -/
def Time.Sub (loc : Location) (t u : Time) : Int :=
  ((t.day - u.day) * nsecPerDay + (t.nsec - u.nsec)) - (loc.offset t - loc.offset u)

/-- Method `Time.Unix` for a reading in UTC: seconds elapsed since 1970-01-01
00:00:00 UTC. -/
def Time.Unix (t : Time) : Int := t.day * 86400 + t.nsec / 1000000000

/-- The location `time.UTC`. -/
def UTC : Location := { offset := fun _ => 0 }

/-- Nanoseconds of one hour. -/
def nsecPerHour : Int := 3600 * 1000000000

/-- The location America/New_York during 2017: four hours behind UTC for the
readings from 2017-03-12 (day 17237) 02:00 up to 2017-11-05 (day 17475) 02:00,
five hours behind UTC before and after. The hour skipped on the first date and
the hour repeated on the second have the offset `time.Date` settles on, which
is four hours behind for both. -/
def NewYork2017 : Location :=
  { offset := fun r =>
      if (17237 < r.day ∨ (r.day = 17237 ∧ 2 * nsecPerHour ≤ r.nsec)) ∧
          (r.day < 17475 ∨ (r.day = 17475 ∧ r.nsec < 2 * nsecPerHour)) then
        -4 * nsecPerHour
      else -5 * nsecPerHour }

/-- Function `getMilestoneDueTime` of workload.go; `now` is the reading that
`time.Now()` gives when `fromTime` is nil. -/
def getMilestoneDueTime (now : Time) (fromTime : Option Time) : Time :=
  let fromTime := match fromTime with
    | none => now
    | some t => t
  let offset := Friday - fromTime.Weekday
  fromTime.AddDate (21 + offset)

/-- Days from weekday `wd` forward to the next Friday, 0 on a Friday: the
quantity the specification describes for the due-date policy. -/
def daysUntilFriday (wd : Int) : Int := (Friday - wd) % 7

/-! ## The go-github data structures (the fields this package reads or writes) -/

structure User where
  Login : Option String
  Name : Option String
deriving DecidableEq, Repr

structure Milestone where
  Number : Option Int
  Title : Option String
  Description : Option String
  CreatedAt : Option Time
  DueOn : Option Time
deriving DecidableEq, Repr

structure Issue where
  ID : Option Int
  Number : Option Int
  Title : Option String
  Body : Option String
  Assignee : Option User
  Assignees : List (Option User)
  Milestone : Option Milestone
deriving DecidableEq, Repr

structure IssueRequest where
  Title : Option String
  Body : Option String
  Assignee : Option String
  Milestone : Option Int
  Assignees : Option (List String)
deriving DecidableEq, Repr

structure IssueListByRepoOptions where
  Milestone : String
  Assignee : String
  Page : Int
deriving DecidableEq, Repr

/-- Field `SortField` is the Go field `Sort`, a reserved word here. -/
structure MilestoneListOptions where
  SortField : String
  Direction : String
  Page : Int
deriving DecidableEq, Repr

structure ProjectListOptions where
  State : String
  Page : Int
deriving DecidableEq, Repr

structure ListOptions where
  Page : Int
deriving DecidableEq, Repr

structure ProjectOptions where
  Name : String
  Body : String
deriving DecidableEq, Repr

structure Project where
  ID : Option Int
  Name : Option String
  Body : Option String
  Number : Option Int
  CreatedAt : Option Time
  UpdatedAt : Option Time
deriving DecidableEq, Repr

structure ProjectColumnOptions where
  Name : String
deriving DecidableEq, Repr

structure ProjectColumn where
  ID : Option Int
  Name : Option String
  CreatedAt : Option Time
deriving DecidableEq, Repr

structure ProjectCardOptions where
  ContentID : Int
  ContentType : String
deriving DecidableEq, Repr

structure ProjectCard where
  ID : Option Int
  CreatedAt : Option Time
deriving DecidableEq, Repr

structure Repository where
  Owner : Option User
  Name : Option String
deriving DecidableEq, Repr

/-- The part of `github.Response` the package reads. -/
structure Response where
  NextPage : Int
deriving DecidableEq, Repr

/-! Nil-safe getters, as generated in go-github. -/

def User.GetLogin (u : Option User) : String := ((u.bind fun x => x.Login).getD "")

def Milestone.GetTitle (m : Option Milestone) : String := ((m.bind fun x => x.Title).getD "")

def Milestone.GetNumber (m : Option Milestone) : Int := ((m.bind fun x => x.Number).getD 0)

def Issue.GetID (i : Option Issue) : Int := ((i.bind fun x => x.ID).getD 0)

def Issue.GetNumber (i : Option Issue) : Int := ((i.bind fun x => x.Number).getD 0)

def Issue.GetTitle (i : Option Issue) : String := ((i.bind fun x => x.Title).getD "")

def Issue.GetBody (i : Option Issue) : String := ((i.bind fun x => x.Body).getD "")

def IssueRequest.GetAssignees (r : IssueRequest) : List String := r.Assignees.getD []

def Project.GetID (p : Option Project) : Int := ((p.bind fun x => x.ID).getD 0)

def Project.GetName (p : Option Project) : String := ((p.bind fun x => x.Name).getD "")

def Project.GetBody (p : Option Project) : String := ((p.bind fun x => x.Body).getD "")

def Project.GetNumber (p : Option Project) : Int := ((p.bind fun x => x.Number).getD 0)

def ProjectColumn.GetID (c : Option ProjectColumn) : Int := ((c.bind fun x => x.ID).getD 0)

def ProjectColumn.GetName (c : Option ProjectColumn) : String := ((c.bind fun x => x.Name).getD "")

def ProjectCard.GetID (c : Option ProjectCard) : Int := ((c.bind fun x => x.ID).getD 0)

def Repository.GetName (r : Repository) : String := r.Name.getD ""

/-! ## Remote calls and the client interface -/

/-- One remote call with its arguments; constructors carry the method names
of the interfaces `iGitHubIssues`, `iGitHubRepositories`, `iGitHubProjects`. -/
inductive Call where
  | ListMilestones (owner repo : String) (opts : MilestoneListOptions)
  | CreateMilestone (owner repo : String) (ms : Milestone)
  | ListByRepo (owner repo : String) (opts : IssueListByRepoOptions)
  | Create (owner repo : String) (req : IssueRequest)
  | Edit (owner repo : String) (issueID : Int) (req : IssueRequest)
  | CreateProject (owner repo : String) (opts : ProjectOptions)
  | ListProjects (owner repo : String) (opts : ProjectListOptions)
  | Get (owner repo : String)
  | UpdateProject (projectID : Int) (opts : ProjectOptions)
  | CreateProjectColumn (projectID : Int) (opts : ProjectColumnOptions)
  | ListProjectColumns (projectID : Int) (opts : ListOptions)
  | CreateProjectCard (columnID : Int) (opt : ProjectCardOptions)
  | ListProjectCards (columnID : Int) (opt : ListOptions)
deriving DecidableEq, Repr

def Call.isCreateMilestone : Call → Bool
  | .CreateMilestone _ _ _ => true
  | _ => false

def Call.isCreate : Call → Bool
  | .Create _ _ _ => true
  | _ => false

def Call.isEdit : Call → Bool
  | .Edit _ _ _ _ => true
  | _ => false

def Call.isCreateProject : Call → Bool
  | .CreateProject _ _ _ => true
  | _ => false

def Call.isUpdateProject : Call → Bool
  | .UpdateProject _ _ => true
  | _ => false

def Call.isCreateProjectColumn : Call → Bool
  | .CreateProjectColumn _ _ => true
  | _ => false

def Call.isCreateProjectCard : Call → Bool
  | .CreateProjectCard _ _ => true
  | _ => false

/-- Interface `IGitHubClient` with its services flattened: every method maps
the tracker state `σ` to a result and the next state. A successful list call
yields its items and the response carrying `NextPage`. -/
structure IGitHubClient (σ : Type) where
  ListMilestones : String → String → MilestoneListOptions → σ →
    Except String (List (Option Milestone) × Response) × σ
  CreateMilestone : String → String → Milestone → σ → Except String (Option Milestone) × σ
  ListByRepo : String → String → IssueListByRepoOptions → σ →
    Except String (List (Option Issue) × Response) × σ
  Create : String → String → IssueRequest → σ → Except String (Option Issue) × σ
  Edit : String → String → Int → IssueRequest → σ → Except String (Option Issue) × σ
  CreateProject : String → String → ProjectOptions → σ → Except String (Option Project) × σ
  ListProjects : String → String → ProjectListOptions → σ →
    Except String (List (Option Project) × Response) × σ
  Get : String → String → σ → Except String Repository × σ
  UpdateProject : Int → ProjectOptions → σ → Except String (Option Project) × σ
  CreateProjectColumn : Int → ProjectColumnOptions → σ →
    Except String (Option ProjectColumn) × σ
  ListProjectColumns : Int → ListOptions → σ →
    Except String (List (Option ProjectColumn) × Response) × σ
  CreateProjectCard : Int → ProjectCardOptions → σ → Except String (Option ProjectCard) × σ
  ListProjectCards : Int → ListOptions → σ →
    Except String (List (Option ProjectCard) × Response) × σ

/-- The tracker state together with the chronological trace of remote calls. -/
structure World (σ : Type) where
  st : σ
  trace : List Call

/-- Record a call and move to the tracker state it produced. -/
def World.step {σ : Type} (w : World σ) (c : Call) (s : σ) : World σ :=
  { st := s, trace := w.trace ++ [c] }

/-- Type `WorkflowRepository`: the embedded `*github.Repository`; client and
context are passed to the methods separately. -/
structure WorkflowRepository where
  Repository : Repository
deriving DecidableEq, Repr

def WorkflowRepository.owner (repo : WorkflowRepository) : String :=
  User.GetLogin repo.Repository.Owner

def WorkflowRepository.name (repo : WorkflowRepository) : String :=
  repo.Repository.GetName

/-! ## workload.go: paginated fetches and reconciliation

A result `none` means that the call does not return normally: the fuel of a
pagination loop ran out, or Go dereferenced a nil pointer argument. -/

section Workload

variable {σ : Type}

/-- Loop of `fetchIssues`. The `err` assigned inside the loop shadows the one
the function returns, so a failed page ends the loop and the items gathered so
far are returned with a nil error. -/
def fetchIssuesLoop (c : IGitHubClient σ) (owner repoName : String) :
    Nat → IssueListByRepoOptions → List (Option Issue) → World σ →
    Option (Except String (List (Option Issue)) × World σ)
  | 0, _, _, _ => none
  | fuel + 1, listOpts, resultIssues, w =>
    match c.ListByRepo owner repoName listOpts w.st with
    | (.error _, s) => some (.ok resultIssues, w.step (.ListByRepo owner repoName listOpts) s)
    | (.ok (currentIssues, response), s) =>
      if response.NextPage = 0 then
        some (.ok (resultIssues ++ currentIssues), w.step (.ListByRepo owner repoName listOpts) s)
      else
        fetchIssuesLoop c owner repoName fuel { listOpts with Page := response.NextPage }
          (resultIssues ++ currentIssues) (w.step (.ListByRepo owner repoName listOpts) s)

def fetchIssues (c : IGitHubClient σ) (fuel : Nat) (repo : WorkflowRepository)
    (listOpts : IssueListByRepoOptions) (w : World σ) :
    Option (Except String (List (Option Issue)) × World σ) :=
  fetchIssuesLoop c repo.owner repo.name fuel { listOpts with Page := 0 } [] w

/-- Function `strconv.Itoa`. -/
def Itoa (i : Int) : String := toString i

def GetIssuesByRequest (c : IGitHubClient σ) (fuel : Nat) (repo : WorkflowRepository)
    (request : IssueRequest) (w : World σ) :
    Option (Except String (List (Option Issue)) × World σ) :=
  let requestedAssignees := request.GetAssignees
  let milestone := match request.Milestone with
    | some m => if m > 0 then Itoa m else "*"
    | none => "*"
  let assignee := match requestedAssignees with
    | [a] => if a ≠ "none" then a else "*"
    | _ => "*"
  let listOpts : IssueListByRepoOptions := { Assignee := assignee, Milestone := milestone, Page := 0 }
  match fetchIssues c fuel repo listOpts w with
  | none => none
  | some (.error e, w1) => some (.error e, w1)
  | some (.ok issues, w1) =>
    some (.ok (issues.filter fun thisIssue =>
      match request.Title with
      | none => true
      | some t => t == Issue.GetTitle thisIssue), w1)

def createIssue (c : IGitHubClient σ) (repo : WorkflowRepository) (req : IssueRequest)
    (w : World σ) : Except String (Option Issue) × World σ :=
  match c.Create repo.owner repo.name req w.st with
  | (.error e, s) => (.error e, w.step (.Create repo.owner repo.name req) s)
  | (.ok issue, s) => (.ok issue, w.step (.Create repo.owner repo.name req) s)

def updateIssue (c : IGitHubClient σ) (repo : WorkflowRepository) (issue : Option Issue)
    (req : IssueRequest) (w : World σ) : Except String (Option Issue) × World σ :=
  match c.Edit repo.owner repo.name (Issue.GetNumber issue) req w.st with
  | (.error e, s) => (.error e, w.step (.Edit repo.owner repo.name (Issue.GetNumber issue) req) s)
  | (.ok issue1, s) => (.ok issue1, w.step (.Edit repo.owner repo.name (Issue.GetNumber issue) req) s)

/-- The request `CreateOrUpdateIssue` builds from its arguments. -/
def issueRequestFor (assignee title body : Option String) (milestone : Int) : IssueRequest :=
  { Title := title
    Body := body
    Assignee := none
    Milestone := if milestone > 0 then some milestone else none
    Assignees := assignee.map fun a => [a] }

def CreateOrUpdateIssue (c : IGitHubClient σ) (fuel : Nat) (repo : WorkflowRepository)
    (assignee title body : Option String) (milestone : Int) (w : World σ) :
    Option (Except String (Option Issue) × World σ) :=
  let request := issueRequestFor assignee title body milestone
  match GetIssuesByRequest c fuel repo request w with
  | none => none
  | some (.error e, w1) => some (.error e, w1)
  | some (.ok issuesFound, w1) =>
    match issuesFound.find? fun issue => issue.isSome with
    | some issue => some (.ok issue, w1)
    | none =>
      match createIssue c repo request w1 with
      | (.error e, w2) => some (.error e, w2)
      | (.ok issue, w2) =>
        match body with
        | none => none
        | some b =>
          if Issue.GetBody issue ≠ b then some (updateIssue c repo issue request w2)
          else some (.ok issue, w2)

/-- Loop of `fetchMilestones`. -/
def fetchMilestonesLoop (c : IGitHubClient σ) (owner repoName : String) :
    Nat → MilestoneListOptions → List (Option Milestone) → World σ →
    Option (Except String (List (Option Milestone)) × World σ)
  | 0, _, _, _ => none
  | fuel + 1, listOpts, resultMilestones, w =>
    match c.ListMilestones owner repoName listOpts w.st with
    | (.error e, s) => some (.error e, w.step (.ListMilestones owner repoName listOpts) s)
    | (.ok (result, response), s) =>
      if response.NextPage = 0 then
        some (.ok (resultMilestones ++ result), w.step (.ListMilestones owner repoName listOpts) s)
      else
        fetchMilestonesLoop c owner repoName fuel { listOpts with Page := response.NextPage }
          (resultMilestones ++ result) (w.step (.ListMilestones owner repoName listOpts) s)

def fetchMilestones (c : IGitHubClient σ) (fuel : Nat) (repo : WorkflowRepository)
    (listOpts : MilestoneListOptions) (w : World σ) :
    Option (Except String (List (Option Milestone)) × World σ) :=
  fetchMilestonesLoop c repo.owner repo.name fuel { listOpts with Page := 0 } [] w

def createMilestone (c : IGitHubClient σ) (repo : WorkflowRepository) (ms : Milestone)
    (w : World σ) : Except String (Option Milestone) × World σ :=
  match c.CreateMilestone repo.owner repo.name ms w.st with
  | (.error e, s) => (.error e, w.step (.CreateMilestone repo.owner repo.name ms) s)
  | (.ok milestone, s) => (.ok milestone, w.step (.CreateMilestone repo.owner repo.name ms) s)

/-- The search loop of `CreateOrUpdateMilestone`: the first fetched milestone
whose title is `title`. The outer `none` is the nil dereference `*title`, met
at the first fetched milestone when `title` is nil. -/
def findMilestoneByTitle (title : Option String) (availableMilestones : List (Option Milestone)) :
    Option (Option (Option Milestone)) :=
  match title, availableMilestones with
  | _, [] => some none
  | none, _ :: _ => none
  | some t, ms => some (ms.find? fun m => Milestone.GetTitle m == t)

def CreateOrUpdateMilestone (c : IGitHubClient σ) (fuel : Nat) (repo : WorkflowRepository)
    (title description : Option String) (dueDate : Option Time) (w : World σ) :
    Option (Except String (Option Milestone) × World σ) :=
  let newMilestone : Milestone :=
    { Number := none, Title := title, Description := description, CreatedAt := none,
      DueOn := dueDate }
  let searchOptions : MilestoneListOptions :=
    { SortField := "due_date", Direction := "desc", Page := 0 }
  match fetchMilestones c fuel repo searchOptions w with
  | none => none
  | some (.error e, w1) => some (.error e, w1)
  | some (.ok availableMilestones, w1) =>
    match findMilestoneByTitle title availableMilestones with
    | none => none
    | some (some ms) => some (.ok ms, w1)
    | some none => some (createMilestone c repo newMilestone w1)

end Workload

/-! ## A Go map as a list of key-value pairs with distinct keys -/

/-- Assignment `m[k] = v`. -/
def mapSet {κ α : Type} [DecidableEq κ] (m : List (κ × α)) (k : κ) (v : α) : List (κ × α) :=
  match m with
  | [] => [(k, v)]
  | (k1, v1) :: rest => if k1 = k then (k, v) :: rest else (k1, v1) :: mapSet rest k v

/-- Lookup `v, ok := m[k]`. -/
def mapGet {κ α : Type} [DecidableEq κ] (m : List (κ × α)) (k : κ) : Option α :=
  match m with
  | [] => none
  | (k1, v1) :: rest => if k1 = k then some v1 else mapGet rest k

section Projects

variable {σ : Type}

/-- Loop of `fetchProjects`. -/
def fetchProjectsLoop (c : IGitHubClient σ) (owner repoName : String) :
    Nat → ProjectListOptions → List (Option Project) → World σ →
    Option (Except String (List (Option Project)) × World σ)
  | 0, _, _, _ => none
  | fuel + 1, listOpts, resultProjects, w =>
    match c.ListProjects owner repoName listOpts w.st with
    | (.error e, s) => some (.error e, w.step (.ListProjects owner repoName listOpts) s)
    | (.ok (result, response), s) =>
      if response.NextPage = 0 then
        some (.ok (resultProjects ++ result), w.step (.ListProjects owner repoName listOpts) s)
      else
        fetchProjectsLoop c owner repoName fuel { listOpts with Page := response.NextPage }
          (resultProjects ++ result) (w.step (.ListProjects owner repoName listOpts) s)

def fetchProjects (c : IGitHubClient σ) (fuel : Nat) (repo : WorkflowRepository)
    (listOpts : ProjectListOptions) (w : World σ) :
    Option (Except String (List (Option Project)) × World σ) :=
  fetchProjectsLoop c repo.owner repo.name fuel { listOpts with Page := 0 } [] w

def createProject (c : IGitHubClient σ) (repo : WorkflowRepository)
    (createOpts : ProjectOptions) (w : World σ) : Except String (Option Project) × World σ :=
  match c.CreateProject repo.owner repo.name createOpts w.st with
  | (r, s) => (r, w.step (.CreateProject repo.owner repo.name createOpts) s)

def updateProject (c : IGitHubClient σ) (project : Option Project)
    (updateOpts : ProjectOptions) (w : World σ) : Except String (Option Project) × World σ :=
  match c.UpdateProject (Project.GetID project) updateOpts w.st with
  | (r, s) => (r, w.step (.UpdateProject (Project.GetID project) updateOpts) s)

/-- Loop of `createProjectColumns` over the remaining names; `resultColumns`
holds the columns created so far. -/
def createProjectColumnsLoop (c : IGitHubClient σ) (project : Option Project) :
    List String → List (Option ProjectColumn) → World σ →
    Except String (List (Option ProjectColumn)) × World σ
  | [], resultColumns, w => (.ok resultColumns, w)
  | col :: rest, resultColumns, w =>
    if col = "" then createProjectColumnsLoop c project rest resultColumns w
    else
      match c.CreateProjectColumn (Project.GetID project) { Name := col } w.st with
      | (.error e, s) =>
        (.error e, w.step (.CreateProjectColumn (Project.GetID project) { Name := col }) s)
      | (.ok colResult, s) =>
        createProjectColumnsLoop c project rest (resultColumns ++ [colResult])
          (w.step (.CreateProjectColumn (Project.GetID project) { Name := col }) s)

def createProjectColumns (c : IGitHubClient σ) (project : Option Project)
    (columns : List String) (w : World σ) :
    Except String (List (Option ProjectColumn)) × World σ :=
  createProjectColumnsLoop c project columns [] w

/-- The search loop of `CreateOrUpdateProject`: the first fetched project
whose name is `title` (a nil entry has the name ""). -/
def findProjectByName (title : String) (availableProjects : List (Option Project)) :
    Option Project :=
  (availableProjects.find? fun proj => Project.GetName proj == title).join

/-- Lines 555-570 of `CreateOrUpdateProject`: create the project and its
columns when no usable project is at hand. -/
def createProjectIfMissing (c : IGitHubClient σ) (repo : WorkflowRepository)
    (createProjectOptions : ProjectOptions) (columns : List String)
    (projectFound : Option Project) (w : World σ) :
    Except String (Option Project) × World σ :=
  if projectFound = none ∨ Project.GetNumber projectFound < 1 then
    match createProject c repo createProjectOptions w with
    | (.error e, w1) => (.error e, w1)
    | (.ok created, w1) =>
      match createProjectColumns c created columns w1 with
      | (.error e, w2) => (.error e, w2)
      | (.ok _, w2) => (.ok created, w2)
  else (.ok projectFound, w)

/-- Method `CreateOrUpdateProject`; `title` and `description` are dereferenced
by its first statement, so they are plain strings. The error of
`fetchProjects` is never inspected: a failed listing leaves
`availableProjects` nil and the function goes on. -/
def CreateOrUpdateProject (c : IGitHubClient σ) (fuel : Nat) (repo : WorkflowRepository)
    (title description : String) (columns : List String) (w : World σ) :
    Option (Except String (Option Project) × World σ) :=
  let listOpts : ProjectListOptions := { State := "", Page := 0 }
  let createProjectOptions : ProjectOptions := { Name := title, Body := description }
  match fetchProjects c fuel repo listOpts w with
  | none => none
  | some (fetched, w1) =>
    let availableProjects := match fetched with
      | .ok ps => ps
      | .error _ => []
    let projectFound := findProjectByName title availableProjects
    if projectFound ≠ none ∧ Project.GetNumber projectFound > 0 then
      if Project.GetBody projectFound ≠ description then
        match updateProject c projectFound createProjectOptions w1 with
        | (.error e, w2) => some (.error e, w2)
        | (.ok updated, w2) =>
          some (createProjectIfMissing c repo createProjectOptions columns updated w2)
      else some (createProjectIfMissing c repo createProjectOptions columns projectFound w1)
    else some (createProjectIfMissing c repo createProjectOptions columns projectFound w1)

/-- Loop of `fetchProjectColumns`. -/
def fetchProjectColumnsLoop (c : IGitHubClient σ) (projectID : Int) :
    Nat → ListOptions → List (Option ProjectColumn) → World σ →
    Option (Except String (List (Option ProjectColumn)) × World σ)
  | 0, _, _, _ => none
  | fuel + 1, listOpts, resultColumns, w =>
    match c.ListProjectColumns projectID listOpts w.st with
    | (.error e, s) => some (.error e, w.step (.ListProjectColumns projectID listOpts) s)
    | (.ok (result, response), s) =>
      if response.NextPage = 0 then
        some (.ok (resultColumns ++ result), w.step (.ListProjectColumns projectID listOpts) s)
      else
        fetchProjectColumnsLoop c projectID fuel { listOpts with Page := response.NextPage }
          (resultColumns ++ result) (w.step (.ListProjectColumns projectID listOpts) s)

def fetchProjectColumns (c : IGitHubClient σ) (fuel : Nat) (project : Option Project)
    (w : World σ) : Option (Except String (List (Option ProjectColumn)) × World σ) :=
  fetchProjectColumnsLoop c (Project.GetID project) fuel { Page := 0 } [] w

/-- Loop of `fetchProjectCards`. -/
def fetchProjectCardsLoop (c : IGitHubClient σ) (columnID : Int) :
    Nat → ListOptions → List (Option ProjectCard) → World σ →
    Option (Except String (List (Option ProjectCard)) × World σ)
  | 0, _, _, _ => none
  | fuel + 1, listOpts, resultCards, w =>
    match c.ListProjectCards columnID listOpts w.st with
    | (.error e, s) => some (.error e, w.step (.ListProjectCards columnID listOpts) s)
    | (.ok (result, response), s) =>
      if response.NextPage = 0 then
        some (.ok (resultCards ++ result), w.step (.ListProjectCards columnID listOpts) s)
      else
        fetchProjectCardsLoop c columnID fuel { listOpts with Page := response.NextPage }
          (resultCards ++ result) (w.step (.ListProjectCards columnID listOpts) s)

def fetchProjectCards (c : IGitHubClient σ) (fuel : Nat) (column : Option ProjectColumn)
    (w : World σ) : Option (Except String (List (Option ProjectCard)) × World σ) :=
  fetchProjectCardsLoop c (ProjectColumn.GetID column) fuel { Page := 0 } [] w

def CreateCardForIssue (c : IGitHubClient σ) (issue : Option Issue)
    (column : Option ProjectColumn) (w : World σ) :
    Except String (Option ProjectCard) × World σ :=
  let cardOpts : ProjectCardOptions := { ContentID := Issue.GetID issue, ContentType := "Issue" }
  match c.CreateProjectCard (ProjectColumn.GetID column) cardOpts w.st with
  | (.error e, s) => (.error e, w.step (.CreateProjectCard (ProjectColumn.GetID column) cardOpts) s)
  | (.ok card, s) => (.ok card, w.step (.CreateProjectCard (ProjectColumn.GetID column) cardOpts) s)

/-- The map-filling loop of `FetchMappedProjectColumns`. -/
def mapColumnsByName (columnsFound : List (Option ProjectColumn)) :
    List (String × Option ProjectColumn) :=
  columnsFound.foldl (fun m col => mapSet m (ProjectColumn.GetName col) col) []

def FetchMappedProjectColumns (c : IGitHubClient σ) (fuel : Nat) (project : Option Project)
    (w : World σ) : Option (Except String (List (String × Option ProjectColumn)) × World σ) :=
  match fetchProjectColumns c fuel project w with
  | none => none
  | some (.error e, w1) => some (.error e, w1)
  | some (.ok columnsFound, w1) => some (.ok (mapColumnsByName columnsFound), w1)

/-- The counting loops of `ColumnsPresent`: `countMissing` starts at
`len(columns)` and drops by one for every pair of a found column and a
requested name that agree. -/
def countMissing (foundColumns : List (Option ProjectColumn)) (columns : List String) : Int :=
  foundColumns.foldl
    (fun cm col => columns.foldl
      (fun cm1 name => if name = ProjectColumn.GetName col then cm1 - 1 else cm1) cm)
    (columns.length : Int)

def ColumnsPresent (c : IGitHubClient σ) (fuel : Nat) (project : Option Project)
    (columns : List String) (w : World σ) : Option (Except String Bool × World σ) :=
  match fetchProjectColumns c fuel project w with
  | none => none
  | some (.error e, w1) => some (.error e, w1)
  | some (.ok foundColumns, w1) => some (.ok (decide (countMissing foundColumns columns < 1)), w1)

end Projects

/-! ## jobs.go: events -/

/-- Type `Event`; field `Typ` is the Go field `Type` ("start", "progress",
"complete" or "error"), a reserved word here. -/
structure Event where
  SessionID : Int
  Typ : String
  Timestamp : Int
  Text : String
  Error : String
deriving DecidableEq, Repr

/-- Function `NewEvent`; `now` is the reading of `time.Now()`. -/
def NewEvent (now : Time) (sid : Int) (typ msg : String) : Event :=
  { SessionID := sid, Typ := typ, Timestamp := now.Unix, Text := msg, Error := "" }

/-- Function `NewError`. -/
def NewError (now : Time) (sid : Int) (msg err : String) : Event :=
  { SessionID := sid, Typ := "error", Timestamp := now.Unix, Text := msg, Error := err }

/-! ## config.go: the setup scheme -/

structure indirectAssignee where
  GithubUsername : String
deriving DecidableEq, Repr

structure TaskEntry where
  Title : String
  Assignee : indirectAssignee
  Description : String
deriving DecidableEq, Repr

structure SetupScheme where
  ClientID : String
  ClientSecret : String
  GithubOrganization : String
  GithubRepository : String
  Tasks : List TaskEntry
  TaskOwners : List (String × indirectAssignee)
deriving DecidableEq, Repr

/-! ## workload.go: the job -/

/-- Type `GenerateProject`; the channel `New` is the event list `Run` returns,
and the client `AuthEnv` resolves is passed to `Run`. -/
structure GenerateProject where
  ID : Int
  Setup : SetupScheme
deriving DecidableEq, Repr

section Job

variable {σ : Type}

/-- Method `WorkflowClient.fetchRepository`. -/
def fetchRepository (c : IGitHubClient σ) (owner name : String) (w : World σ) :
    Except String WorkflowRepository × World σ :=
  match c.Get owner name w.st with
  | (.error e, s) => (.error ("Failed fetchRepository(): " ++ e), w.step (.Get owner name) s)
  | (.ok repo, s) => (.ok { Repository := repo }, w.step (.Get owner name) s)

/-- Method `WorkflowClient.GetRepository`. -/
def GetRepository (c : IGitHubClient σ) (owner name : String) (w : World σ) :
    Except String WorkflowRepository × World σ :=
  fetchRepository c owner name w

/-- The task loop of `Run` (lines 171-186). The boolean tells whether the loop
ran to its end (`true`) or left `Run` through the `return` of a failed issue
(`false`); `evs` are the events sent so far. Go hands `CreateOrUpdateIssue`
the addresses `&task.Title`, `&task.Description` and
`&task.Assignee.GithubUsername` of the one loop variable; here the strings
they hold at the time of the call are passed. The two agree for a tracker that
keeps no pointer of a request, as the remote service; the fake tracker keeps
two of them (see `TestIssues.Create`). -/
def runTasks (c : IGitHubClient σ) (fuel : Nat) (now : Time) (id : Int)
    (repo : WorkflowRepository) (milestone : Option Milestone)
    (columns : List (String × Option ProjectColumn)) :
    List TaskEntry → List Event → World σ → Option (Bool × List Event × World σ)
  | [], evs, w => some (true, evs, w)
  | task :: rest, evs, w =>
    let evs1 := evs ++ [NewEvent now id "progress" ("Preparing Issue - " ++ task.Title)]
    match CreateOrUpdateIssue c fuel repo (some task.Assignee.GithubUsername) (some task.Title)
        (some task.Description) (Milestone.GetNumber milestone) w with
    | none => none
    | some (.error e, w1) =>
      some (false, evs1 ++ [NewError now id ("Failed to create issue - " ++ task.Title) e], w1)
    | some (.ok issue, w1) =>
      match CreateCardForIssue c issue ((mapGet columns "Backlog").join) w1 with
      | (.error e, w2) =>
        runTasks c fuel now id repo milestone columns rest
          (evs1 ++ [NewError now id ("Error creating card - " ++ e) e]) w2
      | (.ok _, w2) => runTasks c fuel now id repo milestone columns rest evs1 w2

/-- Method `GenerateProject.Run`. `username` is what `auth.GithubUsername()`
returned, `c` the client of `auth.newWorkflowClient()`, and `now` the reading
of every `time.Now()`. The result lists the events sent on `job.New` before
the deferred `close`, in order. -/
def Run (c : IGitHubClient σ) (fuel : Nat) (now : Time) (username : String)
    (job : GenerateProject) (w : World σ) : Option (List Event × World σ) :=
  let setup := job.Setup
  let ev0 := [NewEvent now job.ID "start" ("Starting project generation as " ++ username)]
  match GetRepository c setup.GithubOrganization setup.GithubRepository w with
  | (.error e, w1) =>
    some (ev0 ++ [NewError now job.ID ("Failed to repository - " ++ setup.GithubRepository) e], w1)
  | (.ok repo, w1) =>
    let title := "Welcome @" ++ username ++ "!"
    let description :=
      "Let's setup up @" ++ username ++ " for success. Here's what we need to cover..."
    let dueOn := getMilestoneDueTime now none
    let ev1 := ev0 ++ [NewEvent now job.ID "progress" ("Creating Milestone - " ++ title)]
    match CreateOrUpdateMilestone c fuel repo (some title) (some description) (some dueOn) w1 with
    | none => none
    | some (.error e, w2) =>
      some (ev1 ++ [NewError now job.ID ("Failed to create milestone - " ++ title) e], w2)
    | some (.ok milestone, w2) =>
      let ev2 := ev1 ++ [NewEvent now job.ID "progress" ("Creating Project - " ++ title)]
      match CreateOrUpdateProject c fuel repo title description
          ["Backlog", "In Progress", "Review", "Done"] w2 with
      | none => none
      | some (.error e, w3) =>
        some (ev2 ++ [NewError now job.ID ("Failed to create project - " ++ title) e], w3)
      | some (.ok project, w3) =>
        match FetchMappedProjectColumns c fuel project w3 with
        | none => none
        | some (.error e, w4) =>
          some (ev2 ++ [NewError now job.ID "Failed to fetch project columns" e], w4)
        | some (.ok columns, w4) =>
          match runTasks c fuel now job.ID repo milestone columns setup.Tasks ev2 w4 with
          | none => none
          | some (false, evs, w5) => some (evs, w5)
          | some (true, evs, w5) =>
            let projectsURL := "https://github.com/" ++ job.Setup.GithubOrganization ++ "/" ++
              job.Setup.GithubRepository ++ "/projects/"
            let completed := "Successfully created project @ " ++ projectsURL
            some (evs ++ [NewEvent now job.ID "complete" completed], w5)

end Job

/-! ## github_client_test.go: the in-memory tracker

The Go cache is one `map[string]interface{}`; each family of keys is a typed
field here, absent keys being `none` or a missing pair. -/

/-- The cache of `TestGitHubClient`. -/
structure TestCache where
  milestoneCounter : Option Int
  milestoneByNumber : List (Int × Milestone)
  milestones : Option (List Milestone)
  issues : Option (List Issue)
  columnCount : Option Int
  columnByID : List (Int × ProjectColumn)
  projectColumns : List (Int × List ProjectColumn)
  columnCards : List (Int × List ProjectCard)
deriving DecidableEq, Repr

/-- The empty cache made by `prepareGitHubClientTest`. -/
def TestCache.empty : TestCache :=
  { milestoneCounter := none, milestoneByNumber := [], milestones := none, issues := none,
    columnCount := none, columnByID := [], projectColumns := [], columnCards := [] }

/-- Function `prepareGitHubAPIResponse`. -/
def prepareGitHubAPIResponse : Response := { NextPage := 0 }

def TestIssues.ListMilestones (_owner _repo : String) (_opts : MilestoneListOptions)
    (cache : TestCache) : Except String (List (Option Milestone) × Response) × TestCache :=
  (.ok ([], prepareGitHubAPIResponse), cache)

def TestIssues.CreateMilestone (now : Time) (_owner _repo : String) (opts : Milestone)
    (cache : TestCache) : Except String (Option Milestone) × TestCache :=
  let counter : Int := match cache.milestoneCounter with
    | none => 1
    | some n => n + 1
  let opts1 : Milestone := { opts with CreatedAt := some now, Number := some counter }
  let milestones := (cache.milestones.getD []) ++ [opts1]
  (.ok (some opts1),
    { cache with
      milestoneCounter := some counter
      milestoneByNumber := mapSet cache.milestoneByNumber (Milestone.GetNumber (some opts1)) opts1
      milestones := some milestones })

def assigneeListContainsUsername (list : List (Option User)) (username : String) : Bool :=
  list.any fun u => username == User.GetLogin u

/-- Digits of `strconv.Atoi`, most significant first, added to `n`. -/
def atoiDigits : List Char → Int → Option Int
  | [], n => some n
  | ch :: rest, n =>
    if ch.isDigit then atoiDigits rest (n * 10 + ((ch.toNat : Int) - 48)) else none

/-- Function `strconv.Atoi` for 64-bit `int`: `none` is a non-nil error (bad
syntax or a value out of range). -/
def Atoi (s : String) : Option Int :=
  match s.data with
  | [] => none
  | '-' :: rest =>
    if rest = [] then none
    else (atoiDigits rest 0).bind fun n => if n ≤ 2 ^ 63 then some (-n) else none
  | '+' :: rest =>
    if rest = [] then none
    else (atoiDigits rest 0).bind fun n => if n < 2 ^ 63 then some n else none
  | cs => (atoiDigits cs 0).bind fun n => if n < 2 ^ 63 then some n else none

/-- Body of the loop of `TestIssues.ListByRepo`: does `issue` pass the
filter `opts`? -/
def TestIssues.matches (opts : IssueListByRepoOptions) (issue : Issue) : Bool :=
  let matched : Bool :=
    if opts.Assignee = "*" then true
    else if opts.Assignee = "none" then issue.Assignee.isNone
    else if opts.Assignee.length > 0 ∧ opts.Assignee ≠ "none" then
      assigneeListContainsUsername issue.Assignees opts.Assignee
    else false
  if !matched then false
  else if opts.Milestone = "none" then matched && issue.Milestone.isNone
  else if opts.Milestone.length > 0 ∧ issue.Milestone.isSome then
    matched && (match Atoi opts.Milestone with
      | some targetNumber => decide (Milestone.GetNumber issue.Milestone = targetNumber)
      | none => false)
  else if opts.Milestone = "*" then true
  else matched

def TestIssues.ListByRepo (_owner _repo : String) (opts : IssueListByRepoOptions)
    (cache : TestCache) : Except String (List (Option Issue) × Response) × TestCache :=
  let resultIssues := cache.issues.getD []
  let matchingIssues := resultIssues.filter (TestIssues.matches opts)
  (.ok (matchingIssues.map some, prepareGitHubAPIResponse),
    { cache with issues := some resultIssues })

/-- Method `TestIssues.Create`. With `Assignees` and `Assignee` both nil the Go
code dereferences a nil pointer; no caller in this package reaches that case,
which is reported here as an error result. The Go fake puts the pointers
`req.Title` and `req.Body` into the issue it stores, and copies the assignee
names; the model stores the strings the two pointers hold when `Create` runs.
The two agree as long as the caller leaves these strings alone afterwards, as
`TestCreateIssuesMilestones` does with a fresh variable per entry. `Run` hands
over the addresses of its one loop variable, so on the fake the issue stored
for an earlier task shows the title of the task at hand, and a later task with
the same assignee finds it again; with another assignee it is not found and
the fake answers as modelled. -/
def TestIssues.Create (_owner _repo : String) (req : IssueRequest) (cache : TestCache) :
    Except String (Option Issue) × TestCache :=
  let resultIssues := cache.issues.getD []
  let cache1 : TestCache := { cache with issues := some resultIssues }
  let issueNumber : Int := resultIssues.length + 1
  let assignees : Option (List String) := match req.Assignees, req.Assignee with
    | none, some a => some [a]
    | as, _ => as
  match assignees with
  | none => (.error "invalid memory address or nil pointer dereference", cache1)
  | some names =>
    let userList : List (Option User) := names.map fun name => some { Login := some name, Name := none }
    let thisIssue : Issue :=
      { ID := some issueNumber
        Number := some issueNumber
        Title := req.Title
        Body := req.Body
        Assignee := none
        Assignees := userList
        Milestone := some { Number := req.Milestone, Title := none, Description := none,
                            CreatedAt := none, DueOn := none } }
    (.ok (some thisIssue), { cache1 with issues := some (resultIssues ++ [thisIssue]) })

def TestIssues.Edit (_owner _repo : String) (issueID : Int) (req : IssueRequest)
    (cache : TestCache) : Except String (Option Issue) × TestCache :=
  let thisIssue : Issue :=
    { ID := some issueID
      Number := none
      Title := req.Title
      Body := req.Body
      Assignee := none
      Assignees := []
      Milestone := some { Number := req.Milestone, Title := none, Description := none,
                          CreatedAt := none, DueOn := none } }
  (.ok (some thisIssue), cache)

def TestRepositories.CreateProject (now : Time) (_owner _repo : String) (opts : ProjectOptions)
    (cache : TestCache) : Except String (Option Project) × TestCache :=
  let projectNumber : Int := 1001
  (.ok (some { ID := none, Name := some opts.Name, Body := some opts.Body,
               Number := some projectNumber, CreatedAt := some now, UpdatedAt := some now }),
    cache)

/-- Method `TestRepositories.ListProjects`. The three projects take
`Number: &v` from the one loop variable of `for i, v := range []int{1, 2, 3}`
(per-loop variable scoping of the Go releases this package was written for), so
all three share the final value 3. -/
def TestRepositories.ListProjects (_owner _repo : String) (_opts : ProjectListOptions)
    (cache : TestCache) : Except String (List (Option Project) × Response) × TestCache :=
  let names := ["Project 1", "Project 2", "Project 3"]
  let resultProjects : List (Option Project) := names.map fun name =>
    some { ID := none, Name := some name, Body := some "This is a project", Number := some 3,
           CreatedAt := none, UpdatedAt := none }
  (.ok (resultProjects, prepareGitHubAPIResponse), cache)

def TestRepositories.Get (owner repo : String) (cache : TestCache) :
    Except String Repository × TestCache :=
  (.ok { Owner := some { Login := some owner, Name := none }, Name := some repo }, cache)

def TestProjects.UpdateProject (now : Time) (projectID : Int) (opts : ProjectOptions)
    (cache : TestCache) : Except String (Option Project) × TestCache :=
  let projectNumberUpdate : Int := 1002
  (.ok (some { ID := some projectID, Name := some opts.Name, Body := some opts.Body,
               Number := some projectNumberUpdate, CreatedAt := some now,
               UpdatedAt := some now }),
    cache)

def TestProjects.CreateProjectColumn (now : Time) (projectID : Int)
    (opts : ProjectColumnOptions) (cache : TestCache) :
    Except String (Option ProjectColumn) × TestCache :=
  let counter0 : Int := cache.columnCount.getD 1
  let counter : Int := if counter0 < 1 then 1000 else counter0
  let thisColumn : ProjectColumn :=
    { ID := some counter, Name := some opts.Name, CreatedAt := some now }
  let parent := (mapGet cache.projectColumns projectID).getD []
  (.ok (some thisColumn),
    { cache with
      columnCount := some (counter + 1)
      columnByID := mapSet cache.columnByID counter thisColumn
      projectColumns := mapSet cache.projectColumns projectID (parent ++ [thisColumn]) })

def TestProjects.ListProjectColumns (projectID : Int) (_opts : ListOptions)
    (cache : TestCache) : Except String (List (Option ProjectColumn) × Response) × TestCache :=
  match mapGet cache.projectColumns projectID with
  | some ptrCache => (.ok (ptrCache.map some, prepareGitHubAPIResponse), cache)
  | none =>
    (.ok ([], prepareGitHubAPIResponse),
      { cache with projectColumns := mapSet cache.projectColumns projectID [] })

def TestProjects.CreateProjectCard (now : Time) (columnID : Int) (_opt : ProjectCardOptions)
    (cache : TestCache) : Except String (Option ProjectCard) × TestCache :=
  let ptrCache := (mapGet cache.columnCards columnID).getD []
  let count : Int := ptrCache.length + 1
  let card : ProjectCard := { ID := some count, CreatedAt := some now }
  (.ok (some card), { cache with columnCards := mapSet cache.columnCards columnID (ptrCache ++ [card]) })

def TestProjects.ListProjectCards (columnID : Int) (_opt : ListOptions) (cache : TestCache) :
    Except String (List (Option ProjectCard) × Response) × TestCache :=
  match mapGet cache.columnCards columnID with
  | some ptrCache => (.ok (ptrCache.map some, prepareGitHubAPIResponse), cache)
  | none =>
    (.ok ([], prepareGitHubAPIResponse),
      { cache with columnCards := mapSet cache.columnCards columnID [] })

/-- Type `TestGitHubClient` as a client; `now` is the reading of `time.Now()`
stored in created objects. -/
def TestGitHubClient (now : Time) : IGitHubClient TestCache where
  ListMilestones := TestIssues.ListMilestones
  CreateMilestone := TestIssues.CreateMilestone now
  ListByRepo := TestIssues.ListByRepo
  Create := TestIssues.Create
  Edit := TestIssues.Edit
  CreateProject := TestRepositories.CreateProject now
  ListProjects := TestRepositories.ListProjects
  Get := TestRepositories.Get
  UpdateProject := TestProjects.UpdateProject now
  CreateProjectColumn := TestProjects.CreateProjectColumn now
  ListProjectColumns := TestProjects.ListProjectColumns
  CreateProjectCard := TestProjects.CreateProjectCard now
  ListProjectCards := TestProjects.ListProjectCards

/-- The world of a fresh fake tracker: empty cache, no call made yet. -/
def freshWorld : World TestCache := { st := TestCache.empty, trace := [] }

/-- The repository handle `GetRepository("testowner", "testrepo")` yields on
the fake tracker. -/
def testRepo : WorkflowRepository :=
  { Repository := { Owner := some { Login := some "testowner", Name := none },
                    Name := some "testrepo" } }

/-! ## Variants of the fake tracker with one answer replaced -/

/-- The fake tracker, except that every milestone listing answers with the
single page `ms`. -/
def TestGitHubClient.withMilestones (now : Time) (ms : List (Option Milestone)) :
    IGitHubClient TestCache :=
  { TestGitHubClient now with
    ListMilestones := fun _ _ _ cache => (.ok (ms, prepareGitHubAPIResponse), cache) }

/-- The fake tracker, except that every project update answers with `r`. -/
def TestGitHubClient.withUpdateResult (now : Time) (r : Except String (Option Project)) :
    IGitHubClient TestCache :=
  { TestGitHubClient now with UpdateProject := fun _ _ cache => (r, cache) }

/-- The result of a call without the world it leaves behind. -/
def resultOf {α σ : Type} (r : Option (Except String α × World σ)) : Option (Except String α) :=
  r.map fun x => x.1

/-- The calls recorded by a call, as left in its final world. -/
def traceOf {α σ : Type} (r : Option (Except String α × World σ)) : List Call :=
  match r with
  | none => []
  | some x => x.2.trace

deriving instance DecidableEq for Except

/-- Two consecutive calls of `CreateOrUpdateIssue` with identical arguments,
the second in the world the first one left: both results and the final world. -/
def createOrUpdateIssueTwice {σ : Type} (c : IGitHubClient σ) (fuel : Nat)
    (repo : WorkflowRepository) (assignee title body : Option String) (milestone : Int)
    (w : World σ) :
    Option (Except String (Option Issue) × Except String (Option Issue) × World σ) :=
  match CreateOrUpdateIssue c fuel repo assignee title body milestone w with
  | none => none
  | some (first, w1) =>
    match CreateOrUpdateIssue c fuel repo assignee title body milestone w1 with
    | none => none
    | some (second, w2) => some (first, second, w2)

/-- The setup of `TestFullWorkload`. -/
def testSetup : SetupScheme :=
  { ClientID := "TEST_CLIENT_ID"
    ClientSecret := "TEST_CLIENT_SECRET"
    GithubOrganization := "testOrganization"
    GithubRepository := "testRepository"
    Tasks := [⟨"test1", ⟨"test"⟩, "test"⟩, ⟨"test2", ⟨"test"⟩, "test"⟩,
      ⟨"test3", ⟨"test"⟩, "test"⟩]
    TaskOwners := [("new_hire", ⟨"test"⟩)] }

/-- The setup of `TestFullWorkload` with an assignee of its own for each task,
so that on the fake tracker no task finds the issue of another one. -/
def testSetupByOwner : SetupScheme :=
  { ClientID := "TEST_CLIENT_ID"
    ClientSecret := "TEST_CLIENT_SECRET"
    GithubOrganization := "testOrganization"
    GithubRepository := "testRepository"
    Tasks := [⟨"test1", ⟨"owner1"⟩, "test"⟩, ⟨"test2", ⟨"owner2"⟩, "test"⟩,
      ⟨"test3", ⟨"owner3"⟩, "test"⟩]
    TaskOwners := [("new_hire", ⟨"test"⟩)] }

/-- The `Type` fields of the events of a run, in order. -/
def eventTypes {σ : Type} (r : Option (List Event × World σ)) : List String :=
  match r with
  | none => []
  | some x => x.1.map fun e => e.Typ

/-- Is the event of `Type` "progress"? -/
def Event.isProgress (e : Event) : Bool := e.Typ == "progress"

/-- The fake tracker, except that every project listing fails with `e`. -/
def TestGitHubClient.withListProjectsError (now : Time) (e : String) :
    IGitHubClient TestCache :=
  { TestGitHubClient now with ListProjects := fun _ _ _ cache => (.error e, cache) }

/-- The fake tracker, except that creating a milestone fails with `e`. -/
def TestGitHubClient.withCreateMilestoneError (now : Time) (e : String) :
    IGitHubClient TestCache :=
  { TestGitHubClient now with CreateMilestone := fun _ _ _ cache => (.error e, cache) }

/-- The fake tracker, except that creating an issue whose title is in `titles`
fails with `e`. -/
def TestGitHubClient.withIssueFailure (now : Time) (titles : List String) (e : String) :
    IGitHubClient TestCache :=
  { TestGitHubClient now with
    Create := fun owner repo req cache =>
      if req.Title.getD "" ∈ titles then (.error e, cache)
      else TestIssues.Create owner repo req cache }

/-- The fake tracker, except that creating a card for an issue whose id is in
`issueIDs` fails with `e`. -/
def TestGitHubClient.withCardFailure (now : Time) (issueIDs : List Int) (e : String) :
    IGitHubClient TestCache :=
  { TestGitHubClient now with
    CreateProjectCard := fun columnID opt cache =>
      if opt.ContentID ∈ issueIDs then (.error e, cache)
      else TestProjects.CreateProjectCard now columnID opt cache }

/-- The issue that `TestIssues.Create` makes first for assignee "testuser1",
title "Issue #1", body "First Issue" under milestone 1. -/
def issueOne : Issue :=
  { ID := some 1
    Number := some 1
    Title := some "Issue #1"
    Body := some "First Issue"
    Assignee := none
    Assignees := [some { Login := some "testuser1", Name := none }]
    Milestone := some { Number := some 1, Title := none, Description := none,
                        CreatedAt := none, DueOn := none } }

/-- A fake tracker whose cache holds `issueOne` and nothing else. -/
def worldWithIssue : World TestCache :=
  { st := { TestCache.empty with issues := some [issueOne] }, trace := [] }

/-! ## The pagination loop shared by the five fetch helpers

The five fetch loops of workload.go have one shape. `paginate` is that shape,
and a `Pager` holds what differs: the listing request for a page cursor, the
call it records, and the value returned when a request fails. -/

/-- One listing as a fetch loop sees it. `onError e acc` is what the loop
returns when a request fails with `e` after gathering `acc`. -/
structure Pager (σ α : Type) where
  list : Int → σ → Except String (List α × Response) × σ
  call : Int → Call
  onError : String → List α → Except String (List α)

/-- The common loop: request the page at the cursor, stop on a failure or on
`NextPage == 0`, otherwise go on with the cursor `NextPage`. -/
def paginate {σ α : Type} (p : Pager σ α) :
    Nat → Int → List α → World σ → Option (Except String (List α) × World σ)
  | 0, _, _, _ => none
  | fuel + 1, page, acc, w =>
    match p.list page w.st with
    | (.error e, s) => some (p.onError e acc, w.step (p.call page) s)
    | (.ok (items, response), s) =>
      if response.NextPage = 0 then some (.ok (acc ++ items), w.step (p.call page) s)
      else paginate p fuel response.NextPage (acc ++ items) (w.step (p.call page) s)

/-- The listing of `fetchIssues`: a failed request returns the gathered items
and no error. -/
def issuesPager {σ : Type} (c : IGitHubClient σ) (repo : WorkflowRepository)
    (listOpts : IssueListByRepoOptions) : Pager σ (Option Issue) where
  list := fun page s => c.ListByRepo repo.owner repo.name { listOpts with Page := page } s
  call := fun page => Call.ListByRepo repo.owner repo.name { listOpts with Page := page }
  onError := fun _ acc => .ok acc

/-- The listing of `fetchMilestones`. -/
def milestonesPager {σ : Type} (c : IGitHubClient σ) (repo : WorkflowRepository)
    (listOpts : MilestoneListOptions) : Pager σ (Option Milestone) where
  list := fun page s => c.ListMilestones repo.owner repo.name { listOpts with Page := page } s
  call := fun page => Call.ListMilestones repo.owner repo.name { listOpts with Page := page }
  onError := fun e _ => .error e

/-- The listing of `fetchProjects`. -/
def projectsPager {σ : Type} (c : IGitHubClient σ) (repo : WorkflowRepository)
    (listOpts : ProjectListOptions) : Pager σ (Option Project) where
  list := fun page s => c.ListProjects repo.owner repo.name { listOpts with Page := page } s
  call := fun page => Call.ListProjects repo.owner repo.name { listOpts with Page := page }
  onError := fun e _ => .error e

/-- The listing of `fetchProjectColumns`. -/
def columnsPager {σ : Type} (c : IGitHubClient σ) (project : Option Project) :
    Pager σ (Option ProjectColumn) where
  list := fun page s => c.ListProjectColumns (Project.GetID project) { Page := page } s
  call := fun page => Call.ListProjectColumns (Project.GetID project) { Page := page }
  onError := fun e _ => .error e

/-- The listing of `fetchProjectCards`. -/
def cardsPager {σ : Type} (c : IGitHubClient σ) (column : Option ProjectColumn) :
    Pager σ (Option ProjectCard) where
  list := fun page s => c.ListProjectCards (ProjectColumn.GetID column) { Page := page } s
  call := fun page => Call.ListProjectCards (ProjectColumn.GetID column) { Page := page }
  onError := fun e _ => .error e

/-- Starting with the cursor `page` in state `s`, the listing answers the
successive requests without error as `pages` tells: each entry holds the items,
the response and the next tracker state, and each request after the first uses
the `NextPage` of the response before it. -/
def answered {σ α : Type} (list : Int → σ → Except String (List α × Response) × σ) :
    Int → σ → List (List α × Response × σ) → Prop
  | _, _, [] => True
  | page, s, (items, resp, s1) :: rest =>
    list page s = (.ok (items, resp), s1) ∧ answered list resp.NextPage s1 rest

/-- The cursors of the requests that `pages` answers, first one `page`. -/
def cursorsOf {σ α : Type} : Int → List (List α × Response × σ) → List Int
  | _, [] => []
  | page, (_, resp, _) :: rest => page :: cursorsOf resp.NextPage rest

/-- The cursor of the request that follows `pages`: the last `NextPage`. -/
def cursorAfter {σ α : Type} : Int → List (List α × Response × σ) → Int
  | page, [] => page
  | _, (_, resp, _) :: rest => cursorAfter resp.NextPage rest

/-- The tracker state after the requests that `pages` answers. -/
def stateAfter {σ α : Type} : σ → List (List α × Response × σ) → σ
  | s, [] => s
  | _, (_, _, s1) :: rest => stateAfter s1 rest

/-- The items of `pages`, concatenated in page order. -/
def itemsOf {σ α : Type} : List (List α × Response × σ) → List α
  | [] => []
  | (items, _, _) :: rest => items ++ itemsOf rest

/-- The fake tracker, except that milestones are listed in pages: the request
with cursor `k` is answered by entry `k` of `pages`, an `ok` entry reporting
the next cursor `k + 1`, or 0 when it is the last entry. -/
def TestGitHubClient.withMilestonePages (now : Time)
    (pages : List (Except String (List (Option Milestone)))) : IGitHubClient TestCache :=
  { TestGitHubClient now with
    ListMilestones := fun _ _ opts cache =>
      match pages.get? opts.Page.toNat with
      | some (.ok items) =>
        (.ok (items, { NextPage := if opts.Page.toNat + 1 < pages.length then opts.Page + 1 else 0 }),
          cache)
      | some (.error e) => (.error e, cache)
      | none => (.error "404 Not Found", cache) }

/-! ## What the task loop met, task by task -/

/-- What the task loop of `Run` met at one task: the result of the issue
reconciliation and, when that succeeded, the result of the card creation. -/
structure TaskOutcome where
  task : TaskEntry
  issue : Except String (Option Issue)
  card : Option (Except String (Option ProjectCard))

def TaskOutcome.issueFailed (o : TaskOutcome) : Bool :=
  match o.issue with
  | .error _ => true
  | .ok _ => false

def TaskOutcome.cardFailed (o : TaskOutcome) : Bool :=
  match o.card with
  | some (.error _) => true
  | _ => false

/-- The task loop of `Run` once more, making the same calls in the same order
as `runTasks` and keeping what they returned: one outcome per task reached,
the last of them being the first task whose issue failed, if any, and the
world after the last call. -/
def taskOutcomes {σ : Type} (c : IGitHubClient σ) (fuel : Nat) (repo : WorkflowRepository)
    (milestone : Option Milestone) (columns : List (String × Option ProjectColumn)) :
    List TaskEntry → World σ → Option (List TaskOutcome × World σ)
  | [], w => some ([], w)
  | task :: rest, w =>
    match CreateOrUpdateIssue c fuel repo (some task.Assignee.GithubUsername) (some task.Title)
        (some task.Description) (Milestone.GetNumber milestone) w with
    | none => none
    | some (.error e, w1) => some ([{ task := task, issue := .error e, card := none }], w1)
    | some (.ok issue, w1) =>
      match CreateCardForIssue c issue ((mapGet columns "Backlog").join) w1 with
      | (r, w2) =>
        match taskOutcomes c fuel repo milestone columns rest w2 with
        | none => none
        | some (outs, w3) => some ({ task := task, issue := .ok issue, card := some r } :: outs, w3)

/-- The events the task loop sends for one task, by what the task met: the
"Preparing Issue" progress event, then an error event when the issue or the
card failed. -/
def TaskOutcome.events (now : Time) (id : Int) (o : TaskOutcome) : List Event :=
  NewEvent now id "progress" ("Preparing Issue - " ++ o.task.Title) ::
    match o.issue, o.card with
    | .error e, _ => [NewError now id ("Failed to create issue - " ++ o.task.Title) e]
    | .ok _, some (.error e) => [NewError now id ("Error creating card - " ++ e) e]
    | .ok _, _ => []

/-- The events of a list of outcomes, in order. -/
def outcomeEvents (now : Time) (id : Int) : List TaskOutcome → List Event
  | [] => []
  | o :: rest => o.events now id ++ outcomeEvents now id rest

/-- Is the event of `Type` "error"? -/
def Event.isError (e : Event) : Bool := e.Typ == "error"

/-- The fake tracker, except that a created issue comes back with the body
`stored` in place of the requested one, as a tracker that rewrites bodies
does. -/
def TestGitHubClient.withStoredBody (now : Time) (stored : String) : IGitHubClient TestCache :=
  { TestGitHubClient now with
    Create := fun owner repo req cache =>
      match TestIssues.Create owner repo req cache with
      | (.ok (some issue), cache1) => (.ok (some { issue with Body := some stored }), cache1)
      | other => other }

/-- The fake tracker, except that issues are listed in pages: the request with
cursor `k` is answered by entry `k` of `pages`, an `ok` entry reporting the
next cursor `k + 1`, or 0 when it is the last entry. -/
def TestGitHubClient.withIssuePages (now : Time)
    (pages : List (Except String (List (Option Issue)))) : IGitHubClient TestCache :=
  { TestGitHubClient now with
    ListByRepo := fun _ _ opts cache =>
      match pages.get? opts.Page.toNat with
      | some (.ok items) =>
        (.ok (items, { NextPage := if opts.Page.toNat + 1 < pages.length then opts.Page + 1 else 0 }),
          cache)
      | some (.error e) => (.error e, cache)
      | none => (.error "404 Not Found", cache) }

/-- The fake tracker, except that creating a column whose name is in `names`
fails with `e`. -/
def TestGitHubClient.withColumnFailure (now : Time) (names : List String) (e : String) :
    IGitHubClient TestCache :=
  { TestGitHubClient now with
    CreateProjectColumn := fun projectID opts cache =>
      if opts.Name ∈ names then (.error e, cache)
      else TestProjects.CreateProjectColumn now projectID opts cache }

/-- The number of pairs (live column `c`, required entry `n`) with `n` equal
to the name of `c`, every entry of either list counting on its own: for each
live column the number of required entries equal to its name, summed. -/
def matchingPairs (foundColumns : List (Option ProjectColumn)) (columns : List String) : Nat :=
  (foundColumns.map fun c => columns.countP fun n => decide (n = ProjectColumn.GetName c)).sum

/-- The fake tracker with one project present: listing the projects returns
`p` alone, creating an issue whose title is in `titles` fails with `e`, and
creating a card for an issue whose id is in `issueIDs` fails with `e`. -/
def TestGitHubClient.withProject (now : Time) (p : Project) (titles : List String)
    (issueIDs : List Int) (e : String) : IGitHubClient TestCache :=
  { TestGitHubClient now with
    ListProjects := fun _ _ _ cache => (.ok ([some p], prepareGitHubAPIResponse), cache)
    Create := fun owner repo req cache =>
      if req.Title.getD "" ∈ titles then (.error e, cache)
      else TestIssues.Create owner repo req cache
    CreateProjectCard := fun columnID opt cache =>
      if opt.ContentID ∈ issueIDs then (.error e, cache)
      else TestProjects.CreateProjectCard now columnID opt cache }

/-- The project a run for the user "test" looks for, already on the tracker
with the run's description and without any column. -/
def welcomeProject : Project :=
  { ID := some 7, Name := some "Welcome @test!"
    Body := some "Let's setup up @test for success. Here's what we need to cover..."
    Number := some 7, CreatedAt := none, UpdatedAt := none }

/-- The create-card calls of the task loop for a list of outcomes when cards
go to column `columnID`: one per outcome whose issue reconciliation succeeded,
for the issue it returned. -/
def cardCallsOf (columnID : Int) (outs : List TaskOutcome) : List Call :=
  outs.filterMap fun o =>
    match o.issue with
    | .ok issue =>
      some (Call.CreateProjectCard columnID
        { ContentID := Issue.GetID issue, ContentType := "Issue" })
    | .error _ => none

/-! ## workload_test.go: the steps of `TestCreateIssuesMilestones` -/

/-- The loop of `TestCreateIssuesMilestones` over its entries (title,
description, assignee): one `CreateOrUpdateIssue` per entry under milestone
number `milestone`, the error of each call being dropped. -/
def createIssuesLoop {σ : Type} (c : IGitHubClient σ) (fuel : Nat) (repo : WorkflowRepository)
    (milestone : Int) : List (String × String × String) → World σ → Option (World σ)
  | [], w => some w
  | (title, description, assignee) :: rest, w =>
    match CreateOrUpdateIssue c fuel repo (some assignee) (some title) (some description)
        milestone w with
    | none => none
    | some (_, w1) => createIssuesLoop c fuel repo milestone rest w1

/-- The calls of `TestCreateIssuesMilestones` for a milestone name, a
description, a due date and a list of entries: `CreateOrUpdateMilestone`, the
loop over the entries with the number of the milestone returned, then
`GetIssuesByRequest` with only `Milestone: milestone.Number` set. The errors
are dropped as in the test; `none` also stands for the nil dereference
`milestone.Number` when no milestone came back. -/
def issuesUnderMilestone {σ : Type} (c : IGitHubClient σ) (fuel : Nat)
    (repo : WorkflowRepository) (milestoneName milestoneDescription : String) (duedate : Time)
    (issues : List (String × String × String)) (w : World σ) :
    Option (Option Milestone × Except String (List (Option Issue)) × World σ) :=
  match CreateOrUpdateMilestone c fuel repo (some milestoneName) (some milestoneDescription)
      (some duedate) w with
  | none => none
  | some (rm, w1) =>
    let milestone : Option Milestone := match rm with
      | .ok m => m
      | .error _ => none
    match createIssuesLoop c fuel repo (Milestone.GetNumber milestone) issues w1 with
    | none => none
    | some w2 =>
      match milestone with
      | none => none
      | some m =>
        match GetIssuesByRequest c fuel repo
            { Title := none, Body := none, Assignee := none, Milestone := m.Number,
              Assignees := none } w2 with
        | none => none
        | some (issuesFound, w3) => some (milestone, issuesFound, w3)

/-- The (title, assignee) pair of an entry (title, description, assignee). -/
def entryKey (e : String × String × String) : String × String := (e.1, e.2.2)

/-- The issue `TestIssues.Create` stores as number `n` for a request with a
title, a body, one assignee name and a milestone number. -/
def fakeIssue (n : Int) (title body assignee : String) (milestone : Int) : Issue :=
  { ID := some n
    Number := some n
    Title := some title
    Body := some body
    Assignee := none
    Assignees := [some { Login := some assignee, Name := none }]
    Milestone := some { Number := some milestone, Title := none, Description := none,
                        CreatedAt := none, DueOn := none } }

/-- The title of an issue with the login of its first assignee. -/
def issueKey (i : Issue) : String × String :=
  (Issue.GetTitle (some i), User.GetLogin (i.Assignees.head?.join))

/-- The entries of `TestCreateIssuesMilestones`. -/
def testIssues : List (String × String × String) :=
  [("Issue #1", "First Issue", "testuser1"), ("Issue #2", "Second Issue", "testuser2"),
    ("Issue #3", "Third Issue", "testuser3"), ("Issue #1", "Awesome Issue", "testuser1")]

/-! # Theorems -/

/-! ## Due-date policy -/

theorem weekday_range (t : Time) : 0 ≤ t.Weekday ∧ t.Weekday ≤ 6 := by
  unfold Time.Weekday
  omega

/-- C6, counterexample: the reference Saturday 2017-06-24 (day 17341) is six
days before the next Friday, so the claim asks for 21 + 6 = 27 days, but the
due date is 20 days after the reference. -/
theorem getMilestoneDueTime_saturday_offset :
    Time.Weekday ⟨17341, 0⟩ = Saturday ∧ daysUntilFriday Saturday = 6 ∧
    getMilestoneDueTime ⟨17341, 0⟩ (some ⟨17341, 0⟩) = Time.AddDate ⟨17341, 0⟩ 20 ∧
    getMilestoneDueTime ⟨17341, 0⟩ (some ⟨17341, 0⟩) ≠
      Time.AddDate ⟨17341, 0⟩ (21 + daysUntilFriday (Time.Weekday ⟨17341, 0⟩)) := by
  decide

/-- C6, amended: for every reference instant (the given one, or the current
time when none is given) the result is the reference plus 21 days plus `d`
days with `d = Friday - weekday`, a value in {-1, ..., 5}: on Sunday to Friday
`d` is the number of days forward to the next Friday (0 on a Friday), and on a
Saturday `d = -1`. -/
theorem getMilestoneDueTime_offset (now : Time) (fromTime : Option Time) :
    getMilestoneDueTime now fromTime =
        (fromTime.getD now).AddDate (21 + (Friday - (fromTime.getD now).Weekday)) ∧
      -1 ≤ Friday - (fromTime.getD now).Weekday ∧
      Friday - (fromTime.getD now).Weekday ≤ 5 ∧
      ((fromTime.getD now).Weekday ≠ Saturday →
        Friday - (fromTime.getD now).Weekday = daysUntilFriday (fromTime.getD now).Weekday) ∧
      ((fromTime.getD now).Weekday = Saturday → Friday - (fromTime.getD now).Weekday = -1) := by
  have hr := weekday_range (fromTime.getD now)
  refine ⟨?_, ?_, ?_, ?_, ?_⟩
  · cases fromTime <;> rfl
  · unfold Friday; omega
  · unfold Friday; omega
  · intro hs
    unfold daysUntilFriday Friday
    unfold Saturday at hs
    omega
  · intro hs
    unfold Friday
    unfold Saturday at hs
    omega

/-- C7, a reference with a clock shift before the due date: in New York the
midnight of Monday 2017-10-16 (day 17455) has its due date at the midnight of
Friday 2017-11-10, 25 calendar days later; the clocks went back one hour on
2017-11-05, so 25 days and one hour (601 hours) elapse, not 25 whole 24-hour
days. -/
theorem getMilestoneDueTime_weekday_table_shift :
    Time.Weekday ⟨17455, 0⟩ = Monday ∧
    getMilestoneDueTime ⟨0, 0⟩ (some ⟨17455, 0⟩) = ⟨17480, 0⟩ ∧
    (getMilestoneDueTime ⟨0, 0⟩ (some ⟨17455, 0⟩)).Sub NewYork2017 ⟨17455, 0⟩ =
      601 * nsecPerHour ∧
    (getMilestoneDueTime ⟨0, 0⟩ (some ⟨17455, 0⟩)).Sub NewYork2017 ⟨17455, 0⟩ ≠
      25 * nsecPerDay := by
  decide

/-- C7, amended: for every location and every reference, midnight-aligned or
not, the due date is the reference moved by `AddDate` 25, 24, 23, 22, 21, 20
and 26 calendar days (same wall-clock reading) when the reference falls on a
Monday, Tuesday, Wednesday, Thursday, Friday, Saturday and Sunday
respectively; the time elapsed between the two is that many 24-hour days plus
the amount by which the offset of the location from UTC went down from the
reference to the due date, so exactly that many 24-hour days when the offset
is the same at both. -/
theorem getMilestoneDueTime_weekday_table (loc : Location) (now t : Time) :
    (t.Weekday = Monday →
      getMilestoneDueTime now (some t) = t.AddDate 25 ∧
      (getMilestoneDueTime now (some t)).Sub loc t =
        25 * nsecPerDay + (loc.offset t - loc.offset (getMilestoneDueTime now (some t))) ∧
      (loc.offset (getMilestoneDueTime now (some t)) = loc.offset t →
        (getMilestoneDueTime now (some t)).Sub loc t = 25 * nsecPerDay)) ∧
    (t.Weekday = Tuesday →
      getMilestoneDueTime now (some t) = t.AddDate 24 ∧
      (getMilestoneDueTime now (some t)).Sub loc t =
        24 * nsecPerDay + (loc.offset t - loc.offset (getMilestoneDueTime now (some t))) ∧
      (loc.offset (getMilestoneDueTime now (some t)) = loc.offset t →
        (getMilestoneDueTime now (some t)).Sub loc t = 24 * nsecPerDay)) ∧
    (t.Weekday = Wednesday →
      getMilestoneDueTime now (some t) = t.AddDate 23 ∧
      (getMilestoneDueTime now (some t)).Sub loc t =
        23 * nsecPerDay + (loc.offset t - loc.offset (getMilestoneDueTime now (some t))) ∧
      (loc.offset (getMilestoneDueTime now (some t)) = loc.offset t →
        (getMilestoneDueTime now (some t)).Sub loc t = 23 * nsecPerDay)) ∧
    (t.Weekday = Thursday →
      getMilestoneDueTime now (some t) = t.AddDate 22 ∧
      (getMilestoneDueTime now (some t)).Sub loc t =
        22 * nsecPerDay + (loc.offset t - loc.offset (getMilestoneDueTime now (some t))) ∧
      (loc.offset (getMilestoneDueTime now (some t)) = loc.offset t →
        (getMilestoneDueTime now (some t)).Sub loc t = 22 * nsecPerDay)) ∧
    (t.Weekday = Friday →
      getMilestoneDueTime now (some t) = t.AddDate 21 ∧
      (getMilestoneDueTime now (some t)).Sub loc t =
        21 * nsecPerDay + (loc.offset t - loc.offset (getMilestoneDueTime now (some t))) ∧
      (loc.offset (getMilestoneDueTime now (some t)) = loc.offset t →
        (getMilestoneDueTime now (some t)).Sub loc t = 21 * nsecPerDay)) ∧
    (t.Weekday = Saturday →
      getMilestoneDueTime now (some t) = t.AddDate 20 ∧
      (getMilestoneDueTime now (some t)).Sub loc t =
        20 * nsecPerDay + (loc.offset t - loc.offset (getMilestoneDueTime now (some t))) ∧
      (loc.offset (getMilestoneDueTime now (some t)) = loc.offset t →
        (getMilestoneDueTime now (some t)).Sub loc t = 20 * nsecPerDay)) ∧
    (t.Weekday = Sunday →
      getMilestoneDueTime now (some t) = t.AddDate 26 ∧
      (getMilestoneDueTime now (some t)).Sub loc t =
        26 * nsecPerDay + (loc.offset t - loc.offset (getMilestoneDueTime now (some t))) ∧
      (loc.offset (getMilestoneDueTime now (some t)) = loc.offset t →
        (getMilestoneDueTime now (some t)).Sub loc t = 26 * nsecPerDay)) := by
  have key : ∀ k : Int, t.Weekday = 26 - k →
      getMilestoneDueTime now (some t) = t.AddDate k ∧
      (getMilestoneDueTime now (some t)).Sub loc t =
        k * nsecPerDay + (loc.offset t - loc.offset (getMilestoneDueTime now (some t))) ∧
      (loc.offset (getMilestoneDueTime now (some t)) = loc.offset t →
        (getMilestoneDueTime now (some t)).Sub loc t = k * nsecPerDay) := by
    intro k hk
    have hdue : getMilestoneDueTime now (some t) = t.AddDate k := by
      simp only [getMilestoneDueTime, Time.AddDate, Friday, hk]
      congr 1
      ring
    have hsub : (getMilestoneDueTime now (some t)).Sub loc t =
        k * nsecPerDay + (loc.offset t - loc.offset (getMilestoneDueTime now (some t))) := by
      rw [hdue]
      simp only [Time.Sub, Time.AddDate]
      ring
    refine ⟨hdue, hsub, ?_⟩
    intro hoff
    rw [hsub, hoff]
    ring
  exact ⟨fun h => key 25 (by rw [h]; rfl), fun h => key 24 (by rw [h]; rfl),
    fun h => key 23 (by rw [h]; rfl), fun h => key 22 (by rw [h]; rfl),
    fun h => key 21 (by rw [h]; rfl), fun h => key 20 (by rw [h]; rfl),
    fun h => key 26 (by rw [h]; rfl)⟩

/-- C7 at the test's Monday 2017-06-19 (day 17336) at midnight, in New York:
the due date is the midnight of 2017-07-14, and 25 whole 24-hour days elapse
since no clock shift lies in between. -/
theorem getMilestoneDueTime_weekday_table_monday :
    getMilestoneDueTime ⟨0, 0⟩ (some ⟨17336, 0⟩) = ⟨17336 + 25, 0⟩ ∧
    (getMilestoneDueTime ⟨0, 0⟩ (some ⟨17336, 0⟩)).Sub NewYork2017 ⟨17336, 0⟩ =
      25 * nsecPerDay :=
  ⟨((getMilestoneDueTime_weekday_table NewYork2017 ⟨0, 0⟩ ⟨17336, 0⟩).1 (by decide)).1,
    ((getMilestoneDueTime_weekday_table NewYork2017 ⟨0, 0⟩ ⟨17336, 0⟩).1 (by decide)).2.2
      (by decide)⟩

/-- C8: for every reference instant, whatever its weekday, the returned due
date falls on a Friday. -/
theorem getMilestoneDueTime_friday (now : Time) (fromTime : Option Time) :
    (getMilestoneDueTime now fromTime).Weekday = Friday := by
  cases fromTime <;>
    simp only [getMilestoneDueTime, Time.AddDate, Time.Weekday, Friday] <;> omega

/-- C9, counterexample: from the Saturday 2017-06-24 (day 17341) the due date
is 2017-07-14, 20 calendar days later, and 20 whole 24-hour days elapse in UTC
as in New York: less than three full weeks. -/
theorem getMilestoneDueTime_saturday_short :
    Time.Weekday ⟨17341, 0⟩ = Saturday ∧
    getMilestoneDueTime ⟨17341, 0⟩ (some ⟨17341, 0⟩) = ⟨17341 + 20, 0⟩ ∧
    (getMilestoneDueTime ⟨17341, 0⟩ (some ⟨17341, 0⟩)).Sub UTC ⟨17341, 0⟩ = 20 * nsecPerDay ∧
    (getMilestoneDueTime ⟨17341, 0⟩ (some ⟨17341, 0⟩)).Sub NewYork2017 ⟨17341, 0⟩ =
      20 * nsecPerDay ∧
    (getMilestoneDueTime ⟨17341, 0⟩ (some ⟨17341, 0⟩)).Sub UTC ⟨17341, 0⟩ < 21 * nsecPerDay := by
  decide

/-- From the midnight of Friday 2017-02-24 (day 17221) in New York the due
date is the midnight of 2017-03-17, 21 calendar days later; the clocks went
forward one hour on 2017-03-12, so 503 hours elapse, one hour less than 21
24-hour days. -/
theorem getMilestoneDueTime_friday_across_shift :
    Time.Weekday ⟨17221, 0⟩ = Friday ∧
    getMilestoneDueTime ⟨0, 0⟩ (some ⟨17221, 0⟩) = ⟨17221 + 21, 0⟩ ∧
    (getMilestoneDueTime ⟨0, 0⟩ (some ⟨17221, 0⟩)).Sub NewYork2017 ⟨17221, 0⟩ =
      503 * nsecPerHour ∧
    (getMilestoneDueTime ⟨0, 0⟩ (some ⟨17221, 0⟩)).Sub NewYork2017 ⟨17221, 0⟩ <
      21 * nsecPerDay := by
  decide

/-- C9, amended: for every location and every reference instant (the given
one, or the current time when none is given) the due date is the reference
moved by `AddDate` a number of calendar days (same wall-clock reading) that is
at least 20, and at least 21 (three full weeks) whenever the reference is not
a Saturday; the time elapsed is that number of 24-hour days plus the amount by
which the offset of the location from UTC went down from the reference to the
due date, so it is at least 20 days, and 21 days off a Saturday, when the
offset is the same at both. -/
theorem getMilestoneDueTime_lower_bound (loc : Location) (now : Time)
    (fromTime : Option Time) :
    ∃ n : Int,
      getMilestoneDueTime now fromTime = (fromTime.getD now).AddDate n ∧
      20 ≤ n ∧
      ((fromTime.getD now).Weekday ≠ Saturday → 21 ≤ n) ∧
      (getMilestoneDueTime now fromTime).Sub loc (fromTime.getD now) =
        n * nsecPerDay +
          (loc.offset (fromTime.getD now) - loc.offset (getMilestoneDueTime now fromTime)) ∧
      (loc.offset (getMilestoneDueTime now fromTime) = loc.offset (fromTime.getD now) →
        20 * nsecPerDay ≤ (getMilestoneDueTime now fromTime).Sub loc (fromTime.getD now) ∧
        ((fromTime.getD now).Weekday ≠ Saturday →
          21 * nsecPerDay ≤
            (getMilestoneDueTime now fromTime).Sub loc (fromTime.getD now))) := by
  have hr := weekday_range (fromTime.getD now)
  have hdue : getMilestoneDueTime now fromTime =
      (fromTime.getD now).AddDate (21 + (Friday - (fromTime.getD now).Weekday)) := by
    cases fromTime <;> rfl
  have hsub : (getMilestoneDueTime now fromTime).Sub loc (fromTime.getD now) =
      (21 + (Friday - (fromTime.getD now).Weekday)) * nsecPerDay +
        (loc.offset (fromTime.getD now) - loc.offset (getMilestoneDueTime now fromTime)) := by
    conv_lhs => rw [hdue]
    simp only [Time.Sub, Time.AddDate]
    rw [hdue]
    simp only [Time.AddDate]
    ring
  have hpos : (0 : Int) < nsecPerDay := by decide
  have h20 : (20 : Int) ≤ 21 + (Friday - (fromTime.getD now).Weekday) := by
    unfold Friday; omega
  have h21 : (fromTime.getD now).Weekday ≠ Saturday →
      (21 : Int) ≤ 21 + (Friday - (fromTime.getD now).Weekday) := by
    intro hs
    unfold Saturday at hs
    unfold Friday; omega
  refine ⟨21 + (Friday - (fromTime.getD now).Weekday), hdue, h20, h21, hsub, ?_⟩
  intro hoff
  rw [hsub, hoff]
  constructor
  · nlinarith
  · intro hs
    have := h21 hs
    nlinarith

/-! ## Milestones -/

section MilestoneTheorems

variable {σ : Type}

theorem fetchMilestonesLoop_trace (c : IGitHubClient σ) (owner repoName : String) :
    ∀ (fuel : Nat) (listOpts : MilestoneListOptions) (acc : List (Option Milestone))
      (w w1 : World σ) (r : Except String (List (Option Milestone))),
      fetchMilestonesLoop c owner repoName fuel listOpts acc w = some (r, w1) →
      ∃ calls : List Call, w1.trace = w.trace ++ calls ∧
        ∀ x ∈ calls, ∃ opts, x = Call.ListMilestones owner repoName opts := by
  intro fuel
  induction fuel with
  | zero => intro listOpts acc w w1 r h; simp [fetchMilestonesLoop] at h
  | succ n ih =>
    intro listOpts acc w w1 r h
    unfold fetchMilestonesLoop at h
    rcases hres : c.ListMilestones owner repoName listOpts w.st with ⟨res, s⟩
    rw [hres] at h
    cases res with
    | error e =>
      simp only [Option.some.injEq, Prod.mk.injEq] at h
      refine ⟨[Call.ListMilestones owner repoName listOpts], ?_, ?_⟩
      · rw [← h.2]; rfl
      · intro x hx
        simp only [List.mem_singleton] at hx
        exact ⟨listOpts, hx⟩
    | ok pr =>
      obtain ⟨result, response⟩ := pr
      simp only at h
      split at h
      · simp only [Option.some.injEq, Prod.mk.injEq] at h
        refine ⟨[Call.ListMilestones owner repoName listOpts], ?_, ?_⟩
        · rw [← h.2]; rfl
        · intro x hx
          simp only [List.mem_singleton] at hx
          exact ⟨listOpts, hx⟩
      · obtain ⟨calls, hc, hall⟩ := ih _ _ _ _ _ h
        refine ⟨Call.ListMilestones owner repoName listOpts :: calls, ?_, ?_⟩
        · rw [hc]; simp [World.step]
        · intro x hx
          rcases List.mem_cons.mp hx with hx | hx
          · exact ⟨listOpts, hx⟩
          · exact hall x hx

/-- C1: when the milestones fetched from the repository contain one whose
title equals the given title, `CreateOrUpdateMilestone` returns the first such
milestone in fetch order, unchanged, whatever the description and due date
are; the only remote calls it makes are the milestone listings of the fetch,
so no create-milestone call is made. -/
theorem CreateOrUpdateMilestone_existing (c : IGitHubClient σ) (fuel : Nat)
    (repo : WorkflowRepository) (title : String) (description : Option String)
    (dueDate : Option Time) (w w1 : World σ) (ms : List (Option Milestone))
    (hfetch : fetchMilestones c fuel repo
      { SortField := "due_date", Direction := "desc", Page := 0 } w = some (.ok ms, w1))
    (hmem : ∃ m ∈ ms, Milestone.GetTitle m = title) :
    ∃ (found : Option Milestone) (before after : List (Option Milestone)),
      ms = before ++ found :: after ∧
      (∀ m ∈ before, Milestone.GetTitle m ≠ title) ∧
      Milestone.GetTitle found = title ∧
      CreateOrUpdateMilestone c fuel repo (some title) description dueDate w =
        some (.ok found, w1) ∧
      (∃ calls : List Call, w1.trace = w.trace ++ calls ∧
        (∀ x ∈ calls, ∃ opts, x = Call.ListMilestones repo.owner repo.name opts) ∧
        ∀ x ∈ calls, x.isCreateMilestone = false) := by
  obtain ⟨m, hm, hmt⟩ := hmem
  have hsome : (ms.find? fun m => Milestone.GetTitle m == title).isSome = true := by
    rw [List.find?_isSome]
    exact ⟨m, hm, by simp [hmt]⟩
  obtain ⟨found, hfound⟩ := Option.isSome_iff_exists.mp hsome
  obtain ⟨hp, before, after, hsplit, hbefore⟩ := List.find?_eq_some.mp hfound
  obtain ⟨calls, hcalls, hlist⟩ := fetchMilestonesLoop_trace c _ _ _ _ _ _ _ _ hfetch
  refine ⟨found, before, after, hsplit, ?_, ?_, ?_, calls, hcalls, hlist, ?_⟩
  · intro a ha
    have := hbefore a ha
    simpa using this
  · simpa using hp
  · have hne : ms ≠ [] := List.ne_nil_of_mem hm
    unfold CreateOrUpdateMilestone
    simp only [hfetch]
    cases ms with
    | nil => exact absurd rfl hne
    | cons a rest => simp only [findMilestoneByTitle, hfound]
  · intro x hx
    obtain ⟨opts, rfl⟩ := hlist x hx
    rfl

/-- C1 on a tracker listing the milestones "Other" and "Welcome @alice!": the
call with title "Welcome @alice!" and a fresh description returns the listed
milestone number 7 after one listing call. -/
theorem CreateOrUpdateMilestone_existing_example :
    ∃ (found : Option Milestone) (before after : List (Option Milestone)),
      [some (Milestone.mk (some 4) (some "Other") none none none),
        some (Milestone.mk (some 7) (some "Welcome @alice!") (some "old") none none)] =
        before ++ found :: after ∧
      (∀ m ∈ before, Milestone.GetTitle m ≠ "Welcome @alice!") ∧
      Milestone.GetTitle found = "Welcome @alice!" ∧
      CreateOrUpdateMilestone
        (TestGitHubClient.withMilestones ⟨0, 0⟩
          [some (Milestone.mk (some 4) (some "Other") none none none),
            some (Milestone.mk (some 7) (some "Welcome @alice!") (some "old") none none)])
        1 testRepo (some "Welcome @alice!") (some "new") (some ⟨21, 0⟩) freshWorld =
        some (.ok found,
          ⟨TestCache.empty, [Call.ListMilestones "testowner" "testrepo" ⟨"due_date", "desc", 0⟩]⟩) ∧
      (∃ calls : List Call,
        (World.mk TestCache.empty
          [Call.ListMilestones "testowner" "testrepo" ⟨"due_date", "desc", 0⟩]).trace =
          freshWorld.trace ++ calls ∧
        (∀ x ∈ calls, ∃ opts, x = Call.ListMilestones testRepo.owner testRepo.name opts) ∧
        ∀ x ∈ calls, x.isCreateMilestone = false) :=
  CreateOrUpdateMilestone_existing
    (TestGitHubClient.withMilestones ⟨0, 0⟩
      [some (Milestone.mk (some 4) (some "Other") none none none),
        some (Milestone.mk (some 7) (some "Welcome @alice!") (some "old") none none)])
    1 testRepo "Welcome @alice!" (some "new") (some ⟨21, 0⟩) freshWorld
    ⟨TestCache.empty, [Call.ListMilestones "testowner" "testrepo" ⟨"due_date", "desc", 0⟩]⟩
    _ rfl ⟨_, List.mem_cons_of_mem _ (List.mem_singleton.mpr rfl), rfl⟩

end MilestoneTheorems

/-! ## Projects -/

section ProjectTheorems

variable {σ : Type}

theorem fetchProjectsLoop_trace (c : IGitHubClient σ) (owner repoName : String) :
    ∀ (fuel : Nat) (listOpts : ProjectListOptions) (acc : List (Option Project))
      (w w1 : World σ) (r : Except String (List (Option Project))),
      fetchProjectsLoop c owner repoName fuel listOpts acc w = some (r, w1) →
      ∃ calls : List Call, w1.trace = w.trace ++ calls ∧
        ∀ x ∈ calls, ∃ opts, x = Call.ListProjects owner repoName opts := by
  intro fuel
  induction fuel with
  | zero => intro listOpts acc w w1 r h; simp [fetchProjectsLoop] at h
  | succ n ih =>
    intro listOpts acc w w1 r h
    unfold fetchProjectsLoop at h
    rcases hres : c.ListProjects owner repoName listOpts w.st with ⟨res, s⟩
    rw [hres] at h
    cases res with
    | error e =>
      simp only [Option.some.injEq, Prod.mk.injEq] at h
      refine ⟨[Call.ListProjects owner repoName listOpts], ?_, ?_⟩
      · rw [← h.2]; rfl
      · intro x hx
        simp only [List.mem_singleton] at hx
        exact ⟨listOpts, hx⟩
    | ok pr =>
      obtain ⟨result, response⟩ := pr
      simp only at h
      split at h
      · simp only [Option.some.injEq, Prod.mk.injEq] at h
        refine ⟨[Call.ListProjects owner repoName listOpts], ?_, ?_⟩
        · rw [← h.2]; rfl
        · intro x hx
          simp only [List.mem_singleton] at hx
          exact ⟨listOpts, hx⟩
      · obtain ⟨calls, hc, hall⟩ := ih _ _ _ _ _ h
        refine ⟨Call.ListProjects owner repoName listOpts :: calls, ?_, ?_⟩
        · rw [hc]; simp [World.step]
        · intro x hx
          rcases List.mem_cons.mp hx with hx | hx
          · exact ⟨listOpts, hx⟩
          · exact hall x hx

/-- A column loop that ends without error has made one create-column call for
each non-empty name, in order, addressed to the project's id. -/
theorem createProjectColumnsLoop_trace (c : IGitHubClient σ) (project : Option Project) :
    ∀ (columns : List String) (acc cols : List (Option ProjectColumn)) (w w1 : World σ),
      createProjectColumnsLoop c project columns acc w = (.ok cols, w1) →
      w1.trace = w.trace ++ (columns.filter fun n => n ≠ "").map fun n =>
        Call.CreateProjectColumn (Project.GetID project) { Name := n } := by
  intro columns
  induction columns with
  | nil =>
    intro acc cols w w1 h
    simp only [createProjectColumnsLoop, Prod.mk.injEq] at h
    simp [← h.2]
  | cons col rest ih =>
    intro acc cols w w1 h
    unfold createProjectColumnsLoop at h
    by_cases hcol : col = ""
    · simp only [hcol, if_true] at h
      rw [ih _ _ _ _ h]
      simp [hcol]
    · simp only [hcol, if_false] at h
      rcases hres : c.CreateProjectColumn (Project.GetID project) { Name := col } w.st
        with ⟨res, s⟩
      rw [hres] at h
      cases res with
      | error e => simp at h
      | ok colResult =>
        simp only at h
        rw [ih _ _ _ _ h]
        simp [hcol, World.step]

/-- C3, counterexample: on the fake tracker, "Project 1" is listed with number
3 and body "This is a project"; the update call succeeds but answers with a
project that carries no number. The call then goes on to create a project and
a column, and returns the created project (number 1001), not the updated one. -/
theorem CreateOrUpdateProject_update_unusable :
    resultOf (fetchProjects (TestGitHubClient.withUpdateResult ⟨0, 0⟩
        (.ok (some ⟨some 5, some "Project 1", some "new", none, none, none⟩)))
      1 testRepo ⟨"", 0⟩ freshWorld) =
      some (.ok [some ⟨none, some "Project 1", some "This is a project", some 3, none, none⟩,
        some ⟨none, some "Project 2", some "This is a project", some 3, none, none⟩,
        some ⟨none, some "Project 3", some "This is a project", some 3, none, none⟩]) ∧
    resultOf (CreateOrUpdateProject
      (TestGitHubClient.withUpdateResult ⟨0, 0⟩
        (.ok (some ⟨some 5, some "Project 1", some "new", none, none, none⟩)))
      1 testRepo "Project 1" "new" ["Backlog"] freshWorld) =
      some (.ok (some ⟨none, some "Project 1", some "new", some 1001, some ⟨0, 0⟩, some ⟨0, 0⟩⟩)) ∧
    traceOf (CreateOrUpdateProject
      (TestGitHubClient.withUpdateResult ⟨0, 0⟩
        (.ok (some ⟨some 5, some "Project 1", some "new", none, none, none⟩)))
      1 testRepo "Project 1" "new" ["Backlog"] freshWorld) =
      [Call.ListProjects "testowner" "testrepo" ⟨"", 0⟩,
        Call.UpdateProject 0 ⟨"Project 1", "new"⟩,
        Call.CreateProject "testowner" "testrepo" ⟨"Project 1", "new"⟩,
        Call.CreateProjectColumn 0 ⟨"Backlog"⟩] := by
  decide

/-- C3, amended: when the first fetched project whose name equals the title
has a number > 0 and a body different from the description, and the update
call succeeds with a project whose number is at least 1, the call returns the
project produced by the update, and the remote calls it makes are the project
listings of the fetch followed by exactly one update call (name = title, body
= description): no create-project and no create-column call. -/
theorem CreateOrUpdateProject_update (c : IGitHubClient σ) (fuel : Nat)
    (repo : WorkflowRepository) (title description : String) (columns : List String)
    (w w1 : World σ) (ps : List (Option Project)) (p : Project) (upd : Option Project) (s2 : σ)
    (hfetch : fetchProjects c fuel repo { State := "", Page := 0 } w = some (.ok ps, w1))
    (hfind : (ps.find? fun proj => Project.GetName proj == title) = some (some p))
    (hnum : Project.GetNumber (some p) > 0)
    (hbody : Project.GetBody (some p) ≠ description)
    (hupd : c.UpdateProject (Project.GetID (some p)) { Name := title, Body := description } w1.st
      = (.ok upd, s2))
    (husable : 1 ≤ Project.GetNumber upd) :
    ∃ calls : List Call,
      (∀ x ∈ calls, ∃ opts, x = Call.ListProjects repo.owner repo.name opts) ∧
      CreateOrUpdateProject c fuel repo title description columns w =
        some (.ok upd,
          { st := s2
            trace := w.trace ++ calls ++
              [Call.UpdateProject (Project.GetID (some p)) { Name := title, Body := description }] })
    := by
  obtain ⟨calls, hcalls, hlist⟩ := fetchProjectsLoop_trace c _ _ _ _ _ _ _ _ hfetch
  refine ⟨calls, hlist, ?_⟩
  have hupdne : upd ≠ none := by
    intro h
    rw [h] at husable
    simp [Project.GetNumber] at husable
  have hnot : ¬ (upd = none ∨ Project.GetNumber upd < 1) := by
    intro h
    rcases h with h | h
    · exact hupdne h
    · omega
  have hpf : findProjectByName title ps = some p := by
    simp [findProjectByName, hfind]
  have hcond : findProjectByName title ps ≠ none ∧
      Project.GetNumber (findProjectByName title ps) > 0 := by
    rw [hpf]
    exact ⟨by simp, hnum⟩
  have hbody1 : Project.GetBody (findProjectByName title ps) ≠ description := by
    rw [hpf]
    exact hbody
  unfold CreateOrUpdateProject
  simp only [hfetch]
  rw [if_pos hcond, if_pos hbody1, hpf]
  simp only [updateProject, hupd, createProjectIfMissing, if_neg hnot, World.step, hcalls]

/-- C3, amended, on the fake tracker: "Project 1" (number 3) is updated to the
description "new"; the fake answers with number 1002. -/
theorem CreateOrUpdateProject_update_example :
    ∃ calls : List Call,
      (∀ x ∈ calls, ∃ opts, x = Call.ListProjects testRepo.owner testRepo.name opts) ∧
      CreateOrUpdateProject (TestGitHubClient ⟨0, 0⟩) 1 testRepo "Project 1" "new"
          ["Backlog"] freshWorld =
        some (.ok (some ⟨some 0, some "Project 1", some "new", some 1002, some ⟨0, 0⟩,
            some ⟨0, 0⟩⟩),
          { st := TestCache.empty
            trace := freshWorld.trace ++ calls ++
              [Call.UpdateProject
                (Project.GetID (some ⟨none, some "Project 1", some "This is a project", some 3,
                  none, none⟩))
                { Name := "Project 1", Body := "new" }] }) :=
  CreateOrUpdateProject_update (TestGitHubClient ⟨0, 0⟩) 1 testRepo "Project 1" "new"
    ["Backlog"] freshWorld
    ⟨TestCache.empty, [Call.ListProjects "testowner" "testrepo" ⟨"", 0⟩]⟩ _
    ⟨none, some "Project 1", some "This is a project", some 3, none, none⟩ _ _
    rfl rfl (by decide) (by decide) rfl (by decide)

end ProjectTheorems

section ProjectCreateTheorems

variable {σ : Type}

/-- C4: when no fetched project has a name equal to the title and the remote
calls succeed, `CreateOrUpdateProject` returns the created project, and after
the project listings of the fetch it makes exactly one create-project call
(name = title, body = description) followed by one create-column call for each
non-empty entry of `columns`, in input order, each addressed to the created
project's id; it makes no update call. -/
theorem CreateOrUpdateProject_create (c : IGitHubClient σ) (fuel : Nat)
    (repo : WorkflowRepository) (title description : String) (columns : List String)
    (w w1 w3 : World σ) (ps : List (Option Project)) (created : Option Project) (s2 : σ)
    (cols : List (Option ProjectColumn))
    (hfetch : fetchProjects c fuel repo { State := "", Page := 0 } w = some (.ok ps, w1))
    (hnone : ∀ proj ∈ ps, Project.GetName proj ≠ title)
    (hcreate : c.CreateProject repo.owner repo.name { Name := title, Body := description } w1.st
      = (.ok created, s2))
    (hcols : createProjectColumns c created columns
      (w1.step (Call.CreateProject repo.owner repo.name { Name := title, Body := description }) s2)
      = (.ok cols, w3)) :
    CreateOrUpdateProject c fuel repo title description columns w = some (.ok created, w3) ∧
    ∃ calls : List Call,
      (∀ x ∈ calls, ∃ opts, x = Call.ListProjects repo.owner repo.name opts) ∧
      w3.trace = w.trace ++ calls ++
        [Call.CreateProject repo.owner repo.name { Name := title, Body := description }] ++
        (columns.filter fun n => n ≠ "").map fun n =>
          Call.CreateProjectColumn (Project.GetID created) { Name := n } := by
  obtain ⟨calls, hcalls, hlist⟩ := fetchProjectsLoop_trace c _ _ _ _ _ _ _ _ hfetch
  have hpf : findProjectByName title ps = none := by
    have : (ps.find? fun proj => Project.GetName proj == title) = none := by
      rw [List.find?_eq_none]
      intro x hx
      simpa using hnone x hx
    simp [findProjectByName, this]
  constructor
  · unfold CreateOrUpdateProject
    simp only [hfetch, hpf]
    simp only [ne_eq, not_true_eq_false, false_and, if_false, createProjectIfMissing, true_or,
      if_true, createProject, hcreate, hcols]
  · refine ⟨calls, hlist, ?_⟩
    have := createProjectColumnsLoop_trace c created columns [] cols _ w3 hcols
    rw [this]
    simp [World.step, hcalls]

/-- C4 on the fresh fake tracker: "testproject" is not listed, so the project
is created and the two non-empty names get one column each; the empty name is
skipped. The fake assigns no id to the project, so the columns go to id 0. -/
theorem CreateOrUpdateProject_create_example :
    CreateOrUpdateProject (TestGitHubClient ⟨0, 0⟩) 1 testRepo "testproject" "super awesome."
        ["test column 1", "", "test column 2"] freshWorld =
      some (.ok (some ⟨none, some "testproject", some "super awesome.", some 1001, some ⟨0, 0⟩,
          some ⟨0, 0⟩⟩),
        (createProjectColumns (TestGitHubClient ⟨0, 0⟩)
          (some ⟨none, some "testproject", some "super awesome.", some 1001, some ⟨0, 0⟩,
            some ⟨0, 0⟩⟩)
          ["test column 1", "", "test column 2"]
          ⟨TestCache.empty, [Call.ListProjects "testowner" "testrepo" ⟨"", 0⟩,
            Call.CreateProject "testowner" "testrepo" ⟨"testproject", "super awesome."⟩]⟩).2) ∧
    ∃ calls : List Call,
      (∀ x ∈ calls, ∃ opts, x = Call.ListProjects testRepo.owner testRepo.name opts) ∧
      (createProjectColumns (TestGitHubClient ⟨0, 0⟩)
          (some ⟨none, some "testproject", some "super awesome.", some 1001, some ⟨0, 0⟩,
            some ⟨0, 0⟩⟩)
          ["test column 1", "", "test column 2"]
          ⟨TestCache.empty, [Call.ListProjects "testowner" "testrepo" ⟨"", 0⟩,
            Call.CreateProject "testowner" "testrepo" ⟨"testproject", "super awesome."⟩]⟩).2.trace =
        freshWorld.trace ++ calls ++
          [Call.CreateProject testRepo.owner testRepo.name
            { Name := "testproject", Body := "super awesome." }] ++
          (["test column 1", "", "test column 2"].filter fun n => n ≠ "").map fun n =>
            Call.CreateProjectColumn
              (Project.GetID (some ⟨none, some "testproject", some "super awesome.", some 1001,
                some ⟨0, 0⟩, some ⟨0, 0⟩⟩))
              { Name := n } :=
  CreateOrUpdateProject_create (TestGitHubClient ⟨0, 0⟩) 1 testRepo "testproject"
    "super awesome." ["test column 1", "", "test column 2"] freshWorld
    ⟨TestCache.empty, [Call.ListProjects "testowner" "testrepo" ⟨"", 0⟩]⟩ _ _ _ TestCache.empty _
    rfl (by decide) rfl rfl

/-- The calls of the create path on the fresh fake tracker, written out. -/
theorem CreateOrUpdateProject_create_example_trace :
    traceOf (CreateOrUpdateProject (TestGitHubClient ⟨0, 0⟩) 1 testRepo "testproject"
        "super awesome." ["test column 1", "", "test column 2"] freshWorld) =
      [Call.ListProjects "testowner" "testrepo" ⟨"", 0⟩,
        Call.CreateProject "testowner" "testrepo" ⟨"testproject", "super awesome."⟩,
        Call.CreateProjectColumn 0 ⟨"test column 1"⟩,
        Call.CreateProjectColumn 0 ⟨"test column 2"⟩] := by
  decide

end ProjectCreateTheorems

/-! ## Columns -/

/-- C5, the code at a failing input: a project whose two live columns are both
named "Backlog" (made on the fake tracker by two create-column calls) has no
column "Done", yet `ColumnsPresent` answers true for the required names
"Backlog" and "Done": both live columns are counted against the one name. -/
theorem ColumnsPresent_duplicate_live_names :
    resultOf (fetchProjectColumns (TestGitHubClient ⟨0, 0⟩) 1 none
      (createProjectColumns (TestGitHubClient ⟨0, 0⟩) none ["Backlog", "Backlog"] freshWorld).2) =
      some (.ok [some ⟨some 1, some "Backlog", some ⟨0, 0⟩⟩,
        some ⟨some 2, some "Backlog", some ⟨0, 0⟩⟩]) ∧
    countMissing [some ⟨some 1, some "Backlog", some ⟨0, 0⟩⟩,
      some ⟨some 2, some "Backlog", some ⟨0, 0⟩⟩] ["Backlog", "Done"] = 0 ∧
    resultOf (ColumnsPresent (TestGitHubClient ⟨0, 0⟩) 1 none ["Backlog", "Done"]
      (createProjectColumns (TestGitHubClient ⟨0, 0⟩) none ["Backlog", "Backlog"] freshWorld).2) =
      some (.ok true) := by
  decide

/-! ## Issues on the fake tracker -/

/-- C2, the code at a failing input: on a fresh fake tracker, two consecutive
calls with assignee "testuser1", title "Issue #1", body "First Issue" and
milestone 0 return the issues number 1 and number 2, and the tracker's Create
is invoked twice. -/
theorem CreateOrUpdateIssue_twice_without_milestone :
    (createOrUpdateIssueTwice (TestGitHubClient ⟨0, 0⟩) 1 testRepo (some "testuser1")
        (some "Issue #1") (some "First Issue") 0 freshWorld).map
      (fun r => (r.1.map Issue.GetNumber, r.2.1.map Issue.GetNumber,
        (r.2.2.trace.filter Call.isCreate).length,
        r.2.2.st.issues.map List.length)) =
      some (.ok 1, .ok 2, 2, some 2) := by
  decide

/-- The same two calls with milestone 1 return issue number 1 both times after
a single Create. -/
theorem CreateOrUpdateIssue_twice_with_milestone :
    (createOrUpdateIssueTwice (TestGitHubClient ⟨0, 0⟩) 1 testRepo (some "testuser1")
        (some "Issue #1") (some "First Issue") 1 freshWorld).map
      (fun r => (r.1.map Issue.GetNumber, r.2.1.map Issue.GetNumber,
        (r.2.2.trace.filter Call.isCreate).length,
        r.2.2.st.issues.map List.length)) =
      some (.ok 1, .ok 1, 1, some 1) := by
  decide

/-- With the empty assignee name the second call misses the first issue even
under milestone 1: the fake matches a named assignee only when the name is
non-empty. -/
theorem CreateOrUpdateIssue_twice_empty_assignee :
    (createOrUpdateIssueTwice (TestGitHubClient ⟨0, 0⟩) 1 testRepo (some "")
        (some "Issue #1") (some "First Issue") 1 freshWorld).map
      (fun r => (r.1.map Issue.GetNumber, r.2.1.map Issue.GetNumber,
        (r.2.2.trace.filter Call.isCreate).length,
        r.2.2.st.issues.map List.length)) =
      some (.ok 1, .ok 2, 2, some 2) := by
  decide

/-! ## The job -/

/-- C10, counterexample: the run of `TestFullWorkload` (three tasks, fresh fake
tracker) ends with a complete event and has five progress events. -/
theorem Run_progress_count_full_workload :
    eventTypes (Run (TestGitHubClient ⟨0, 0⟩) 1 ⟨0, 0⟩ "test" ⟨42, testSetup⟩ freshWorld) =
      ["start", "progress", "progress", "progress", "progress", "progress", "complete"] ∧
    testSetup.Tasks.length = 3 := by
  decide

section JobTheorems

variable {σ : Type}

theorem NewEvent_isProgress (now : Time) (sid : Int) (msg : String) :
    (NewEvent now sid "progress" msg).isProgress = true := by
  simp [NewEvent, Event.isProgress]

theorem NewError_isProgress (now : Time) (sid : Int) (msg err : String) :
    (NewError now sid msg err).isProgress = false := by
  simp [NewError, Event.isProgress]

/-- The task loop: when it runs to its end, its progress events are one
"Preparing Issue" event per task, in task order; when it leaves through a
failed issue, the last event sent is an error event. -/
theorem runTasks_events (c : IGitHubClient σ) (fuel : Nat) (now : Time) (id : Int)
    (repo : WorkflowRepository) (milestone : Option Milestone)
    (columns : List (String × Option ProjectColumn)) :
    ∀ (tasks : List TaskEntry) (evs : List Event) (w : World σ) (b : Bool)
      (evs1 : List Event) (w1 : World σ),
      runTasks c fuel now id repo milestone columns tasks evs w = some (b, evs1, w1) →
      (b = true → evs1.filter Event.isProgress = evs.filter Event.isProgress ++
        tasks.map fun t => NewEvent now id "progress" ("Preparing Issue - " ++ t.Title)) ∧
      (b = false → ∃ e, evs1.getLast? = some e ∧ e.Typ = "error") := by
  intro tasks
  induction tasks with
  | nil =>
    intro evs w b evs1 w1 h
    simp only [runTasks, Option.some.injEq, Prod.mk.injEq] at h
    obtain ⟨hb, he, _⟩ := h
    subst hb he
    simp
  | cons task rest ih =>
    intro evs w b evs1 w1 h
    unfold runTasks at h
    simp only at h
    rcases hissue : CreateOrUpdateIssue c fuel repo (some task.Assignee.GithubUsername)
      (some task.Title) (some task.Description) (Milestone.GetNumber milestone) w with _ | ⟨r, w2⟩
    · rw [hissue] at h
      simp at h
    · rw [hissue] at h
      cases r with
      | error e =>
        simp only [Option.some.injEq, Prod.mk.injEq] at h
        obtain ⟨hb, he, _⟩ := h
        subst hb he
        refine ⟨by simp, fun _ => ⟨_, List.getLast?_concat _, rfl⟩⟩
      | ok issue =>
        simp only at h
        rcases hcard : CreateCardForIssue c issue ((mapGet columns "Backlog").join) w2
          with ⟨rc, w3⟩
        rw [hcard] at h
        cases rc with
        | error e =>
          simp only at h
          obtain ⟨h1, h2⟩ := ih _ _ _ _ _ h
          refine ⟨fun hb => ?_, h2⟩
          rw [h1 hb]
          simp [List.filter_append, List.filter_cons, NewEvent_isProgress, NewError_isProgress]
        | ok card =>
          simp only at h
          obtain ⟨h1, h2⟩ := ih _ _ _ _ _ h
          refine ⟨fun hb => ?_, h2⟩
          rw [h1 hb]
          simp [List.filter_append, List.filter_cons, NewEvent_isProgress]

/-- C10, amended: in every run that ends with a complete event, the events
whose Type is "progress" are, in order, one "Creating Milestone" event, one
"Creating Project" event and one "Preparing Issue" event per task of the
setup's task list; their number is the number of tasks plus two. -/
theorem Run_progress_count (c : IGitHubClient σ) (fuel : Nat) (now : Time) (username : String)
    (job : GenerateProject) (w w1 : World σ) (evs : List Event)
    (hrun : Run c fuel now username job w = some (evs, w1))
    (hlast : evs.getLast?.map (fun e => e.Typ) = some "complete") :
    evs.filter Event.isProgress =
      [NewEvent now job.ID "progress" ("Creating Milestone - " ++ ("Welcome @" ++ username ++ "!")),
        NewEvent now job.ID "progress" ("Creating Project - " ++ ("Welcome @" ++ username ++ "!"))]
        ++ job.Setup.Tasks.map (fun t =>
          NewEvent now job.ID "progress" ("Preparing Issue - " ++ t.Title)) ∧
    (evs.filter Event.isProgress).length = job.Setup.Tasks.length + 2 := by
  have hmain : evs.filter Event.isProgress =
      [NewEvent now job.ID "progress" ("Creating Milestone - " ++ ("Welcome @" ++ username ++ "!")),
        NewEvent now job.ID "progress" ("Creating Project - " ++ ("Welcome @" ++ username ++ "!"))]
        ++ job.Setup.Tasks.map (fun t =>
          NewEvent now job.ID "progress" ("Preparing Issue - " ++ t.Title)) := by
    unfold Run at hrun
    simp only at hrun
    rcases hrepo : GetRepository c job.Setup.GithubOrganization job.Setup.GithubRepository w
      with ⟨rr, wa⟩
    rw [hrepo] at hrun
    cases rr with
    | error e =>
      simp only [Option.some.injEq, Prod.mk.injEq] at hrun
      rw [← hrun.1, List.getLast?_concat] at hlast
      simp [NewError] at hlast
    | ok repo =>
      simp only at hrun
      rcases hms : CreateOrUpdateMilestone c fuel repo (some ("Welcome @" ++ username ++ "!"))
        (some ("Let's setup up @" ++ username ++ " for success. Here's what we need to cover..."))
        (some (getMilestoneDueTime now none)) wa with _ | ⟨rm, wb⟩
      · rw [hms] at hrun; simp at hrun
      · rw [hms] at hrun
        cases rm with
        | error e =>
          simp only [Option.some.injEq, Prod.mk.injEq] at hrun
          rw [← hrun.1, List.getLast?_concat] at hlast
          simp [NewError] at hlast
        | ok milestone =>
          simp only at hrun
          rcases hpr : CreateOrUpdateProject c fuel repo ("Welcome @" ++ username ++ "!")
            ("Let's setup up @" ++ username ++ " for success. Here's what we need to cover...")
            ["Backlog", "In Progress", "Review", "Done"] wb with _ | ⟨rp, wc⟩
          · rw [hpr] at hrun; simp at hrun
          · rw [hpr] at hrun
            cases rp with
            | error e =>
              simp only [Option.some.injEq, Prod.mk.injEq] at hrun
              rw [← hrun.1, List.getLast?_concat] at hlast
              simp [NewError] at hlast
            | ok project =>
              simp only at hrun
              rcases hcol : FetchMappedProjectColumns c fuel project wc with _ | ⟨rc, wd⟩
              · rw [hcol] at hrun; simp at hrun
              · rw [hcol] at hrun
                cases rc with
                | error e =>
                  simp only [Option.some.injEq, Prod.mk.injEq] at hrun
                  rw [← hrun.1, List.getLast?_concat] at hlast
                  simp [NewError] at hlast
                | ok columns =>
                  simp only at hrun
                  rcases htasks : runTasks c fuel now job.ID repo milestone columns
                    job.Setup.Tasks _ wd with _ | ⟨b, evs5, we⟩
                  · rw [htasks] at hrun; simp at hrun
                  · rw [htasks] at hrun
                    obtain ⟨h1, h2⟩ := runTasks_events c fuel now job.ID repo milestone columns
                      _ _ _ _ _ _ htasks
                    cases b with
                    | false =>
                      simp only [Option.some.injEq, Prod.mk.injEq] at hrun
                      obtain ⟨e, he, het⟩ := h2 rfl
                      rw [← hrun.1, he] at hlast
                      simp [het] at hlast
                    | true =>
                      simp only [Option.some.injEq, Prod.mk.injEq] at hrun
                      rw [← hrun.1, List.filter_append, h1 rfl]
                      simp [List.filter_cons, NewEvent, Event.isProgress]
  exact ⟨hmain, by rw [hmain]; simp⟩

/-- C10, amended, on the run of `TestFullWorkload`: three tasks, five progress
events. -/
theorem Run_progress_count_example :
    (List.filter Event.isProgress
      ((Run (TestGitHubClient ⟨0, 0⟩) 1 ⟨0, 0⟩ "test" ⟨42, testSetup⟩ freshWorld).get
        (by decide)).1).length = testSetup.Tasks.length + 2 :=
  (Run_progress_count (TestGitHubClient ⟨0, 0⟩) 1 ⟨0, 0⟩ "test" ⟨42, testSetup⟩ freshWorld
    ((Run (TestGitHubClient ⟨0, 0⟩) 1 ⟨0, 0⟩ "test" ⟨42, testSetup⟩ freshWorld).get
      (by decide)).2
    ((Run (TestGitHubClient ⟨0, 0⟩) 1 ⟨0, 0⟩ "test" ⟨42, testSetup⟩ freshWorld).get
      (by decide)).1
    (Option.some_get (by decide)).symm (by decide)).2

end JobTheorems

/-! ## The fake tracker's filter without a milestone -/

/-- The filter of the fake tracker with milestone "*" rejects every issue that
carries a milestone structure: `strconv.Atoi("*")` fails in the branch taken
before the "*" branch. -/
theorem TestIssues.matches_wildcard_milestone (a : String) (page : Int) (issue : Issue)
    (h : issue.Milestone.isSome = true) :
    TestIssues.matches { Milestone := "*", Assignee := a, Page := page } issue = false := by
  have hat : Atoi "*" = none := by decide
  have hlen : 0 < "*".length := by decide
  unfold TestIssues.matches
  simp [h, hat, hlen]

/-- On a fresh fake tracker and with milestone 0, two consecutive calls of
`CreateOrUpdateIssue` with identical arguments return the issues number 1 and
number 2 after two Create calls, for every assignee, title and body. -/
theorem CreateOrUpdateIssue_twice_without_milestone_general (now : Time) (a t b : String) :
    (createOrUpdateIssueTwice (TestGitHubClient now) 1 testRepo (some a) (some t) (some b) 0
        freshWorld).map
      (fun r => (r.1.map Issue.GetNumber, r.2.1.map Issue.GetNumber,
        (r.2.2.trace.filter Call.isCreate).length)) =
      some (.ok 1, .ok 2, 2) := by
  have hm : ∀ (x : String) (page : Int) (issue : Issue), issue.Milestone.isSome = true →
      TestIssues.matches { Milestone := "*", Assignee := x, Page := page } issue = false :=
    TestIssues.matches_wildcard_milestone
  simp [createOrUpdateIssueTwice, CreateOrUpdateIssue, GetIssuesByRequest, fetchIssues,
    fetchIssuesLoop, issueRequestFor, TestGitHubClient, TestIssues.ListByRepo, freshWorld,
    TestCache.empty, prepareGitHubAPIResponse, IssueRequest.GetAssignees, createIssue,
    TestIssues.Create, World.step, Issue.GetBody, hm, Issue.GetNumber, Except.map, Call.isCreate]

/-! ## Issues -/

section IssueTheorems

variable {σ : Type}

/-- The calls of `fetchIssues` are list-by-repo calls that differ from the
given options in the page cursor only, and there is at least one. -/
theorem fetchIssuesLoop_trace (c : IGitHubClient σ) (owner repoName : String) :
    ∀ (fuel : Nat) (listOpts : IssueListByRepoOptions) (acc : List (Option Issue))
      (w w1 : World σ) (r : Except String (List (Option Issue))),
      fetchIssuesLoop c owner repoName fuel listOpts acc w = some (r, w1) →
      ∃ calls : List Call, w1.trace = w.trace ++ calls ∧ calls ≠ [] ∧
        ∀ x ∈ calls, ∃ page : Int,
          x = Call.ListByRepo owner repoName { listOpts with Page := page } := by
  intro fuel
  induction fuel with
  | zero => intro listOpts acc w w1 r h; simp [fetchIssuesLoop] at h
  | succ n ih =>
    intro listOpts acc w w1 r h
    unfold fetchIssuesLoop at h
    rcases hres : c.ListByRepo owner repoName listOpts w.st with ⟨res, s⟩
    rw [hres] at h
    cases res with
    | error e =>
      simp only [Option.some.injEq, Prod.mk.injEq] at h
      refine ⟨[Call.ListByRepo owner repoName listOpts], ?_, by simp, ?_⟩
      · rw [← h.2]; rfl
      · intro x hx
        simp only [List.mem_singleton] at hx
        exact ⟨listOpts.Page, hx⟩
    | ok pr =>
      obtain ⟨result, response⟩ := pr
      simp only at h
      split at h
      · simp only [Option.some.injEq, Prod.mk.injEq] at h
        refine ⟨[Call.ListByRepo owner repoName listOpts], ?_, by simp, ?_⟩
        · rw [← h.2]; rfl
        · intro x hx
          simp only [List.mem_singleton] at hx
          exact ⟨listOpts.Page, hx⟩
      · obtain ⟨calls, hc, _, hall⟩ := ih _ _ _ _ _ h
        refine ⟨Call.ListByRepo owner repoName listOpts :: calls, ?_, by simp, ?_⟩
        · rw [hc]; simp [World.step]
        · intro x hx
          rcases List.mem_cons.mp hx with hx | hx
          · exact ⟨listOpts.Page, hx⟩
          · obtain ⟨page, hp⟩ := hall x hx
            exact ⟨page, hp⟩

/-- The calls of `GetIssuesByRequest`: list-by-repo calls carrying the
milestone and assignee filter computed from the request. -/
theorem GetIssuesByRequest_trace (c : IGitHubClient σ) (fuel : Nat) (repo : WorkflowRepository)
    (request : IssueRequest) (w w1 : World σ) (r : Except String (List (Option Issue)))
    (h : GetIssuesByRequest c fuel repo request w = some (r, w1)) :
    ∃ calls : List Call, w1.trace = w.trace ++ calls ∧ calls ≠ [] ∧
      ∀ x ∈ calls, ∃ page : Int, x = Call.ListByRepo repo.owner repo.name
        { Assignee := (match request.GetAssignees with
            | [a] => if a ≠ "none" then a else "*"
            | _ => "*")
          Milestone := (match request.Milestone with
            | some m => if m > 0 then Itoa m else "*"
            | none => "*")
          Page := page } := by
  unfold GetIssuesByRequest at h
  simp only at h
  split at h
  · simp at h
  · next e w2 hf =>
    simp only [Option.some.injEq, Prod.mk.injEq] at h
    obtain ⟨calls, hc, hne, hall⟩ := fetchIssuesLoop_trace c _ _ _ _ _ _ _ _ hf
    exact ⟨calls, by rw [← h.2]; exact hc, hne, hall⟩
  · next issues w2 hf =>
    simp only [Option.some.injEq, Prod.mk.injEq] at h
    obtain ⟨calls, hc, hne, hall⟩ := fetchIssuesLoop_trace c _ _ _ _ _ _ _ _ hf
    exact ⟨calls, by rw [← h.2]; exact hc, hne, hall⟩

/-- C19, counterexample: for the assignee list ["none"] the list call carries
the assignee filter "*", not "none". -/
theorem GetIssuesByRequest_none_assignee :
    traceOf (GetIssuesByRequest (TestGitHubClient ⟨0, 0⟩) 1 testRepo
      { Title := none, Body := none, Assignee := none, Milestone := none,
        Assignees := some ["none"] } freshWorld) =
      [Call.ListByRepo "testowner" "testrepo" { Milestone := "*", Assignee := "*", Page := 0 }] := by
  decide

/-- C19, amended: in every call of `GetIssuesByRequest` that returns, each
remote list call (there is at least one) carries as Assignee the single
username when the request's assignee list has exactly one entry different from
"none", and "*" in every other case: no assignees, two or more, or exactly
["none"]. -/
theorem GetIssuesByRequest_assignee (c : IGitHubClient σ) (fuel : Nat)
    (repo : WorkflowRepository) (request : IssueRequest) (w w1 : World σ)
    (r : Except String (List (Option Issue)))
    (h : GetIssuesByRequest c fuel repo request w = some (r, w1)) :
    ∃ calls : List Call, w1.trace = w.trace ++ calls ∧ calls ≠ [] ∧
      ∀ x ∈ calls, ∃ opts : IssueListByRepoOptions,
        x = Call.ListByRepo repo.owner repo.name opts ∧
        (∀ a, request.GetAssignees = [a] → a ≠ "none" → opts.Assignee = a) ∧
        (request.GetAssignees = ["none"] → opts.Assignee = "*") ∧
        ((∀ a, request.GetAssignees ≠ [a]) → opts.Assignee = "*") := by
  obtain ⟨calls, hc, hne, hall⟩ := GetIssuesByRequest_trace c fuel repo request w w1 r h
  refine ⟨calls, hc, hne, ?_⟩
  intro x hx
  obtain ⟨page, hp⟩ := hall x hx
  refine ⟨_, hp, ?_, ?_, ?_⟩
  · intro a ha hna
    simp [ha, hna]
  · intro ha
    simp [ha]
  · intro hno
    rcases hl : request.GetAssignees with _ | ⟨a, _ | ⟨b, rest⟩⟩
    · simp
    · exact absurd hl (hno a)
    · simp

/-- C19, amended, on the fake tracker with the single assignee "testuser1". -/
theorem GetIssuesByRequest_assignee_example :
    ∃ calls : List Call,
      (World.mk (TestCache.mk none [] none (some []) none [] [] [])
        [Call.ListByRepo "testowner" "testrepo" ⟨"*", "testuser1", 0⟩]).trace =
        freshWorld.trace ++ calls ∧ calls ≠ [] ∧
      ∀ x ∈ calls, ∃ opts : IssueListByRepoOptions,
        x = Call.ListByRepo testRepo.owner testRepo.name opts ∧
        (∀ a, IssueRequest.GetAssignees ⟨none, none, none, none, some ["testuser1"]⟩ = [a] →
          a ≠ "none" → opts.Assignee = a) ∧
        (IssueRequest.GetAssignees ⟨none, none, none, none, some ["testuser1"]⟩ = ["none"] →
          opts.Assignee = "*") ∧
        ((∀ a, IssueRequest.GetAssignees ⟨none, none, none, none, some ["testuser1"]⟩ ≠ [a]) →
          opts.Assignee = "*") :=
  GetIssuesByRequest_assignee (TestGitHubClient ⟨0, 0⟩) 1 testRepo
    ⟨none, none, none, none, some ["testuser1"]⟩ freshWorld _ (.ok []) rfl

/-- C20: when the filtered search returns at least one non-nil issue,
`CreateOrUpdateIssue` returns the first such issue exactly as fetched, leaves
the world as the search left it, and the only remote calls made are the
list-by-repo calls of the search: no create call and no edit call, whatever
the requested body is. -/
theorem CreateOrUpdateIssue_existing (c : IGitHubClient σ) (fuel : Nat)
    (repo : WorkflowRepository) (assignee title body : Option String) (milestone : Int)
    (w w1 : World σ) (issuesFound : List (Option Issue))
    (hsearch : GetIssuesByRequest c fuel repo (issueRequestFor assignee title body milestone) w =
      some (.ok issuesFound, w1))
    (hsome : ∃ i ∈ issuesFound, i ≠ none) :
    ∃ (found : Issue) (before after : List (Option Issue)),
      issuesFound = before ++ some found :: after ∧
      (∀ i ∈ before, i = none) ∧
      CreateOrUpdateIssue c fuel repo assignee title body milestone w =
        some (.ok (some found), w1) ∧
      ∃ calls : List Call, w1.trace = w.trace ++ calls ∧
        (∀ x ∈ calls, ∃ opts, x = Call.ListByRepo repo.owner repo.name opts) ∧
        (∀ x ∈ calls, x.isCreate = false ∧ x.isEdit = false) := by
  obtain ⟨i, hi, hin⟩ := hsome
  have hfs : (issuesFound.find? fun issue => issue.isSome).isSome = true := by
    rw [List.find?_isSome]
    exact ⟨i, hi, by cases i <;> simp_all⟩
  obtain ⟨fo, hfo⟩ := Option.isSome_iff_exists.mp hfs
  obtain ⟨hp, before, after, hsplit, hbefore⟩ := List.find?_eq_some.mp hfo
  obtain ⟨found, rfl⟩ := Option.isSome_iff_exists.mp hp
  obtain ⟨calls, hc, _, hall⟩ := GetIssuesByRequest_trace c fuel repo _ w w1 _ hsearch
  refine ⟨found, before, after, hsplit, ?_, ?_, calls, hc, ?_, ?_⟩
  · intro a ha
    have := hbefore a ha
    cases a <;> simp_all
  · unfold CreateOrUpdateIssue
    simp only [hsearch, hfo]
  · intro x hx
    obtain ⟨page, hp⟩ := hall x hx
    exact ⟨_, hp⟩
  · intro x hx
    obtain ⟨page, hp⟩ := hall x hx
    rw [hp]
    exact ⟨rfl, rfl⟩

end IssueTheorems

/-- C20 on the fake tracker holding "Issue #1" with body "First Issue": the
call with the body "Awesome Issue" returns the stored issue, body unchanged,
after one list call. -/
theorem CreateOrUpdateIssue_existing_example :
    ∃ (found : Issue) (before after : List (Option Issue)),
      [some issueOne] = before ++ some found :: after ∧
      (∀ i ∈ before, i = none) ∧
      CreateOrUpdateIssue (TestGitHubClient ⟨0, 0⟩) 1 testRepo (some "testuser1")
          (some "Issue #1") (some "Awesome Issue") 1 worldWithIssue =
        some (.ok (some found),
          ⟨worldWithIssue.st, [Call.ListByRepo "testowner" "testrepo" ⟨"1", "testuser1", 0⟩]⟩) ∧
      ∃ calls : List Call,
        (World.mk worldWithIssue.st
          [Call.ListByRepo "testowner" "testrepo" ⟨"1", "testuser1", 0⟩]).trace =
          worldWithIssue.trace ++ calls ∧
        (∀ x ∈ calls, ∃ opts, x = Call.ListByRepo testRepo.owner testRepo.name opts) ∧
        (∀ x ∈ calls, x.isCreate = false ∧ x.isEdit = false) :=
  CreateOrUpdateIssue_existing (TestGitHubClient ⟨0, 0⟩) 1 testRepo (some "testuser1")
    (some "Issue #1") (some "Awesome Issue") 1 worldWithIssue
    ⟨worldWithIssue.st, [Call.ListByRepo "testowner" "testrepo" ⟨"1", "testuser1", 0⟩]⟩
    [some issueOne] rfl ⟨some issueOne, List.mem_singleton.mpr rfl, by decide⟩

/-! ## Listing failures in `CreateOrUpdateProject` -/

section ProjectListingTheorems

variable {σ : Type}

/-- When the project listing fails, `CreateOrUpdateProject` drops the error
and carries on as if no project had been listed: it runs the create step with
no project at hand. -/
theorem CreateOrUpdateProject_listing_error (c : IGitHubClient σ) (fuel : Nat)
    (repo : WorkflowRepository) (title description : String) (columns : List String)
    (w w1 : World σ) (e : String)
    (hfetch : fetchProjects c fuel repo { State := "", Page := 0 } w = some (.error e, w1)) :
    CreateOrUpdateProject c fuel repo title description columns w =
      some (createProjectIfMissing c repo { Name := title, Body := description } columns none w1) := by
  unfold CreateOrUpdateProject
  simp [hfetch, findProjectByName]

end ProjectListingTheorems

/-- C16, the code at a failing input: on a tracker whose project listing fails
with "502 Bad Gateway", `CreateOrUpdateProject` returns no error but a newly
created project, after a create-project and a create-column call. -/
theorem CreateOrUpdateProject_listing_failure :
    resultOf (fetchProjects (TestGitHubClient.withListProjectsError ⟨0, 0⟩ "502 Bad Gateway")
      1 testRepo ⟨"", 0⟩ freshWorld) = some (.error "502 Bad Gateway") ∧
    resultOf (CreateOrUpdateProject (TestGitHubClient.withListProjectsError ⟨0, 0⟩ "502 Bad Gateway")
      1 testRepo "Project 1" "This is a project" ["Backlog"] freshWorld) =
      some (.ok (some ⟨none, some "Project 1", some "This is a project", some 1001,
        some ⟨0, 0⟩, some ⟨0, 0⟩⟩)) ∧
    traceOf (CreateOrUpdateProject (TestGitHubClient.withListProjectsError ⟨0, 0⟩ "502 Bad Gateway")
      1 testRepo "Project 1" "This is a project" ["Backlog"] freshWorld) =
      [Call.ListProjects "testowner" "testrepo" ⟨"", 0⟩,
        Call.CreateProject "testowner" "testrepo" ⟨"Project 1", "This is a project"⟩,
        Call.CreateProjectColumn 0 ⟨"Backlog"⟩] := by
  decide

/-! ## Paginated fetches -/

section PaginationTheorems

variable {σ α : Type}

theorem fetchIssuesLoop_eq_paginate (c : IGitHubClient σ) (repo : WorkflowRepository) :
    ∀ (fuel : Nat) (listOpts : IssueListByRepoOptions) (acc : List (Option Issue)) (w : World σ),
      fetchIssuesLoop c repo.owner repo.name fuel listOpts acc w =
        paginate (issuesPager c repo listOpts) fuel listOpts.Page acc w := by
  intro fuel
  induction fuel with
  | zero => intro listOpts acc w; rfl
  | succ n ih =>
    intro listOpts acc w
    unfold fetchIssuesLoop paginate
    simp only [issuesPager]
    rcases hres : c.ListByRepo repo.owner repo.name listOpts w.st with ⟨res, s⟩
    cases res with
    | error e => rfl
    | ok pr =>
      obtain ⟨items, response⟩ := pr
      simp only
      split
      · rfl
      · exact ih _ _ _

theorem fetchMilestonesLoop_eq_paginate (c : IGitHubClient σ) (repo : WorkflowRepository) :
    ∀ (fuel : Nat) (listOpts : MilestoneListOptions) (acc : List (Option Milestone))
      (w : World σ),
      fetchMilestonesLoop c repo.owner repo.name fuel listOpts acc w =
        paginate (milestonesPager c repo listOpts) fuel listOpts.Page acc w := by
  intro fuel
  induction fuel with
  | zero => intro listOpts acc w; rfl
  | succ n ih =>
    intro listOpts acc w
    unfold fetchMilestonesLoop paginate
    simp only [milestonesPager]
    rcases hres : c.ListMilestones repo.owner repo.name listOpts w.st with ⟨res, s⟩
    cases res with
    | error e => rfl
    | ok pr =>
      obtain ⟨items, response⟩ := pr
      simp only
      split
      · rfl
      · exact ih _ _ _

theorem fetchProjectsLoop_eq_paginate (c : IGitHubClient σ) (repo : WorkflowRepository) :
    ∀ (fuel : Nat) (listOpts : ProjectListOptions) (acc : List (Option Project)) (w : World σ),
      fetchProjectsLoop c repo.owner repo.name fuel listOpts acc w =
        paginate (projectsPager c repo listOpts) fuel listOpts.Page acc w := by
  intro fuel
  induction fuel with
  | zero => intro listOpts acc w; rfl
  | succ n ih =>
    intro listOpts acc w
    unfold fetchProjectsLoop paginate
    simp only [projectsPager]
    rcases hres : c.ListProjects repo.owner repo.name listOpts w.st with ⟨res, s⟩
    cases res with
    | error e => rfl
    | ok pr =>
      obtain ⟨items, response⟩ := pr
      simp only
      split
      · rfl
      · exact ih _ _ _

theorem fetchProjectColumnsLoop_eq_paginate (c : IGitHubClient σ) (project : Option Project) :
    ∀ (fuel : Nat) (listOpts : ListOptions) (acc : List (Option ProjectColumn)) (w : World σ),
      fetchProjectColumnsLoop c (Project.GetID project) fuel listOpts acc w =
        paginate (columnsPager c project) fuel listOpts.Page acc w := by
  intro fuel
  induction fuel with
  | zero => intro listOpts acc w; rfl
  | succ n ih =>
    intro listOpts acc w
    unfold fetchProjectColumnsLoop paginate
    simp only [columnsPager]
    rcases hres : c.ListProjectColumns (Project.GetID project) listOpts w.st with ⟨res, s⟩
    cases res with
    | error e => rfl
    | ok pr =>
      obtain ⟨items, response⟩ := pr
      simp only
      split
      · rfl
      · exact ih _ _ _

theorem fetchProjectCardsLoop_eq_paginate (c : IGitHubClient σ) (column : Option ProjectColumn) :
    ∀ (fuel : Nat) (listOpts : ListOptions) (acc : List (Option ProjectCard)) (w : World σ),
      fetchProjectCardsLoop c (ProjectColumn.GetID column) fuel listOpts acc w =
        paginate (cardsPager c column) fuel listOpts.Page acc w := by
  intro fuel
  induction fuel with
  | zero => intro listOpts acc w; rfl
  | succ n ih =>
    intro listOpts acc w
    unfold fetchProjectCardsLoop paginate
    simp only [cardsPager]
    rcases hres : c.ListProjectCards (ProjectColumn.GetID column) listOpts w.st with ⟨res, s⟩
    cases res with
    | error e => rfl
    | ok pr =>
      obtain ⟨items, response⟩ := pr
      simp only
      split
      · rfl
      · exact ih _ _ _

end PaginationTheorems

section PaginationRuns

variable {σ α : Type}

/-- The loop on a listing that answers `pages` and then fails: the result is
`onError` of the failure and the items gathered, after one call per answered
page and the one failed call. -/
theorem paginate_fails (p : Pager σ α) :
    ∀ (pages : List (List α × Response × σ)) (fuel : Nat) (page : Int) (acc : List α)
      (w : World σ) (e : String) (s1 : σ),
      answered p.list page w.st pages →
      (∀ q ∈ pages, q.2.1.NextPage ≠ 0) →
      p.list (cursorAfter page pages) (stateAfter w.st pages) = (.error e, s1) →
      pages.length < fuel →
      paginate p fuel page acc w =
        some (p.onError e (acc ++ itemsOf pages),
          { st := s1
            trace := w.trace ++ (cursorsOf page pages ++ [cursorAfter page pages]).map p.call })
    := by
  intro pages
  induction pages with
  | nil =>
    intro fuel page acc w e s1 _ _ hfail hfuel
    obtain ⟨n, rfl⟩ : ∃ n, fuel = n + 1 := ⟨fuel - 1, by simp at hfuel; omega⟩
    simp only [cursorAfter, stateAfter] at hfail
    simp [paginate, hfail, itemsOf, cursorsOf, cursorAfter, World.step]
  | cons q rest ih =>
    intro fuel page acc w e s1 hans hnext hfail hfuel
    obtain ⟨items, resp, s2⟩ := q
    obtain ⟨n, rfl⟩ : ∃ n, fuel = n + 1 := ⟨fuel - 1, by simp at hfuel; omega⟩
    obtain ⟨hq, hrest⟩ := hans
    have hnp : resp.NextPage ≠ 0 := hnext (items, resp, s2) (List.mem_cons_self _ _)
    simp only [cursorAfter, stateAfter] at hfail
    have := ih n resp.NextPage (acc ++ items) (w.step (p.call page) s2) e s1 hrest
      (fun x hx => hnext x (List.mem_cons_of_mem _ hx)) hfail
      (by simp at hfuel; omega)
    unfold paginate
    simp only [hq, hnp, if_false]
    rw [this]
    simp [itemsOf, cursorsOf, cursorAfter, World.step]

/-- The loop on a listing that answers `pages`, the last of them alone with
`NextPage == 0`: the result is the concatenation of the pages, after one call
per page. -/
theorem paginate_all (p : Pager σ α) :
    ∀ (pages : List (List α × Response × σ)) (fuel : Nat) (page : Int) (acc : List α)
      (w : World σ),
      pages ≠ [] →
      answered p.list page w.st pages →
      (∀ q ∈ pages.dropLast, q.2.1.NextPage ≠ 0) →
      cursorAfter page pages = 0 →
      pages.length ≤ fuel →
      paginate p fuel page acc w =
        some (.ok (acc ++ itemsOf pages),
          { st := stateAfter w.st pages
            trace := w.trace ++ (cursorsOf page pages).map p.call }) := by
  intro pages
  induction pages with
  | nil => intro fuel page acc w hne; exact absurd rfl hne
  | cons q rest ih =>
    intro fuel page acc w _ hans hnext hlast hfuel
    obtain ⟨items, resp, s2⟩ := q
    obtain ⟨n, rfl⟩ : ∃ n, fuel = n + 1 := ⟨fuel - 1, by simp at hfuel; omega⟩
    obtain ⟨hq, hrest⟩ := hans
    unfold paginate
    simp only [hq]
    cases rest with
    | nil =>
      simp only [cursorAfter] at hlast
      simp [hlast, itemsOf, cursorsOf, stateAfter, World.step]
    | cons q2 rest2 =>
      have hnp : resp.NextPage ≠ 0 :=
        hnext (items, resp, s2) (by simp [List.dropLast])
      simp only [hnp, if_false]
      have := ih n resp.NextPage (acc ++ items) (w.step (p.call page) s2) (by simp) hrest
        (fun x hx => hnext x (by
          simp only [List.dropLast_cons₂] at hx ⊢
          exact List.mem_cons_of_mem _ hx))
        (by simpa [cursorAfter] using hlast) (by simp at hfuel ⊢; omega)
      rw [this]
      simp [itemsOf, cursorsOf, stateAfter, World.step]

end PaginationRuns

section FetchTheorems

variable {σ : Type}

/-- C17: for each of `fetchMilestones`, `fetchProjects`, `fetchProjectColumns`
and `fetchProjectCards`: when the requests for the pages before are answered
(each reporting a next page) and the request for the next page, first or
later, fails with `e`, the helper returns the error `e` and no items, the items
of the answered pages being dropped, and the calls it made are one per answered
page and the failed one, nothing after it. -/
theorem fetch_failure (c : IGitHubClient σ) :
    (∀ (fuel : Nat) (repo : WorkflowRepository) (listOpts : MilestoneListOptions) (w : World σ)
        (pages : List (List (Option Milestone) × Response × σ)) (e : String) (s1 : σ),
      answered (milestonesPager c repo listOpts).list 0 w.st pages →
      (∀ q ∈ pages, q.2.1.NextPage ≠ 0) →
      (milestonesPager c repo listOpts).list (cursorAfter 0 pages) (stateAfter w.st pages) =
        (.error e, s1) →
      pages.length < fuel →
      fetchMilestones c fuel repo listOpts w =
        some (.error e,
          { st := s1
            trace := w.trace ++ (cursorsOf 0 pages ++ [cursorAfter 0 pages]).map
              (milestonesPager c repo listOpts).call })) ∧
    (∀ (fuel : Nat) (repo : WorkflowRepository) (listOpts : ProjectListOptions) (w : World σ)
        (pages : List (List (Option Project) × Response × σ)) (e : String) (s1 : σ),
      answered (projectsPager c repo listOpts).list 0 w.st pages →
      (∀ q ∈ pages, q.2.1.NextPage ≠ 0) →
      (projectsPager c repo listOpts).list (cursorAfter 0 pages) (stateAfter w.st pages) =
        (.error e, s1) →
      pages.length < fuel →
      fetchProjects c fuel repo listOpts w =
        some (.error e,
          { st := s1
            trace := w.trace ++ (cursorsOf 0 pages ++ [cursorAfter 0 pages]).map
              (projectsPager c repo listOpts).call })) ∧
    (∀ (fuel : Nat) (project : Option Project) (w : World σ)
        (pages : List (List (Option ProjectColumn) × Response × σ)) (e : String) (s1 : σ),
      answered (columnsPager c project).list 0 w.st pages →
      (∀ q ∈ pages, q.2.1.NextPage ≠ 0) →
      (columnsPager c project).list (cursorAfter 0 pages) (stateAfter w.st pages) =
        (.error e, s1) →
      pages.length < fuel →
      fetchProjectColumns c fuel project w =
        some (.error e,
          { st := s1
            trace := w.trace ++ (cursorsOf 0 pages ++ [cursorAfter 0 pages]).map
              (columnsPager c project).call })) ∧
    (∀ (fuel : Nat) (column : Option ProjectColumn) (w : World σ)
        (pages : List (List (Option ProjectCard) × Response × σ)) (e : String) (s1 : σ),
      answered (cardsPager c column).list 0 w.st pages →
      (∀ q ∈ pages, q.2.1.NextPage ≠ 0) →
      (cardsPager c column).list (cursorAfter 0 pages) (stateAfter w.st pages) =
        (.error e, s1) →
      pages.length < fuel →
      fetchProjectCards c fuel column w =
        some (.error e,
          { st := s1
            trace := w.trace ++ (cursorsOf 0 pages ++ [cursorAfter 0 pages]).map
              (cardsPager c column).call })) := by
  refine ⟨?_, ?_, ?_, ?_⟩
  · intro fuel repo listOpts w pages e s1 hans hnext hfail hfuel
    unfold fetchMilestones
    rw [fetchMilestonesLoop_eq_paginate]
    exact paginate_fails (milestonesPager c repo listOpts) pages fuel 0 [] w e s1 hans hnext
      hfail hfuel
  · intro fuel repo listOpts w pages e s1 hans hnext hfail hfuel
    unfold fetchProjects
    rw [fetchProjectsLoop_eq_paginate]
    exact paginate_fails (projectsPager c repo listOpts) pages fuel 0 [] w e s1 hans hnext
      hfail hfuel
  · intro fuel project w pages e s1 hans hnext hfail hfuel
    unfold fetchProjectColumns
    rw [fetchProjectColumnsLoop_eq_paginate]
    exact paginate_fails (columnsPager c project) pages fuel 0 [] w e s1 hans hnext hfail hfuel
  · intro fuel column w pages e s1 hans hnext hfail hfuel
    unfold fetchProjectCards
    rw [fetchProjectCardsLoop_eq_paginate]
    exact paginate_fails (cardsPager c column) pages fuel 0 [] w e s1 hans hnext hfail hfuel

/-- C17 on a tracker that lists one page of milestones and fails on the
second request: `fetchMilestones` returns the error after the two calls, the
first page's milestone dropped. -/
theorem fetch_failure_example :
    fetchMilestones
        (TestGitHubClient.withMilestonePages ⟨0, 0⟩
          [.ok [some ⟨some 4, some "Other", none, none, none⟩], .error "500 Server Error"])
        2 testRepo ⟨"due_date", "desc", 0⟩ freshWorld =
      some (.error "500 Server Error",
        { st := TestCache.empty
          trace := [Call.ListMilestones "testowner" "testrepo" ⟨"due_date", "desc", 0⟩,
            Call.ListMilestones "testowner" "testrepo" ⟨"due_date", "desc", 1⟩] }) :=
  (fetch_failure
      (TestGitHubClient.withMilestonePages ⟨0, 0⟩
        [.ok [some ⟨some 4, some "Other", none, none, none⟩], .error "500 Server Error"])).1
    2 testRepo ⟨"due_date", "desc", 0⟩ freshWorld
    [([some ⟨some 4, some "Other", none, none, none⟩], ⟨1⟩, TestCache.empty)]
    "500 Server Error" TestCache.empty ⟨rfl, trivial⟩ (by decide) rfl (by decide)

/-- C18: for each of `fetchIssues`, `fetchMilestones`, `fetchProjects`,
`fetchProjectColumns` and `fetchProjectCards`: when the service answers the
n >= 1 requests `pages` without error and only the last response reports
`NextPage == 0`, the helper makes exactly n list calls, the first with cursor
0 and each later one with the `NextPage` of the response before it, and
returns the items of the n pages concatenated in page order, with no error. -/
theorem fetch_success (c : IGitHubClient σ) :
    (∀ (fuel : Nat) (repo : WorkflowRepository) (listOpts : IssueListByRepoOptions) (w : World σ)
        (pages : List (List (Option Issue) × Response × σ)),
      pages ≠ [] →
      answered (issuesPager c repo listOpts).list 0 w.st pages →
      (∀ q ∈ pages.dropLast, q.2.1.NextPage ≠ 0) →
      cursorAfter 0 pages = 0 →
      pages.length ≤ fuel →
      fetchIssues c fuel repo listOpts w =
        some (.ok (itemsOf pages),
          { st := stateAfter w.st pages
            trace := w.trace ++ (cursorsOf 0 pages).map (issuesPager c repo listOpts).call })) ∧
    (∀ (fuel : Nat) (repo : WorkflowRepository) (listOpts : MilestoneListOptions) (w : World σ)
        (pages : List (List (Option Milestone) × Response × σ)),
      pages ≠ [] →
      answered (milestonesPager c repo listOpts).list 0 w.st pages →
      (∀ q ∈ pages.dropLast, q.2.1.NextPage ≠ 0) →
      cursorAfter 0 pages = 0 →
      pages.length ≤ fuel →
      fetchMilestones c fuel repo listOpts w =
        some (.ok (itemsOf pages),
          { st := stateAfter w.st pages
            trace := w.trace ++ (cursorsOf 0 pages).map (milestonesPager c repo listOpts).call })) ∧
    (∀ (fuel : Nat) (repo : WorkflowRepository) (listOpts : ProjectListOptions) (w : World σ)
        (pages : List (List (Option Project) × Response × σ)),
      pages ≠ [] →
      answered (projectsPager c repo listOpts).list 0 w.st pages →
      (∀ q ∈ pages.dropLast, q.2.1.NextPage ≠ 0) →
      cursorAfter 0 pages = 0 →
      pages.length ≤ fuel →
      fetchProjects c fuel repo listOpts w =
        some (.ok (itemsOf pages),
          { st := stateAfter w.st pages
            trace := w.trace ++ (cursorsOf 0 pages).map (projectsPager c repo listOpts).call })) ∧
    (∀ (fuel : Nat) (project : Option Project) (w : World σ)
        (pages : List (List (Option ProjectColumn) × Response × σ)),
      pages ≠ [] →
      answered (columnsPager c project).list 0 w.st pages →
      (∀ q ∈ pages.dropLast, q.2.1.NextPage ≠ 0) →
      cursorAfter 0 pages = 0 →
      pages.length ≤ fuel →
      fetchProjectColumns c fuel project w =
        some (.ok (itemsOf pages),
          { st := stateAfter w.st pages
            trace := w.trace ++ (cursorsOf 0 pages).map (columnsPager c project).call })) ∧
    (∀ (fuel : Nat) (column : Option ProjectColumn) (w : World σ)
        (pages : List (List (Option ProjectCard) × Response × σ)),
      pages ≠ [] →
      answered (cardsPager c column).list 0 w.st pages →
      (∀ q ∈ pages.dropLast, q.2.1.NextPage ≠ 0) →
      cursorAfter 0 pages = 0 →
      pages.length ≤ fuel →
      fetchProjectCards c fuel column w =
        some (.ok (itemsOf pages),
          { st := stateAfter w.st pages
            trace := w.trace ++ (cursorsOf 0 pages).map (cardsPager c column).call })) := by
  refine ⟨?_, ?_, ?_, ?_, ?_⟩
  · intro fuel repo listOpts w pages hne hans hnext hlast hfuel
    unfold fetchIssues
    rw [fetchIssuesLoop_eq_paginate]
    exact paginate_all (issuesPager c repo listOpts) pages fuel 0 [] w hne hans hnext hlast hfuel
  · intro fuel repo listOpts w pages hne hans hnext hlast hfuel
    unfold fetchMilestones
    rw [fetchMilestonesLoop_eq_paginate]
    exact paginate_all (milestonesPager c repo listOpts) pages fuel 0 [] w hne hans hnext hlast
      hfuel
  · intro fuel repo listOpts w pages hne hans hnext hlast hfuel
    unfold fetchProjects
    rw [fetchProjectsLoop_eq_paginate]
    exact paginate_all (projectsPager c repo listOpts) pages fuel 0 [] w hne hans hnext hlast
      hfuel
  · intro fuel project w pages hne hans hnext hlast hfuel
    unfold fetchProjectColumns
    rw [fetchProjectColumnsLoop_eq_paginate]
    exact paginate_all (columnsPager c project) pages fuel 0 [] w hne hans hnext hlast hfuel
  · intro fuel column w pages hne hans hnext hlast hfuel
    unfold fetchProjectCards
    rw [fetchProjectCardsLoop_eq_paginate]
    exact paginate_all (cardsPager c column) pages fuel 0 [] w hne hans hnext hlast hfuel

/-- C18 on a tracker that lists milestones in two pages: `fetchMilestones`
makes the calls with cursors 0 and 1 and returns both pages' milestones in
order. -/
theorem fetch_success_example :
    fetchMilestones
        (TestGitHubClient.withMilestonePages ⟨0, 0⟩
          [.ok [some ⟨some 4, some "Other", none, none, none⟩],
            .ok [some ⟨some 7, some "Welcome", none, none, none⟩]])
        2 testRepo ⟨"due_date", "desc", 0⟩ freshWorld =
      some (.ok [some ⟨some 4, some "Other", none, none, none⟩,
          some ⟨some 7, some "Welcome", none, none, none⟩],
        { st := TestCache.empty
          trace := [Call.ListMilestones "testowner" "testrepo" ⟨"due_date", "desc", 0⟩,
            Call.ListMilestones "testowner" "testrepo" ⟨"due_date", "desc", 1⟩] }) :=
  (fetch_success
      (TestGitHubClient.withMilestonePages ⟨0, 0⟩
        [.ok [some ⟨some 4, some "Other", none, none, none⟩],
          .ok [some ⟨some 7, some "Welcome", none, none, none⟩]])).2.1
    2 testRepo ⟨"due_date", "desc", 0⟩ freshWorld
    [([some ⟨some 4, some "Other", none, none, none⟩], ⟨1⟩, TestCache.empty),
      ([some ⟨some 7, some "Welcome", none, none, none⟩], ⟨0⟩, TestCache.empty)]
    (by decide) ⟨rfl, rfl, trivial⟩ (by decide) rfl (by decide)

end FetchTheorems

/-! ## The job: failures before the task loop -/

section RunFailureTheorems

variable {σ : Type}

/-- The calls of `CreateOrUpdateMilestone` are milestone listings and
milestone creations only. -/
theorem CreateOrUpdateMilestone_trace (c : IGitHubClient σ) (fuel : Nat)
    (repo : WorkflowRepository) (title description : Option String) (dueDate : Option Time)
    (w w1 : World σ) (r : Except String (Option Milestone))
    (h : CreateOrUpdateMilestone c fuel repo title description dueDate w = some (r, w1)) :
    ∃ calls : List Call, w1.trace = w.trace ++ calls ∧
      ∀ x ∈ calls, (∃ opts, x = Call.ListMilestones repo.owner repo.name opts) ∨
        (∃ ms, x = Call.CreateMilestone repo.owner repo.name ms) := by
  unfold CreateOrUpdateMilestone at h
  simp only at h
  split at h
  · simp at h
  · next e w2 hf =>
    simp only [Option.some.injEq, Prod.mk.injEq] at h
    obtain ⟨calls, hc, hall⟩ := fetchMilestonesLoop_trace c _ _ _ _ _ _ _ _ hf
    exact ⟨calls, by rw [← h.2]; exact hc, fun x hx => Or.inl (hall x hx)⟩
  · next ms w2 hf =>
    obtain ⟨calls, hc, hall⟩ := fetchMilestonesLoop_trace c _ _ _ _ _ _ _ _ hf
    split at h
    · simp at h
    · simp only [Option.some.injEq, Prod.mk.injEq] at h
      exact ⟨calls, by rw [← h.2]; exact hc, fun x hx => Or.inl (hall x hx)⟩
    · simp only [Option.some.injEq] at h
      unfold createMilestone at h
      refine ⟨calls ++ [Call.CreateMilestone repo.owner repo.name
        { Number := none, Title := title, Description := description, CreatedAt := none,
          DueOn := dueDate }], ?_, ?_⟩
      · split at h <;>
        · simp only [Prod.mk.injEq] at h
          rw [← h.2]
          simp [World.step, hc]
      · intro x hx
        rcases List.mem_append.mp hx with hx | hx
        · exact Or.inl (hall x hx)
        · exact Or.inr ⟨_, List.mem_singleton.mp hx⟩

/-- C12: when the repository is resolved and `CreateOrUpdateMilestone` returns
an error, the run sends exactly the start event, the "Creating Milestone"
progress event and one error event, which is therefore the last one, and no
complete event; besides the repository lookup its remote calls are milestone
listings and milestone creations only, so no project, column, issue or card
call is made. -/
theorem Run_milestone_failure (c : IGitHubClient σ) (fuel : Nat) (now : Time)
    (username : String) (job : GenerateProject) (w w1 w2 : World σ)
    (repo : WorkflowRepository) (e : String)
    (hrepo : GetRepository c job.Setup.GithubOrganization job.Setup.GithubRepository w =
      (.ok repo, w1))
    (hms : CreateOrUpdateMilestone c fuel repo (some ("Welcome @" ++ username ++ "!"))
      (some ("Let's setup up @" ++ username ++ " for success. Here's what we need to cover..."))
      (some (getMilestoneDueTime now none)) w1 = some (.error e, w2)) :
    Run c fuel now username job w =
      some ([NewEvent now job.ID "start" ("Starting project generation as " ++ username),
        NewEvent now job.ID "progress" ("Creating Milestone - " ++ ("Welcome @" ++ username ++ "!")),
        NewError now job.ID ("Failed to create milestone - " ++ ("Welcome @" ++ username ++ "!")) e],
        w2) ∧
    ∃ calls : List Call,
      w2.trace = w.trace ++
        Call.Get job.Setup.GithubOrganization job.Setup.GithubRepository :: calls ∧
      ∀ x ∈ calls, (∃ opts, x = Call.ListMilestones repo.owner repo.name opts) ∨
        (∃ ms, x = Call.CreateMilestone repo.owner repo.name ms) := by
  constructor
  · unfold Run
    simp only [hrepo, hms, List.cons_append, List.nil_append]
  · obtain ⟨calls, hc, hall⟩ := CreateOrUpdateMilestone_trace c fuel repo _ _ _ w1 w2 _ hms
    refine ⟨calls, ?_, hall⟩
    have h1 : w1.trace = w.trace ++
        [Call.Get job.Setup.GithubOrganization job.Setup.GithubRepository] := by
      unfold GetRepository fetchRepository at hrepo
      split at hrepo <;>
      · simp only [Prod.mk.injEq] at hrepo
        rw [← hrepo.2]
        rfl
    rw [hc, h1]
    simp

/-- C12 on the fake tracker with a failing milestone creation: the run of
`TestFullWorkload` ends after three events and two milestone calls. -/
theorem Run_milestone_failure_example :
    Run (TestGitHubClient.withCreateMilestoneError ⟨0, 0⟩ "422 Validation Failed") 1 ⟨0, 0⟩
        "test" ⟨42, testSetup⟩ freshWorld =
      some ([NewEvent ⟨0, 0⟩ 42 "start" ("Starting project generation as " ++ "test"),
        NewEvent ⟨0, 0⟩ 42 "progress" ("Creating Milestone - " ++ ("Welcome @" ++ "test" ++ "!")),
        NewError ⟨0, 0⟩ 42 ("Failed to create milestone - " ++ ("Welcome @" ++ "test" ++ "!"))
          "422 Validation Failed"],
        ⟨TestCache.empty, [Call.Get "testOrganization" "testRepository",
          Call.ListMilestones "testOrganization" "testRepository" ⟨"due_date", "desc", 0⟩,
          Call.CreateMilestone "testOrganization" "testRepository"
            ⟨none, some "Welcome @test!",
              some "Let's setup up @test for success. Here's what we need to cover...",
              none, some ⟨22, 0⟩⟩]⟩) :=
  (Run_milestone_failure (TestGitHubClient.withCreateMilestoneError ⟨0, 0⟩ "422 Validation Failed")
    1 ⟨0, 0⟩ "test" ⟨42, testSetup⟩ freshWorld
    ⟨TestCache.empty, [Call.Get "testOrganization" "testRepository"]⟩ _
    ⟨⟨some ⟨some "testOrganization", none⟩, some "testRepository"⟩⟩ "422 Validation Failed"
    rfl rfl).1

end RunFailureTheorems

/-! ## The task loop -/

section TaskLoopTheorems

variable {σ : Type}

/-- The task loop sends the events of what it met, and runs to its end exactly
when no issue failed. -/
theorem runTasks_eq_outcomes (c : IGitHubClient σ) (fuel : Nat) (now : Time) (id : Int)
    (repo : WorkflowRepository) (milestone : Option Milestone)
    (columns : List (String × Option ProjectColumn)) :
    ∀ (tasks : List TaskEntry) (evs : List Event) (w : World σ),
      runTasks c fuel now id repo milestone columns tasks evs w =
        (taskOutcomes c fuel repo milestone columns tasks w).map fun r =>
          (!(r.1.any TaskOutcome.issueFailed), evs ++ outcomeEvents now id r.1, r.2) := by
  intro tasks
  induction tasks with
  | nil => intro evs w; simp [runTasks, taskOutcomes, outcomeEvents]
  | cons task rest ih =>
    intro evs w
    unfold runTasks taskOutcomes
    simp only
    rcases hissue : CreateOrUpdateIssue c fuel repo (some task.Assignee.GithubUsername)
      (some task.Title) (some task.Description) (Milestone.GetNumber milestone) w with _ | ⟨r, w2⟩
    · rfl
    · cases r with
      | error e =>
        simp [outcomeEvents, TaskOutcome.events, TaskOutcome.issueFailed]
      | ok issue =>
        simp only
        rcases hcard : CreateCardForIssue c issue ((mapGet columns "Backlog").join) w2
          with ⟨rc, w3⟩
        cases rc with
        | error e =>
          simp only
          rw [ih]
          rcases taskOutcomes c fuel repo milestone columns rest w3 with _ | ⟨outs, w4⟩
          · rfl
          · simp [outcomeEvents, TaskOutcome.events, TaskOutcome.issueFailed]
        | ok card =>
          simp only
          rw [ih]
          rcases taskOutcomes c fuel repo milestone columns rest w3 with _ | ⟨outs, w4⟩
          · rfl
          · simp [outcomeEvents, TaskOutcome.events, TaskOutcome.issueFailed]

/-- Only the last outcome can be a failed issue, the tasks of the outcomes are
the tasks reached, in order, and every task is reached when no issue fails. -/
theorem taskOutcomes_shape (c : IGitHubClient σ) (fuel : Nat) (repo : WorkflowRepository)
    (milestone : Option Milestone) (columns : List (String × Option ProjectColumn)) :
    ∀ (tasks : List TaskEntry) (w w1 : World σ) (outs : List TaskOutcome),
      taskOutcomes c fuel repo milestone columns tasks w = some (outs, w1) →
      (outs.any TaskOutcome.issueFailed = false ∧ outs.map (fun o => o.task) = tasks) ∨
      (∃ (before : List TaskOutcome) (o : TaskOutcome) (e : String),
        outs = before ++ [o] ∧ o.issue = .error e ∧
        before.any TaskOutcome.issueFailed = false) := by
  intro tasks
  induction tasks with
  | nil =>
    intro w w1 outs h
    simp only [taskOutcomes, Option.some.injEq, Prod.mk.injEq] at h
    left
    simp [← h.1]
  | cons task rest ih =>
    intro w w1 outs h
    unfold taskOutcomes at h
    rcases hissue : CreateOrUpdateIssue c fuel repo (some task.Assignee.GithubUsername)
      (some task.Title) (some task.Description) (Milestone.GetNumber milestone) w with _ | ⟨r, w2⟩
    · rw [hissue] at h; simp at h
    · rw [hissue] at h
      cases r with
      | error e =>
        simp only [Option.some.injEq, Prod.mk.injEq] at h
        right
        exact ⟨[], _, e, by rw [← h.1]; rfl, rfl, rfl⟩
      | ok issue =>
        simp only at h
        rcases hrest : taskOutcomes c fuel repo milestone columns rest
          (CreateCardForIssue c issue ((mapGet columns "Backlog").join) w2).2 with _ | ⟨outs1, w4⟩
        · rw [hrest] at h; simp at h
        · rw [hrest] at h
          simp only [Option.some.injEq, Prod.mk.injEq] at h
          rcases ih _ _ _ hrest with ⟨h1, h2⟩ | ⟨before, o, e, h1, h2, h3⟩
          · left
            rw [← h.1]
            simp [TaskOutcome.issueFailed, h1, h2]
          · right
            refine ⟨TaskOutcome.mk task (.ok issue)
              (some (CreateCardForIssue c issue ((mapGet columns "Backlog").join) w2).1)
              :: before, o, e, ?_, h2, ?_⟩
            · rw [← h.1, h1]; rfl
            · simp [TaskOutcome.issueFailed, h3]

/-- Events of outcomes without a failed issue: each is a progress event or a
card error. -/
theorem outcomeEvents_body (now : Time) (id : Int) :
    ∀ (outs : List TaskOutcome), outs.any TaskOutcome.issueFailed = false →
      ∀ e ∈ outcomeEvents now id outs,
        e.Typ = "progress" ∨ (e.Typ = "error" ∧ ∃ err, e.Text = "Error creating card - " ++ err) := by
  intro outs
  induction outs with
  | nil => intro _ e he; simp [outcomeEvents] at he
  | cons o rest ih =>
    intro hno e he
    simp only [List.any_cons, Bool.or_eq_false_iff] at hno
    simp only [outcomeEvents, List.mem_append] at he
    rcases he with he | he
    · obtain ⟨task, issue, card⟩ := o
      cases issue with
      | error x => simp [TaskOutcome.issueFailed] at hno
      | ok i =>
        rcases card with _ | ⟨_ | _⟩ <;>
          simp only [TaskOutcome.events, List.mem_cons, List.mem_singleton, List.not_mem_nil,
            or_false] at he
        · left; rw [he]; rfl
        · rcases he with he | he
          · left; rw [he]; rfl
          · right; rw [he]; exact ⟨rfl, _, rfl⟩
        · left; rw [he]; rfl
    · exact ih hno.2 e he

/-- Events of outcomes without a failed issue: one error event per failed
card, and one progress event per outcome. -/
theorem outcomeEvents_counts (now : Time) (id : Int) :
    ∀ (outs : List TaskOutcome), outs.any TaskOutcome.issueFailed = false →
      ((outcomeEvents now id outs).filter Event.isError).length =
        (outs.filter TaskOutcome.cardFailed).length ∧
      (outcomeEvents now id outs).filter Event.isProgress =
        outs.map fun o => NewEvent now id "progress" ("Preparing Issue - " ++ o.task.Title) := by
  intro outs
  induction outs with
  | nil => intro _; simp [outcomeEvents]
  | cons o rest ih =>
    intro hno
    simp only [List.any_cons, Bool.or_eq_false_iff] at hno
    obtain ⟨ih1, ih2⟩ := ih hno.2
    obtain ⟨task, issue, card⟩ := o
    cases issue with
    | error x => simp [TaskOutcome.issueFailed] at hno
    | ok i =>
      rcases card with _ | ⟨_ | _⟩ <;>
        simp [outcomeEvents, TaskOutcome.events, List.filter_cons, TaskOutcome.cardFailed,
          Event.isError, Event.isProgress, NewEvent, NewError, ih1] <;>
        simpa [Event.isProgress, NewEvent] using ih2

end TaskLoopTheorems

/-! ## The job: card failures -/

section RunCardTheorems

variable {σ : Type}

/-- C11: provided the repository, the milestone, the project and the column
map are obtained and no issue reconciliation fails, whatever card creations
fail: the run reaches every task in order (one outcome per task, each with its
issue reconciliation), sends the "Preparing Issue" progress event of every
task in order, sends exactly one error event per failed card creation and no
other error event, and its last event is the complete event. -/
theorem Run_card_failures (c : IGitHubClient σ) (fuel : Nat) (now : Time) (username : String)
    (job : GenerateProject) (w w1 w2 w3 w4 w5 : World σ) (repo : WorkflowRepository)
    (milestone : Option Milestone) (project : Option Project)
    (columns : List (String × Option ProjectColumn)) (outs : List TaskOutcome)
    (hrepo : GetRepository c job.Setup.GithubOrganization job.Setup.GithubRepository w =
      (.ok repo, w1))
    (hms : CreateOrUpdateMilestone c fuel repo (some ("Welcome @" ++ username ++ "!"))
      (some ("Let's setup up @" ++ username ++ " for success. Here's what we need to cover..."))
      (some (getMilestoneDueTime now none)) w1 = some (.ok milestone, w2))
    (hproj : CreateOrUpdateProject c fuel repo ("Welcome @" ++ username ++ "!")
      ("Let's setup up @" ++ username ++ " for success. Here's what we need to cover...")
      ["Backlog", "In Progress", "Review", "Done"] w2 = some (.ok project, w3))
    (hcols : FetchMappedProjectColumns c fuel project w3 = some (.ok columns, w4))
    (houts : taskOutcomes c fuel repo milestone columns job.Setup.Tasks w4 = some (outs, w5))
    (hissues : ∀ o ∈ outs, o.issueFailed = false) :
    ∃ evs : List Event,
      Run c fuel now username job w = some (evs, w5) ∧
      evs =
        [NewEvent now job.ID "start" ("Starting project generation as " ++ username),
          NewEvent now job.ID "progress"
            ("Creating Milestone - " ++ ("Welcome @" ++ username ++ "!")),
          NewEvent now job.ID "progress"
            ("Creating Project - " ++ ("Welcome @" ++ username ++ "!"))] ++
        outcomeEvents now job.ID outs ++
        [NewEvent now job.ID "complete"
          ("Successfully created project @ " ++ ("https://github.com/" ++
            job.Setup.GithubOrganization ++ "/" ++ job.Setup.GithubRepository ++ "/projects/"))] ∧
      outs.map (fun o => o.task) = job.Setup.Tasks ∧
      (outcomeEvents now job.ID outs).filter Event.isProgress =
        job.Setup.Tasks.map (fun t =>
          NewEvent now job.ID "progress" ("Preparing Issue - " ++ t.Title)) ∧
      (evs.filter Event.isError).length = (outs.filter TaskOutcome.cardFailed).length ∧
      evs.getLast?.map (fun e => e.Typ) = some "complete" := by
  have hany : outs.any TaskOutcome.issueFailed = false := by
    rw [List.any_eq_false]
    intro o ho
    simp [hissues o ho]
  have htasks : outs.map (fun o => o.task) = job.Setup.Tasks := by
    rcases taskOutcomes_shape c fuel repo milestone columns _ _ _ _ houts with
      ⟨_, h2⟩ | ⟨before, o, e, h1, h2, _⟩
    · exact h2
    · have := hissues o (by rw [h1]; simp)
      simp [TaskOutcome.issueFailed, h2] at this
  obtain ⟨hcount, hprog⟩ := outcomeEvents_counts now job.ID outs hany
  refine ⟨_, ?_, rfl, htasks, ?_, ?_, ?_⟩
  · unfold Run
    simp only [hrepo, hms, hproj, hcols, runTasks_eq_outcomes, houts, Option.map_some', hany,
      Bool.not_false, List.cons_append, List.nil_append, List.append_assoc]
  · rw [hprog, ← htasks, List.map_map]
    rfl
  · simp only [List.filter_append, List.length_append, hcount]
    simp [List.filter_cons, Event.isError, NewEvent]
  · rw [List.getLast?_concat]
    rfl

/-- C11 on the fake tracker where the card for issue 2 is rejected, for the
tasks of `TestFullWorkload` with one assignee each (issues 1, 2, 3 are
created): the run sends one error event and ends with the complete event. -/
theorem Run_card_failures_example :
    ∃ (evs : List Event) (w5 : World TestCache),
      Run (TestGitHubClient.withCardFailure ⟨0, 0⟩ [2] "422 Unprocessable Entity") 1 ⟨0, 0⟩
        "test" ⟨42, testSetupByOwner⟩ freshWorld = some (evs, w5) ∧
      (evs.filter Event.isError).length = 1 ∧
      evs.getLast?.map (fun e => e.Typ) = some "complete" := by
  obtain ⟨evs, hrun, _, _, _, herr, hlast⟩ :=
    Run_card_failures (TestGitHubClient.withCardFailure ⟨0, 0⟩ [2] "422 Unprocessable Entity")
      1 ⟨0, 0⟩ "test" ⟨42, testSetupByOwner⟩ freshWorld _ _ _ _ _ _ _ _ _ _ rfl rfl rfl rfl
      rfl (by decide)
  exact ⟨evs, _, hrun, herr.trans (by decide), hlast⟩

/-- The event types of that run and its calls that create an issue or a card,
written out: the second card fails, the third task is still served. -/
theorem Run_card_failures_example_types :
    eventTypes (Run (TestGitHubClient.withCardFailure ⟨0, 0⟩ [2] "422 Unprocessable Entity")
      1 ⟨0, 0⟩ "test" ⟨42, testSetupByOwner⟩ freshWorld) =
      ["start", "progress", "progress", "progress", "progress", "error", "progress",
        "complete"] ∧
    ((Run (TestGitHubClient.withCardFailure ⟨0, 0⟩ [2] "422 Unprocessable Entity")
      1 ⟨0, 0⟩ "test" ⟨42, testSetupByOwner⟩ freshWorld).map fun r =>
        ((r.2.trace.filter Call.isCreate).length,
          r.2.trace.filter Call.isCreateProjectCard)) =
      some (3, [Call.CreateProjectCard 1 ⟨1, "Issue"⟩, Call.CreateProjectCard 1 ⟨2, "Issue"⟩,
        Call.CreateProjectCard 1 ⟨3, "Issue"⟩]) := by
  decide

end RunCardTheorems

/-! ## The job: one terminal event -/

section RunShapeTheorems

variable {σ : Type}

theorem outcomeEvents_append (now : Time) (id : Int) (xs ys : List TaskOutcome) :
    outcomeEvents now id (xs ++ ys) = outcomeEvents now id xs ++ outcomeEvents now id ys := by
  induction xs with
  | nil => rfl
  | cons x rest ih => simp [outcomeEvents, ih]

/-- An element of a list that is followed by another element lies before the
last one. -/
theorem mem_of_split_before_last {β : Type} (l pre post : List β) (a e : β)
    (h : l ++ [a] = pre ++ e :: post) (hpost : post ≠ []) : e ∈ l := by
  have h1 : (l ++ [a]).dropLast = (pre ++ e :: post).dropLast := by rw [h]
  rw [List.dropLast_concat, List.dropLast_append_of_ne_nil _ (by simp),
    List.dropLast_cons_of_ne_nil hpost] at h1
  rw [h1]
  simp

/-- Every run that returns sends the start event, then progress events and
card errors only, then one last event of type complete or error. -/
theorem Run_shape (c : IGitHubClient σ) (fuel : Nat) (now : Time) (username : String)
    (job : GenerateProject) (w w1 : World σ) (evs : List Event)
    (hrun : Run c fuel now username job w = some (evs, w1)) :
    ∃ (body : List Event) (last : Event),
      evs = (NewEvent now job.ID "start" ("Starting project generation as " ++ username) :: body)
        ++ [last] ∧
      (∀ e ∈ body, e.Typ = "progress" ∨
        (e.Typ = "error" ∧ ∃ err, e.Text = "Error creating card - " ++ err)) ∧
      (last.Typ = "complete" ∨ last.Typ = "error") := by
  unfold Run at hrun
  simp only at hrun
  rcases hrepo : GetRepository c job.Setup.GithubOrganization job.Setup.GithubRepository w
    with ⟨rr, wa⟩
  rw [hrepo] at hrun
  cases rr with
  | error e =>
    simp only [Option.some.injEq, Prod.mk.injEq] at hrun
    exact ⟨[], _, hrun.1.symm, by simp, Or.inr rfl⟩
  | ok repo =>
    simp only at hrun
    rcases hms : CreateOrUpdateMilestone c fuel repo (some ("Welcome @" ++ username ++ "!"))
      (some ("Let's setup up @" ++ username ++ " for success. Here's what we need to cover..."))
      (some (getMilestoneDueTime now none)) wa with _ | ⟨rm, wb⟩
    · rw [hms] at hrun; simp at hrun
    · rw [hms] at hrun
      cases rm with
      | error e =>
        simp only [Option.some.injEq, Prod.mk.injEq] at hrun
        refine ⟨[_], _, hrun.1.symm, ?_, Or.inr rfl⟩
        intro x hx
        rw [List.mem_singleton.mp hx]
        exact Or.inl rfl
      | ok milestone =>
        simp only at hrun
        rcases hpr : CreateOrUpdateProject c fuel repo ("Welcome @" ++ username ++ "!")
          ("Let's setup up @" ++ username ++ " for success. Here's what we need to cover...")
          ["Backlog", "In Progress", "Review", "Done"] wb with _ | ⟨rp, wc⟩
        · rw [hpr] at hrun; simp at hrun
        · rw [hpr] at hrun
          cases rp with
          | error e =>
            simp only [Option.some.injEq, Prod.mk.injEq] at hrun
            refine ⟨[_, _], _, hrun.1.symm, ?_, Or.inr rfl⟩
            intro x hx
            simp only [List.mem_cons, List.mem_singleton, List.not_mem_nil, or_false] at hx
            rcases hx with hx | hx <;> (rw [hx]; exact Or.inl rfl)
          | ok project =>
            simp only at hrun
            rcases hcol : FetchMappedProjectColumns c fuel project wc with _ | ⟨rc, wd⟩
            · rw [hcol] at hrun; simp at hrun
            · rw [hcol] at hrun
              cases rc with
              | error e =>
                simp only [Option.some.injEq, Prod.mk.injEq] at hrun
                refine ⟨[_, _], _, hrun.1.symm, ?_, Or.inr rfl⟩
                intro x hx
                simp only [List.mem_cons, List.mem_singleton, List.not_mem_nil, or_false] at hx
                rcases hx with hx | hx <;> (rw [hx]; exact Or.inl rfl)
              | ok columns =>
                simp only [runTasks_eq_outcomes] at hrun
                rcases houts : taskOutcomes c fuel repo milestone columns job.Setup.Tasks wd
                  with _ | ⟨outs, we⟩
                · rw [houts] at hrun; simp at hrun
                · rw [houts] at hrun
                  simp only [Option.map_some'] at hrun
                  rcases taskOutcomes_shape c fuel repo milestone columns _ _ _ _ houts with
                    ⟨hno, _⟩ | ⟨before, o, e, h1, h2, h3⟩
                  · simp only [hno, Bool.not_false, Option.some.injEq, Prod.mk.injEq] at hrun
                    refine ⟨NewEvent now job.ID "progress"
                        ("Creating Milestone - " ++ ("Welcome @" ++ username ++ "!")) ::
                      NewEvent now job.ID "progress"
                        ("Creating Project - " ++ ("Welcome @" ++ username ++ "!")) ::
                      outcomeEvents now job.ID outs,
                      NewEvent now job.ID "complete"
                        ("Successfully created project @ " ++ ("https://github.com/" ++
                          job.Setup.GithubOrganization ++ "/" ++ job.Setup.GithubRepository ++
                          "/projects/")),
                      ?_, ?_, Or.inl rfl⟩
                    · rw [← hrun.1]; simp
                    · intro x hx
                      simp only [List.mem_cons] at hx
                      rcases hx with hx | hx | hx
                      · rw [hx]; exact Or.inl rfl
                      · rw [hx]; exact Or.inl rfl
                      · exact outcomeEvents_body now job.ID outs hno x hx
                  · have hany : outs.any TaskOutcome.issueFailed = true := by
                      rw [h1]
                      simp [TaskOutcome.issueFailed, h2]
                    simp only [hany, Bool.not_true, Option.some.injEq, Prod.mk.injEq] at hrun
                    obtain ⟨task, issue, card⟩ := o
                    simp only at h2
                    subst h2
                    refine ⟨NewEvent now job.ID "progress"
                        ("Creating Milestone - " ++ ("Welcome @" ++ username ++ "!")) ::
                      NewEvent now job.ID "progress"
                        ("Creating Project - " ++ ("Welcome @" ++ username ++ "!")) ::
                      (outcomeEvents now job.ID before ++
                      [NewEvent now job.ID "progress" ("Preparing Issue - " ++ task.Title)]),
                      NewError now job.ID ("Failed to create issue - " ++ task.Title) e,
                      ?_, ?_, Or.inr rfl⟩
                    · rw [← hrun.1, h1, outcomeEvents_append]
                      simp [outcomeEvents, TaskOutcome.events]
                    · intro x hx
                      simp only [List.mem_cons, List.mem_append, List.mem_singleton,
                        List.not_mem_nil, or_false] at hx
                      rcases hx with hx | hx | hx | hx
                      · rw [hx]; exact Or.inl rfl
                      · rw [hx]; exact Or.inl rfl
                      · exact outcomeEvents_body now job.ID before h3 x hx
                      · rw [hx]; exact Or.inl rfl

/-- C13: for every outcome of the remote calls, the events of a run that
returns start with the start event; the last event has Type "complete" or
"error"; an event of Type "complete" has no event after it, so it occurs at
most once and only in last position; and an error event that has an event
after it is a card-creation error, so no event follows an error caused by a
repository, milestone, project, column-fetch or issue failure. -/
theorem Run_single_terminal_event (c : IGitHubClient σ) (fuel : Nat) (now : Time)
    (username : String) (job : GenerateProject) (w w1 : World σ) (evs : List Event)
    (hrun : Run c fuel now username job w = some (evs, w1)) :
    evs.head? = some (NewEvent now job.ID "start" ("Starting project generation as " ++ username)) ∧
    (∃ last, evs.getLast? = some last ∧ (last.Typ = "complete" ∨ last.Typ = "error")) ∧
    (∀ (pre post : List Event) (e : Event), evs = pre ++ e :: post → e.Typ = "complete" →
      post = []) ∧
    (∀ (pre post : List Event) (e : Event), evs = pre ++ e :: post → e.Typ = "error" →
      post ≠ [] → ∃ err, e.Text = "Error creating card - " ++ err) := by
  obtain ⟨body, last, hev, hbody, hlast⟩ := Run_shape c fuel now username job w w1 evs hrun
  have hmem : ∀ (pre post : List Event) (e : Event), evs = pre ++ e :: post → post ≠ [] →
      e.Typ = "start" ∨ e.Typ = "progress" ∨
        (e.Typ = "error" ∧ ∃ err, e.Text = "Error creating card - " ++ err) := by
    intro pre post e hsplit hpost
    have := mem_of_split_before_last _ pre post last e (hev.symm.trans hsplit) hpost
    rcases List.mem_cons.mp this with h | h
    · left; rw [h]; rfl
    · right; exact hbody e h
  refine ⟨by rw [hev]; rfl, ⟨last, by rw [hev, List.getLast?_concat], hlast⟩, ?_, ?_⟩
  · intro pre post e hsplit hcomplete
    by_contra hpost
    rcases hmem pre post e hsplit hpost with h | h | ⟨h, _⟩ <;>
      · rw [hcomplete] at h
        exact absurd h (by decide)
  · intro pre post e hsplit herror hpost
    rcases hmem pre post e hsplit hpost with h | h | ⟨_, h⟩
    · rw [herror] at h; exact absurd h (by decide)
    · rw [herror] at h; exact absurd h (by decide)
    · exact h

/-- C13 on the run of `TestFullWorkload` against the fake tracker that rejects
the card for issue 2. -/
theorem Run_single_terminal_event_example :
    ∃ (evs : List Event),
      eventTypes (Run (TestGitHubClient.withCardFailure ⟨0, 0⟩ [2] "422 Unprocessable Entity")
        1 ⟨0, 0⟩ "test" ⟨42, testSetup⟩ freshWorld) = evs.map (fun e => e.Typ) ∧
      evs.head? = some (NewEvent ⟨0, 0⟩ 42 "start" ("Starting project generation as " ++ "test")) ∧
      (∃ last, evs.getLast? = some last ∧ (last.Typ = "complete" ∨ last.Typ = "error")) ∧
      (∀ (pre post : List Event) (e : Event), evs = pre ++ e :: post → e.Typ = "complete" →
        post = []) ∧
      (∀ (pre post : List Event) (e : Event), evs = pre ++ e :: post → e.Typ = "error" →
        post ≠ [] → ∃ err, e.Text = "Error creating card - " ++ err) :=
  ⟨_, rfl,
    Run_single_terminal_event
      (TestGitHubClient.withCardFailure ⟨0, 0⟩ [2] "422 Unprocessable Entity") 1 ⟨0, 0⟩ "test"
      ⟨42, testSetup⟩ freshWorld
      ((Run (TestGitHubClient.withCardFailure ⟨0, 0⟩ [2] "422 Unprocessable Entity") 1 ⟨0, 0⟩
        "test" ⟨42, testSetup⟩ freshWorld).get (by decide)).2
      ((Run (TestGitHubClient.withCardFailure ⟨0, 0⟩ [2] "422 Unprocessable Entity") 1 ⟨0, 0⟩
        "test" ⟨42, testSetup⟩ freshWorld).get (by decide)).1
      (Option.some_get (by decide)).symm⟩

end RunShapeTheorems

/-! ## The job: a failed issue -/

section RunIssueTheorems

variable {σ : Type}

/-- The calls of `CreateOrUpdateIssue` are issue listings, issue creations and
issue edits only. -/
theorem CreateOrUpdateIssue_trace (c : IGitHubClient σ) (fuel : Nat) (repo : WorkflowRepository)
    (assignee title body : Option String) (milestone : Int) (w w1 : World σ)
    (r : Except String (Option Issue))
    (h : CreateOrUpdateIssue c fuel repo assignee title body milestone w = some (r, w1)) :
    ∃ calls : List Call, w1.trace = w.trace ++ calls ∧
      ∀ x ∈ calls, (∃ opts, x = Call.ListByRepo repo.owner repo.name opts) ∨
        (∃ req, x = Call.Create repo.owner repo.name req) ∨
        (∃ n req, x = Call.Edit repo.owner repo.name n req) := by
  unfold CreateOrUpdateIssue at h
  simp only at h
  rcases hsearch : GetIssuesByRequest c fuel repo (issueRequestFor assignee title body milestone) w
    with _ | ⟨rs, w2⟩
  · rw [hsearch] at h; simp at h
  · rw [hsearch] at h
    obtain ⟨calls, hc, _, hall⟩ := GetIssuesByRequest_trace c fuel repo _ w w2 rs hsearch
    have hlist : ∀ x ∈ calls, (∃ opts, x = Call.ListByRepo repo.owner repo.name opts) ∨
        (∃ req, x = Call.Create repo.owner repo.name req) ∨
        (∃ n req, x = Call.Edit repo.owner repo.name n req) := by
      intro x hx
      obtain ⟨page, hp⟩ := hall x hx
      exact Or.inl ⟨_, hp⟩
    cases rs with
    | error e =>
      simp only [Option.some.injEq, Prod.mk.injEq] at h
      exact ⟨calls, by rw [← h.2]; exact hc, hlist⟩
    | ok issuesFound =>
      simp only at h
      split at h
      · simp only [Option.some.injEq, Prod.mk.injEq] at h
        exact ⟨calls, by rw [← h.2]; exact hc, hlist⟩
      · unfold createIssue at h
        rcases hcreate : c.Create repo.owner repo.name
          (issueRequestFor assignee title body milestone) w2.st with ⟨rc, s3⟩
        rw [hcreate] at h
        cases rc with
        | error e =>
          simp only [Option.some.injEq, Prod.mk.injEq] at h
          refine ⟨calls ++ [Call.Create repo.owner repo.name
            (issueRequestFor assignee title body milestone)], ?_, ?_⟩
          · rw [← h.2]; simp [World.step, hc]
          · intro x hx
            rcases List.mem_append.mp hx with hx | hx
            · exact hlist x hx
            · exact Or.inr (Or.inl ⟨_, List.mem_singleton.mp hx⟩)
        | ok issue =>
          simp only at h
          cases body with
          | none => simp at h
          | some b =>
            simp only at h
            split at h
            · simp only [Option.some.injEq] at h
              unfold updateIssue at h
              refine ⟨calls ++ [Call.Create repo.owner repo.name
                (issueRequestFor assignee title (some b) milestone),
                Call.Edit repo.owner repo.name (Issue.GetNumber issue)
                  (issueRequestFor assignee title (some b) milestone)], ?_, ?_⟩
              · split at h <;>
                · simp only [Prod.mk.injEq] at h
                  rw [← h.2]
                  simp [World.step, hc]
              · intro x hx
                rcases List.mem_append.mp hx with hx | hx
                · exact hlist x hx
                · simp only [List.mem_cons, List.mem_singleton, List.not_mem_nil, or_false] at hx
                  rcases hx with hx | hx
                  · exact Or.inr (Or.inl ⟨_, hx⟩)
                  · exact Or.inr (Or.inr ⟨_, _, hx⟩)
            · simp only [Option.some.injEq, Prod.mk.injEq] at h
              refine ⟨calls ++ [Call.Create repo.owner repo.name
                (issueRequestFor assignee title (some b) milestone)], ?_, ?_⟩
              · rw [← h.2]; simp [World.step, hc]
              · intro x hx
                rcases List.mem_append.mp hx with hx | hx
                · exact hlist x hx
                · exact Or.inr (Or.inl ⟨_, List.mem_singleton.mp hx⟩)

/-- The loop over `pre ++ rest`, when no issue of `pre` fails, is the loop
over `pre` followed by the loop over `rest`. -/
theorem taskOutcomes_append (c : IGitHubClient σ) (fuel : Nat) (repo : WorkflowRepository)
    (milestone : Option Milestone) (columns : List (String × Option ProjectColumn))
    (rest : List TaskEntry) :
    ∀ (pre : List TaskEntry) (w w5 : World σ) (outsPre : List TaskOutcome),
      taskOutcomes c fuel repo milestone columns pre w = some (outsPre, w5) →
      outsPre.any TaskOutcome.issueFailed = false →
      taskOutcomes c fuel repo milestone columns (pre ++ rest) w =
        (taskOutcomes c fuel repo milestone columns rest w5).map fun r =>
          (outsPre ++ r.1, r.2) := by
  intro pre
  induction pre with
  | nil =>
    intro w w5 outsPre h _
    simp only [taskOutcomes, Option.some.injEq, Prod.mk.injEq] at h
    rw [← h.1, ← h.2]
    simp
  | cons task pre1 ih =>
    intro w w5 outsPre h hno
    rw [List.cons_append]
    unfold taskOutcomes at h
    conv_lhs => unfold taskOutcomes
    rcases hissue : CreateOrUpdateIssue c fuel repo (some task.Assignee.GithubUsername)
      (some task.Title) (some task.Description) (Milestone.GetNumber milestone) w with _ | ⟨r, w2⟩
    · rw [hissue] at h; simp at h
    · rw [hissue] at h
      cases r with
      | error e =>
        simp only [Option.some.injEq, Prod.mk.injEq] at h
        rw [← h.1] at hno
        simp [TaskOutcome.issueFailed] at hno
      | ok issue =>
        simp only at h ⊢
        rcases hrest : taskOutcomes c fuel repo milestone columns pre1
          (CreateCardForIssue c issue ((mapGet columns "Backlog").join) w2).2 with _ | ⟨outs1, w4⟩
        · rw [hrest] at h; simp at h
        · rw [hrest] at h
          simp only [Option.some.injEq, Prod.mk.injEq] at h
          have hno1 : outs1.any TaskOutcome.issueFailed = false := by
            rw [← h.1] at hno
            simpa [TaskOutcome.issueFailed] using hno
          rw [ih _ _ _ hrest hno1, ← h.2, ← h.1]
          rcases taskOutcomes c fuel repo milestone columns rest w4 with _ | ⟨outs2, w6⟩
          · rfl
          · rfl

end RunIssueTheorems

section RunIssueFailure

variable {σ : Type}

/-- C14: when the repository, the milestone, the project and the column map
are obtained, the tasks before position i go through without a failed issue,
and `CreateOrUpdateIssue` fails with `e` for the task at position i: the run
ends with the "Preparing Issue" progress event of that task followed by one
error event for it, which is the last event; no event has Type "complete"; the
progress events of the task loop are those of the tasks up to position i and
of no later task; and the run stops in the world the failed call left, whose
calls since the loop reached the task are issue listings, creations and edits
only, so no card call is made for task i and no call at all for a later task. -/
theorem Run_issue_failure (c : IGitHubClient σ) (fuel : Nat) (now : Time) (username : String)
    (job : GenerateProject) (w w1 w2 w3 w4 w5 w6 : World σ) (repo : WorkflowRepository)
    (milestone : Option Milestone) (project : Option Project)
    (columns : List (String × Option ProjectColumn))
    (pre post : List TaskEntry) (task : TaskEntry) (outsPre : List TaskOutcome) (e : String)
    (hrepo : GetRepository c job.Setup.GithubOrganization job.Setup.GithubRepository w =
      (.ok repo, w1))
    (hms : CreateOrUpdateMilestone c fuel repo (some ("Welcome @" ++ username ++ "!"))
      (some ("Let's setup up @" ++ username ++ " for success. Here's what we need to cover..."))
      (some (getMilestoneDueTime now none)) w1 = some (.ok milestone, w2))
    (hproj : CreateOrUpdateProject c fuel repo ("Welcome @" ++ username ++ "!")
      ("Let's setup up @" ++ username ++ " for success. Here's what we need to cover...")
      ["Backlog", "In Progress", "Review", "Done"] w2 = some (.ok project, w3))
    (hcols : FetchMappedProjectColumns c fuel project w3 = some (.ok columns, w4))
    (htasks : job.Setup.Tasks = pre ++ task :: post)
    (hpre : taskOutcomes c fuel repo milestone columns pre w4 = some (outsPre, w5))
    (hprefine : ∀ o ∈ outsPre, o.issueFailed = false)
    (hissue : CreateOrUpdateIssue c fuel repo (some task.Assignee.GithubUsername)
      (some task.Title) (some task.Description) (Milestone.GetNumber milestone) w5 =
      some (.error e, w6)) :
    ∃ evs : List Event,
      Run c fuel now username job w = some (evs, w6) ∧
      evs =
        [NewEvent now job.ID "start" ("Starting project generation as " ++ username),
          NewEvent now job.ID "progress"
            ("Creating Milestone - " ++ ("Welcome @" ++ username ++ "!")),
          NewEvent now job.ID "progress"
            ("Creating Project - " ++ ("Welcome @" ++ username ++ "!"))] ++
        outcomeEvents now job.ID outsPre ++
        [NewEvent now job.ID "progress" ("Preparing Issue - " ++ task.Title),
          NewError now job.ID ("Failed to create issue - " ++ task.Title) e] ∧
      evs.getLast? = some (NewError now job.ID ("Failed to create issue - " ++ task.Title) e) ∧
      (∀ ev ∈ evs, ev.Typ ≠ "complete") ∧
      (outcomeEvents now job.ID outsPre ++
          [NewEvent now job.ID "progress" ("Preparing Issue - " ++ task.Title),
            NewError now job.ID ("Failed to create issue - " ++ task.Title) e]).filter
          Event.isProgress =
        (pre ++ [task]).map (fun t =>
          NewEvent now job.ID "progress" ("Preparing Issue - " ++ t.Title)) ∧
      ∃ calls : List Call, w6.trace = w5.trace ++ calls ∧
        ∀ x ∈ calls, (∃ opts, x = Call.ListByRepo repo.owner repo.name opts) ∨
          (∃ req, x = Call.Create repo.owner repo.name req) ∨
          (∃ n req, x = Call.Edit repo.owner repo.name n req) := by
  have hany : outsPre.any TaskOutcome.issueFailed = false := by
    rw [List.any_eq_false]
    intro o ho
    simp [hprefine o ho]
  have hpretasks : outsPre.map (fun o => o.task) = pre := by
    rcases taskOutcomes_shape c fuel repo milestone columns _ _ _ _ hpre with
      ⟨_, h2⟩ | ⟨before, o, e1, h1, h2, _⟩
    · exact h2
    · have := hprefine o (by rw [h1]; simp)
      simp [TaskOutcome.issueFailed, h2] at this
  have hstep : taskOutcomes c fuel repo milestone columns (task :: post) w5 =
      some ([{ task := task, issue := .error e, card := none }], w6) := by
    unfold taskOutcomes
    simp only [hissue]
  have hall : taskOutcomes c fuel repo milestone columns job.Setup.Tasks w4 =
      some (outsPre ++ [{ task := task, issue := .error e, card := none }], w6) := by
    rw [htasks, taskOutcomes_append c fuel repo milestone columns _ pre w4 w5 outsPre hpre hany,
      hstep]
    rfl
  obtain ⟨hcount, hprog⟩ := outcomeEvents_counts now job.ID outsPre hany
  have hbody := outcomeEvents_body now job.ID outsPre hany
  refine ⟨_, ?_, rfl, ?_, ?_, ?_, ?_⟩
  · unfold Run
    simp only [hrepo, hms, hproj, hcols, runTasks_eq_outcomes, hall, Option.map_some',
      outcomeEvents_append, List.any_append, hany]
    simp [outcomeEvents, TaskOutcome.events, TaskOutcome.issueFailed]
  · have : ∀ (l : List Event) (a b : Event), (l ++ [a, b]).getLast? = some b := by
      intro l a b
      have : l ++ [a, b] = (l ++ [a]) ++ [b] := by simp
      rw [this, List.getLast?_concat]
    exact this _ _ _
  · intro ev hev
    simp only [List.mem_append, List.mem_cons, List.mem_singleton, List.not_mem_nil,
      or_false] at hev
    rcases hev with ((hev | hev | hev) | hev) | hev | hev
    · rw [hev]; simp [NewEvent]
    · rw [hev]; simp [NewEvent]
    · rw [hev]; simp [NewEvent]
    · rcases hbody ev hev with h | ⟨h, _⟩ <;> (rw [h]; decide)
    · rw [hev]; simp [NewEvent]
    · rw [hev]; simp [NewError]
  · rw [List.filter_append, hprog, ← hpretasks, List.map_append, List.map_map]
    simp [List.filter_cons, Event.isProgress, NewEvent, NewError]
  · exact CreateOrUpdateIssue_trace c fuel repo _ _ _ _ w5 w6 _ hissue

/-- C14 on the fake tracker where creating the issue "test2" fails, for the
tasks of `TestFullWorkload` with one assignee each: the second task ends the
run. -/
theorem Run_issue_failure_example :
    ∃ (evs : List Event) (w6 : World TestCache),
      Run (TestGitHubClient.withIssueFailure ⟨0, 0⟩ ["test2"] "500 Server Error") 1 ⟨0, 0⟩
        "test" ⟨42, testSetupByOwner⟩ freshWorld = some (evs, w6) ∧
      evs.getLast? =
        some (NewError ⟨0, 0⟩ 42 ("Failed to create issue - " ++ "test2") "500 Server Error") ∧
      (∀ ev ∈ evs, ev.Typ ≠ "complete") := by
  obtain ⟨evs, hrun, _, hlast, hnc, _, _⟩ :=
    Run_issue_failure (TestGitHubClient.withIssueFailure ⟨0, 0⟩ ["test2"] "500 Server Error")
      1 ⟨0, 0⟩ "test" ⟨42, testSetupByOwner⟩ freshWorld _ _ _ _ _ _ _ _ _ _
      [⟨"test1", ⟨"owner1"⟩, "test"⟩] [⟨"test3", ⟨"owner3"⟩, "test"⟩]
      ⟨"test2", ⟨"owner2"⟩, "test"⟩
      _ "500 Server Error" rfl rfl rfl rfl rfl rfl (by decide) rfl
  exact ⟨evs, _, hrun, hlast, hnc⟩

/-- The event types of that run and its calls that create an issue or a card,
written out: the issue of the second task is asked for and fails, no card call
is made for it, and nothing is done for the third task. -/
theorem Run_issue_failure_example_trace :
    eventTypes (Run (TestGitHubClient.withIssueFailure ⟨0, 0⟩ ["test2"] "500 Server Error")
      1 ⟨0, 0⟩ "test" ⟨42, testSetupByOwner⟩ freshWorld) =
      ["start", "progress", "progress", "progress", "progress", "error"] ∧
    ((Run (TestGitHubClient.withIssueFailure ⟨0, 0⟩ ["test2"] "500 Server Error")
      1 ⟨0, 0⟩ "test" ⟨42, testSetupByOwner⟩ freshWorld).map fun r =>
        ((r.2.trace.filter Call.isCreate).map fun x =>
            match x with
            | Call.Create _ _ req => req.Title.getD ""
            | _ => "",
          r.2.trace.filter Call.isCreateProjectCard)) =
      some (["test1", "test2"], [Call.CreateProjectCard 1 ⟨1, "Issue"⟩]) := by
  decide

end RunIssueFailure

/-! ## The job on the fake tracker -/

section FakeRunTheorems

theorem fake_CreateOrUpdateMilestone (now : Time) (fuel : Nat) (repo : WorkflowRepository)
    (title description : Option String) (dueDate : Option Time) (w : World TestCache) :
    ∃ (m : Option Milestone) (w1 : World TestCache),
      CreateOrUpdateMilestone (TestGitHubClient now) (fuel + 1) repo title description dueDate w =
        some (.ok m, w1) := by
  cases title <;>
    simp [CreateOrUpdateMilestone, fetchMilestones, fetchMilestonesLoop, TestGitHubClient,
      TestIssues.ListMilestones, prepareGitHubAPIResponse, findMilestoneByTitle, createMilestone,
      TestIssues.CreateMilestone]

theorem fake_createProjectColumnsLoop (now : Time) (project : Option Project) :
    ∀ (columns : List String) (acc : List (Option ProjectColumn)) (w : World TestCache),
      ∃ (cols : List (Option ProjectColumn)) (w1 : World TestCache),
        createProjectColumnsLoop (TestGitHubClient now) project columns acc w = (.ok cols, w1) := by
  intro columns
  induction columns with
  | nil => intro acc w; exact ⟨acc, w, rfl⟩
  | cons col rest ih =>
    intro acc w
    unfold createProjectColumnsLoop
    by_cases hcol : col = ""
    · simp only [hcol, if_true]
      exact ih acc w
    · simp only [hcol, if_false, TestGitHubClient, TestProjects.CreateProjectColumn]
      exact ih _ _

theorem fake_createProjectIfMissing (now : Time) (repo : WorkflowRepository)
    (opts : ProjectOptions) (columns : List String) (projectFound : Option Project)
    (w : World TestCache) :
    ∃ (p : Option Project) (w1 : World TestCache),
      createProjectIfMissing (TestGitHubClient now) repo opts columns projectFound w =
        (.ok p, w1) := by
  unfold createProjectIfMissing
  split
  · simp only [createProject, TestGitHubClient, TestRepositories.CreateProject,
      createProjectColumns]
    obtain ⟨cols, w1, h⟩ := fake_createProjectColumnsLoop now
      (some { ID := none, Name := some opts.Name, Body := some opts.Body, Number := some 1001,
              CreatedAt := some now, UpdatedAt := some now })
      columns []
      (w.step (Call.CreateProject repo.owner repo.name opts) w.st)
    simp only [TestGitHubClient] at h
    rw [h]
    exact ⟨_, _, rfl⟩
  · exact ⟨_, _, rfl⟩

theorem fake_CreateOrUpdateProject (now : Time) (fuel : Nat) (repo : WorkflowRepository)
    (title description : String) (columns : List String) (w : World TestCache) :
    ∃ (p : Option Project) (w1 : World TestCache),
      CreateOrUpdateProject (TestGitHubClient now) (fuel + 1) repo title description columns w =
        some (.ok p, w1) := by
  have hfetch : ∃ ps w1, fetchProjects (TestGitHubClient now) (fuel + 1) repo
      { State := "", Page := 0 } w = some (.ok ps, w1) := by
    simp [fetchProjects, fetchProjectsLoop, TestGitHubClient, TestRepositories.ListProjects,
      prepareGitHubAPIResponse]
  obtain ⟨ps, w1, hf⟩ := hfetch
  unfold CreateOrUpdateProject
  simp only [hf]
  split
  · split
    · simp only [updateProject, TestGitHubClient, TestProjects.UpdateProject]
      obtain ⟨p, w2, h⟩ := fake_createProjectIfMissing now repo
        { Name := title, Body := description } columns
        (some { ID := some (Project.GetID (findProjectByName title ps)), Name := some title,
                Body := some description, Number := some 1002, CreatedAt := some now,
                UpdatedAt := some now })
        (w1.step (Call.UpdateProject (Project.GetID (findProjectByName title ps))
          { Name := title, Body := description }) w1.st)
      simp only [TestGitHubClient] at h
      exact ⟨p, w2, by rw [h]⟩
    · obtain ⟨p, w2, h⟩ := fake_createProjectIfMissing now repo
        { Name := title, Body := description } columns (findProjectByName title ps) w1
      exact ⟨p, w2, by rw [h]⟩
  · obtain ⟨p, w2, h⟩ := fake_createProjectIfMissing now repo
      { Name := title, Body := description } columns (findProjectByName title ps) w1
    exact ⟨p, w2, by rw [h]⟩

theorem fake_FetchMappedProjectColumns (now : Time) (fuel : Nat) (project : Option Project)
    (w : World TestCache) :
    ∃ (columns : List (String × Option ProjectColumn)) (w1 : World TestCache),
      FetchMappedProjectColumns (TestGitHubClient now) (fuel + 1) project w =
        some (.ok columns, w1) := by
  unfold FetchMappedProjectColumns fetchProjectColumns fetchProjectColumnsLoop
  simp only [TestGitHubClient, TestProjects.ListProjectColumns]
  cases mapGet w.st.projectColumns (Project.GetID project) <;>
    simp [prepareGitHubAPIResponse]

theorem fake_CreateOrUpdateIssue (now : Time) (fuel : Nat) (repo : WorkflowRepository)
    (assignee title body : String) (milestone : Int) (w : World TestCache) :
    ∃ (issue : Option Issue) (w1 : World TestCache),
      CreateOrUpdateIssue (TestGitHubClient now) (fuel + 1) repo (some assignee) (some title)
        (some body) milestone w = some (.ok issue, w1) := by
  unfold CreateOrUpdateIssue GetIssuesByRequest fetchIssues fetchIssuesLoop
  simp only [TestGitHubClient, TestIssues.ListByRepo, prepareGitHubAPIResponse, if_true]
  split
  · exact ⟨_, _, rfl⟩
  · simp [createIssue, TestIssues.Create, issueRequestFor, Issue.GetBody]

theorem fake_CreateCardForIssue (now : Time) (issue : Option Issue)
    (column : Option ProjectColumn) (w : World TestCache) :
    ∃ (card : Option ProjectCard) (w1 : World TestCache),
      CreateCardForIssue (TestGitHubClient now) issue column w = (.ok card, w1) := by
  simp [CreateCardForIssue, TestGitHubClient, TestProjects.CreateProjectCard]

/-- On the fake tracker the task loop reaches every task and nothing fails. -/
theorem fake_taskOutcomes (now : Time) (fuel : Nat) (repo : WorkflowRepository)
    (milestone : Option Milestone) (columns : List (String × Option ProjectColumn)) :
    ∀ (tasks : List TaskEntry) (w : World TestCache),
      ∃ (outs : List TaskOutcome) (w1 : World TestCache),
        taskOutcomes (TestGitHubClient now) (fuel + 1) repo milestone columns tasks w =
          some (outs, w1) ∧
        outs.any TaskOutcome.issueFailed = false ∧
        outs.any TaskOutcome.cardFailed = false := by
  intro tasks
  induction tasks with
  | nil => intro w; exact ⟨[], w, rfl, rfl, rfl⟩
  | cons task rest ih =>
    intro w
    obtain ⟨issue, w1, hi⟩ := fake_CreateOrUpdateIssue now fuel repo task.Assignee.GithubUsername
      task.Title task.Description (Milestone.GetNumber milestone) w
    obtain ⟨card, w2, hc⟩ := fake_CreateCardForIssue now issue ((mapGet columns "Backlog").join) w1
    obtain ⟨outs, w3, ho, h1, h2⟩ := ih w2
    refine ⟨{ task := task, issue := .ok issue, card := some (.ok card) } :: outs, w3, ?_, ?_, ?_⟩
    · unfold taskOutcomes
      simp only [hi, hc, ho]
    · simp [TaskOutcome.issueFailed, h1]
    · simp [TaskOutcome.cardFailed, h2]

end FakeRunTheorems

section FakeRunMain

/-- When the four setup steps succeed and the task loop meets no failed issue,
the run sends the start event, the two setup progress events, the events of
the task outcomes and the complete event. -/
theorem Run_of_outcomes {σ : Type} (c : IGitHubClient σ) (fuel : Nat) (now : Time)
    (username : String) (job : GenerateProject) (w w1 w2 w3 w4 w5 : World σ)
    (repo : WorkflowRepository) (milestone : Option Milestone) (project : Option Project)
    (columns : List (String × Option ProjectColumn)) (outs : List TaskOutcome)
    (hrepo : GetRepository c job.Setup.GithubOrganization job.Setup.GithubRepository w =
      (.ok repo, w1))
    (hms : CreateOrUpdateMilestone c fuel repo (some ("Welcome @" ++ username ++ "!"))
      (some ("Let's setup up @" ++ username ++ " for success. Here's what we need to cover..."))
      (some (getMilestoneDueTime now none)) w1 = some (.ok milestone, w2))
    (hproj : CreateOrUpdateProject c fuel repo ("Welcome @" ++ username ++ "!")
      ("Let's setup up @" ++ username ++ " for success. Here's what we need to cover...")
      ["Backlog", "In Progress", "Review", "Done"] w2 = some (.ok project, w3))
    (hcols : FetchMappedProjectColumns c fuel project w3 = some (.ok columns, w4))
    (houts : taskOutcomes c fuel repo milestone columns job.Setup.Tasks w4 = some (outs, w5))
    (hany : outs.any TaskOutcome.issueFailed = false) :
    Run c fuel now username job w =
      some ([NewEvent now job.ID "start" ("Starting project generation as " ++ username),
          NewEvent now job.ID "progress"
            ("Creating Milestone - " ++ ("Welcome @" ++ username ++ "!")),
          NewEvent now job.ID "progress"
            ("Creating Project - " ++ ("Welcome @" ++ username ++ "!"))] ++
        outcomeEvents now job.ID outs ++
        [NewEvent now job.ID "complete"
          ("Successfully created project @ " ++ ("https://github.com/" ++
            job.Setup.GithubOrganization ++ "/" ++ job.Setup.GithubRepository ++ "/projects/"))],
        w5) := by
  unfold Run
  simp only [hrepo, hms, hproj, hcols, runTasks_eq_outcomes, houts, Option.map_some', hany,
    Bool.not_false, List.cons_append, List.nil_append, List.append_assoc]

/-- Outcomes without any failure send progress events only. -/
theorem outcomeEvents_no_failure (now : Time) (id : Int) :
    ∀ (outs : List TaskOutcome), outs.any TaskOutcome.issueFailed = false →
      outs.any TaskOutcome.cardFailed = false →
      ∀ e ∈ outcomeEvents now id outs, e.Typ = "progress" := by
  intro outs
  induction outs with
  | nil => intro _ _ e he; simp [outcomeEvents] at he
  | cons o rest ih =>
    intro h1 h2 e he
    simp only [List.any_cons, Bool.or_eq_false_iff] at h1 h2
    simp only [outcomeEvents, List.mem_append] at he
    rcases he with he | he
    · obtain ⟨task, issue, card⟩ := o
      cases issue with
      | error x => simp [TaskOutcome.issueFailed] at h1
      | ok i =>
        rcases card with _ | ⟨_ | _⟩
        · simp only [TaskOutcome.events, List.mem_singleton] at he
          rw [he]; rfl
        · simp [TaskOutcome.cardFailed] at h2
        · simp only [TaskOutcome.events, List.mem_singleton] at he
          rw [he]; rfl
    · exact ih h1.2 h2.2 e he

/-- C15: on the fresh fake tracker, for every organization, repository,
task list, user name and job id (and any fuel of at least one round), the run
returns, no event has Type "error", and the last event has Type "complete"
with the text "Successfully created project @
https://github.com/<organization>/<repository>/projects/". -/
theorem Run_fresh_fake (now now1 : Time) (fuel : Nat) (username : String)
    (job : GenerateProject) :
    ∃ (evs : List Event) (w1 : World TestCache),
      Run (TestGitHubClient now) (fuel + 1) now1 username job freshWorld = some (evs, w1) ∧
      (∀ e ∈ evs, e.Typ ≠ "error") ∧
      ∃ last, evs.getLast? = some last ∧ last.Typ = "complete" ∧
        last.Text = "Successfully created project @ https://github.com/" ++
          job.Setup.GithubOrganization ++ "/" ++ job.Setup.GithubRepository ++ "/projects/" := by
  rcases hrepo : GetRepository (TestGitHubClient now) job.Setup.GithubOrganization
    job.Setup.GithubRepository freshWorld with ⟨rr, wa⟩
  have hrr : ∃ repo, rr = .ok repo := by
    simp only [GetRepository, fetchRepository, TestGitHubClient, TestRepositories.Get,
      Prod.mk.injEq] at hrepo
    exact ⟨_, hrepo.1.symm⟩
  obtain ⟨repo, rfl⟩ := hrr
  obtain ⟨milestone, wb, hms⟩ := fake_CreateOrUpdateMilestone now fuel repo
    (some ("Welcome @" ++ username ++ "!"))
    (some ("Let's setup up @" ++ username ++ " for success. Here's what we need to cover..."))
    (some (getMilestoneDueTime now1 none)) wa
  obtain ⟨project, wc, hproj⟩ := fake_CreateOrUpdateProject now fuel repo
    ("Welcome @" ++ username ++ "!")
    ("Let's setup up @" ++ username ++ " for success. Here's what we need to cover...")
    ["Backlog", "In Progress", "Review", "Done"] wb
  obtain ⟨columns, wd, hcols⟩ := fake_FetchMappedProjectColumns now fuel project wc
  obtain ⟨outs, we, houts, hno1, hno2⟩ := fake_taskOutcomes now fuel repo milestone columns
    job.Setup.Tasks wd
  have hrun := Run_of_outcomes (TestGitHubClient now) (fuel + 1) now1 username job freshWorld
    wa wb wc wd we repo milestone project columns outs hrepo hms hproj hcols houts hno1
  refine ⟨_, we, hrun, ?_, _, List.getLast?_concat _, rfl, ?_⟩
  · intro e he
    simp only [List.mem_append, List.mem_cons, List.mem_singleton, List.not_mem_nil,
      or_false] at he
    rcases he with ((he | he | he) | he) | he
    · rw [he]; simp [NewEvent]
    · rw [he]; simp [NewEvent]
    · rw [he]; simp [NewEvent]
    · rw [outcomeEvents_no_failure now1 job.ID outs hno1 hno2 e he]; decide
    · rw [he]; simp [NewEvent]
  · have hlit : "Successfully created project @ https://github.com/" =
        "Successfully created project @ " ++ "https://github.com/" := by decide
    simp only [NewEvent, hlit, String.append_assoc]

/-- The run of `TestFullWorkload` on the fresh fake tracker, written out by
event type and text of the last event. -/
theorem Run_fresh_fake_full_workload :
    eventTypes (Run (TestGitHubClient ⟨0, 0⟩) 1 ⟨0, 0⟩ "test" ⟨42, testSetup⟩ freshWorld) =
      ["start", "progress", "progress", "progress", "progress", "progress", "complete"] ∧
    ((Run (TestGitHubClient ⟨0, 0⟩) 1 ⟨0, 0⟩ "test" ⟨42, testSetup⟩ freshWorld).bind fun r =>
      r.1.getLast?.map fun e => e.Text) =
      some "Successfully created project @ https://github.com/testOrganization/testRepository/projects/"
    := by
  decide

end FakeRunMain

/-! ## Issues: the body fix after a create, and the title pass -/

section IssueBodyTheorems

variable {σ : Type}

/-- C21: when the search finds no issue and the create call succeeds with
`issue`: if the created issue's body differs from the requested body `b`, the
call makes exactly one edit call, for the created issue's number and with the
same request, and returns what the edit returned, result or error; if the
bodies are equal it makes no edit call and returns the created issue. -/
theorem CreateOrUpdateIssue_body_fix (c : IGitHubClient σ) (fuel : Nat)
    (repo : WorkflowRepository) (assignee title : Option String) (b : String) (milestone : Int)
    (w w1 : World σ) (issuesFound : List (Option Issue)) (issue : Option Issue) (s2 : σ)
    (hsearch : GetIssuesByRequest c fuel repo (issueRequestFor assignee title (some b) milestone)
      w = some (.ok issuesFound, w1))
    (hnone : ∀ i ∈ issuesFound, i = none)
    (hcreate : c.Create repo.owner repo.name (issueRequestFor assignee title (some b) milestone)
      w1.st = (.ok issue, s2)) :
    (Issue.GetBody issue ≠ b →
      ∀ (r : Except String (Option Issue)) (s3 : σ),
        c.Edit repo.owner repo.name (Issue.GetNumber issue)
          (issueRequestFor assignee title (some b) milestone) s2 = (r, s3) →
        CreateOrUpdateIssue c fuel repo assignee title (some b) milestone w =
          some (r,
            { st := s3
              trace := w1.trace ++
                [Call.Create repo.owner repo.name
                  (issueRequestFor assignee title (some b) milestone),
                 Call.Edit repo.owner repo.name (Issue.GetNumber issue)
                  (issueRequestFor assignee title (some b) milestone)] })) ∧
    (Issue.GetBody issue = b →
      CreateOrUpdateIssue c fuel repo assignee title (some b) milestone w =
        some (.ok issue,
          { st := s2
            trace := w1.trace ++
              [Call.Create repo.owner repo.name
                (issueRequestFor assignee title (some b) milestone)] })) := by
  have hfind : (issuesFound.find? fun issue => issue.isSome) = none := by
    rw [List.find?_eq_none]
    intro x hx
    simp [hnone x hx]
  constructor
  · intro hne r s3 hedit
    unfold CreateOrUpdateIssue
    simp only [hsearch, hfind, createIssue, hcreate, hne, ne_eq, not_false_eq_true, if_true,
      updateIssue, World.step, hedit]
    cases r <;> simp
  · intro heq
    unfold CreateOrUpdateIssue
    simp only [hsearch, hfind, createIssue, hcreate, heq, ne_eq, not_true_eq_false, if_false]
    simp [World.step]

/-- C21 on a tracker that stores "First Issue." for the requested body "First
Issue": the call creates the issue, edits issue number 1 once with the same
request, and returns the edit's answer. -/
theorem CreateOrUpdateIssue_body_fix_example :
    CreateOrUpdateIssue (TestGitHubClient.withStoredBody ⟨0, 0⟩ "First Issue.") 1 testRepo
        (some "testuser1") (some "Issue #1") (some "First Issue") 1 freshWorld =
      some (.ok (some ⟨some 1, none, some "Issue #1", some "First Issue", none, [],
          some ⟨some 1, none, none, none, none⟩⟩),
        { st := { TestCache.empty with
            issues := some [⟨some 1, some 1, some "Issue #1", some "First Issue", none,
              [some ⟨some "testuser1", none⟩], some ⟨some 1, none, none, none, none⟩⟩] }
          trace := (World.mk (TestCache.mk none [] none (some []) none [] [] [])
              [Call.ListByRepo "testowner" "testrepo" ⟨"1", "testuser1", 0⟩]).trace ++
            [Call.Create testRepo.owner testRepo.name
              (issueRequestFor (some "testuser1") (some "Issue #1") (some "First Issue") 1),
             Call.Edit testRepo.owner testRepo.name 1
              (issueRequestFor (some "testuser1") (some "Issue #1") (some "First Issue") 1)] }) :=
  (CreateOrUpdateIssue_body_fix (TestGitHubClient.withStoredBody ⟨0, 0⟩ "First Issue.") 1
    testRepo (some "testuser1") (some "Issue #1") "First Issue" 1 freshWorld
    ⟨TestCache.mk none [] none (some []) none [] [] [],
      [Call.ListByRepo "testowner" "testrepo" ⟨"1", "testuser1", 0⟩]⟩
    [] (some ⟨some 1, some 1, some "Issue #1", some "First Issue.", none,
      [some ⟨some "testuser1", none⟩], some ⟨some 1, none, none, none, none⟩⟩)
    { TestCache.empty with
      issues := some [⟨some 1, some 1, some "Issue #1", some "First Issue", none,
        [some ⟨some "testuser1", none⟩], some ⟨some 1, none, none, none, none⟩⟩] }
    rfl (by simp) rfl).1 (by decide) _ _ rfl

end IssueBodyTheorems

section IssueTitleTheorems

variable {σ : Type}

/-- C27: for every request and every list `issues` that the remote-side
filter returns, the result of `GetIssuesByRequest` is `issues` itself when the
request has no title, and otherwise the issues of `issues` whose title equals
the request's title, in the same order (a sub-sequence of `issues`); the world
is the one the fetch left. -/
theorem GetIssuesByRequest_title_pass (c : IGitHubClient σ) (fuel : Nat)
    (repo : WorkflowRepository) (request : IssueRequest) (w w1 : World σ)
    (issues : List (Option Issue))
    (hfetch : fetchIssues c fuel repo
      { Assignee := (match request.GetAssignees with
          | [a] => if a ≠ "none" then a else "*"
          | _ => "*")
        Milestone := (match request.Milestone with
          | some m => if m > 0 then Itoa m else "*"
          | none => "*")
        Page := 0 } w = some (.ok issues, w1)) :
    ∃ result : List (Option Issue),
      GetIssuesByRequest c fuel repo request w = some (.ok result, w1) ∧
      (request.Title = none → result = issues) ∧
      (∀ t, request.Title = some t →
        result = issues.filter fun i => decide (Issue.GetTitle i = t)) ∧
      result.Sublist issues := by
  unfold GetIssuesByRequest
  simp only [hfetch]
  refine ⟨_, rfl, ?_, ?_, List.filter_sublist _⟩
  · intro h
    simp [h]
  · intro t h
    simp only [h]
    congr 1
    funext i
    by_cases hi : Issue.GetTitle i = t
    · simp [hi]
    · have : ¬ t = Issue.GetTitle i := fun h1 => hi h1.symm
      simp [hi, this]

/-- C27 on the fake tracker holding "Issue #1": the request for the title
"Issue #2" under the same milestone and assignee gets the empty list. -/
theorem GetIssuesByRequest_title_pass_example :
    ∃ result : List (Option Issue),
      GetIssuesByRequest (TestGitHubClient ⟨0, 0⟩) 1 testRepo
        ⟨some "Issue #2", none, none, some 1, some ["testuser1"]⟩ worldWithIssue =
        some (.ok result,
          ⟨worldWithIssue.st, [Call.ListByRepo "testowner" "testrepo" ⟨"1", "testuser1", 0⟩]⟩) ∧
      (IssueRequest.Title ⟨some "Issue #2", none, none, some 1, some ["testuser1"]⟩ = none →
        result = [some issueOne]) ∧
      (∀ t, IssueRequest.Title ⟨some "Issue #2", none, none, some 1, some ["testuser1"]⟩ = some t →
        result = [some issueOne].filter fun i => decide (Issue.GetTitle i = t)) ∧
      result.Sublist [some issueOne] :=
  GetIssuesByRequest_title_pass (TestGitHubClient ⟨0, 0⟩) 1 testRepo
    ⟨some "Issue #2", none, none, some 1, some ["testuser1"]⟩ worldWithIssue
    ⟨worldWithIssue.st, [Call.ListByRepo "testowner" "testrepo" ⟨"1", "testuser1", 0⟩]⟩
    [some issueOne] rfl

/-- The result of that request, written out, next to the request for the
stored title. -/
theorem GetIssuesByRequest_title_pass_values :
    resultOf (GetIssuesByRequest (TestGitHubClient ⟨0, 0⟩) 1 testRepo
      ⟨some "Issue #2", none, none, some 1, some ["testuser1"]⟩ worldWithIssue) = some (.ok []) ∧
    resultOf (GetIssuesByRequest (TestGitHubClient ⟨0, 0⟩) 1 testRepo
      ⟨some "Issue #1", none, none, some 1, some ["testuser1"]⟩ worldWithIssue) =
      some (.ok [some issueOne]) := by
  decide

/-- C26, counterexample: the first page of issues is answered with `issueOne`
and the request for the second page fails; `fetchIssues` reports no error and
returns the first page's issue. -/
theorem fetchIssues_keeps_partial_results :
    fetchIssues
        (TestGitHubClient.withIssuePages ⟨0, 0⟩ [.ok [some issueOne], .error "500 Server Error"])
        2 testRepo ⟨"*", "*", 0⟩ freshWorld =
      some (.ok [some issueOne],
        { st := TestCache.empty
          trace := [Call.ListByRepo "testowner" "testrepo" ⟨"*", "*", 0⟩,
            Call.ListByRepo "testowner" "testrepo" ⟨"*", "*", 1⟩] }) := by
  rfl

/-- C26, amended: when the requests for the pages before are answered (each
reporting a next page) and the request for the next page fails,
`fetchIssues` reports no error to its caller and returns the items gathered
from the answered pages, in page order; the failed call is its last call. -/
theorem fetchIssues_failure (c : IGitHubClient σ) (fuel : Nat) (repo : WorkflowRepository)
    (listOpts : IssueListByRepoOptions) (w : World σ)
    (pages : List (List (Option Issue) × Response × σ)) (e : String) (s1 : σ)
    (hans : answered (issuesPager c repo listOpts).list 0 w.st pages)
    (hnext : ∀ q ∈ pages, q.2.1.NextPage ≠ 0)
    (hfail : (issuesPager c repo listOpts).list (cursorAfter 0 pages) (stateAfter w.st pages) =
      (.error e, s1))
    (hfuel : pages.length < fuel) :
    fetchIssues c fuel repo listOpts w =
      some (.ok (itemsOf pages),
        { st := s1
          trace := w.trace ++ (cursorsOf 0 pages ++ [cursorAfter 0 pages]).map
            (issuesPager c repo listOpts).call }) := by
  unfold fetchIssues
  rw [fetchIssuesLoop_eq_paginate]
  have := paginate_fails (issuesPager c repo listOpts) pages fuel 0 [] w e s1 hans hnext hfail hfuel
  simpa [issuesPager] using this

/-- C26, amended, on the tracker of the counterexample. -/
theorem fetchIssues_failure_example :
    fetchIssues
        (TestGitHubClient.withIssuePages ⟨0, 0⟩ [.ok [some issueOne], .error "500 Server Error"])
        2 testRepo ⟨"*", "*", 0⟩ freshWorld =
      some (.ok (itemsOf [([some issueOne], (⟨1⟩ : Response), TestCache.empty)]),
        { st := TestCache.empty
          trace := freshWorld.trace ++
            (cursorsOf 0 [([some issueOne], (⟨1⟩ : Response), TestCache.empty)] ++
              [cursorAfter 0 [([some issueOne], (⟨1⟩ : Response), TestCache.empty)]]).map
              (issuesPager
                (TestGitHubClient.withIssuePages ⟨0, 0⟩
                  [.ok [some issueOne], .error "500 Server Error"])
                testRepo ⟨"*", "*", 0⟩).call }) :=
  fetchIssues_failure
    (TestGitHubClient.withIssuePages ⟨0, 0⟩ [.ok [some issueOne], .error "500 Server Error"])
    2 testRepo ⟨"*", "*", 0⟩ freshWorld
    [([some issueOne], ⟨1⟩, TestCache.empty)] "500 Server Error" TestCache.empty
    ⟨rfl, trivial⟩ (by decide) rfl (by decide)

end IssueTitleTheorems

/-! ## Projects: a failed column, and the create step after an unusable update -/

section ProjectColumnFailure

variable {σ : Type}

/-- The column loop over `pre ++ rest`, when it gets through `pre`, goes on
with `rest` from where `pre` ended. -/
theorem createProjectColumnsLoop_append (c : IGitHubClient σ) (project : Option Project)
    (rest : List String) :
    ∀ (pre : List String) (acc cols : List (Option ProjectColumn)) (w w1 : World σ),
      createProjectColumnsLoop c project pre acc w = (.ok cols, w1) →
      createProjectColumnsLoop c project (pre ++ rest) acc w =
        createProjectColumnsLoop c project rest cols w1 := by
  intro pre
  induction pre with
  | nil =>
    intro acc cols w w1 h
    simp only [createProjectColumnsLoop, Prod.mk.injEq, Except.ok.injEq] at h
    rw [List.nil_append, h.1, h.2]
  | cons col pre1 ih =>
    intro acc cols w w1 h
    rw [List.cons_append]
    unfold createProjectColumnsLoop at h
    conv_lhs => unfold createProjectColumnsLoop
    by_cases hcol : col = ""
    · simp only [hcol, if_true] at h ⊢
      exact ih _ _ _ _ h
    · simp only [hcol, if_false] at h ⊢
      rcases hres : c.CreateProjectColumn (Project.GetID project) { Name := col } w.st
        with ⟨res, s⟩
      rw [hres] at h
      cases res with
      | error e => simp at h
      | ok colResult =>
        simp only at h ⊢
        exact ih _ _ _ _ h

/-- C25: on the create path (no fetched project carries the title, the
project is created), when the columns before `name` are gone through and the
create-column call for the non-empty `name` fails with `e`, the call returns
the error `e` and no project, and its trace ends with that failed call: after
the create-project call come the create-column calls of the non-empty names
before `name`, then the failed one, and nothing else, neither a call for a
later name nor any call undoing the project or the columns made. -/
theorem CreateOrUpdateProject_column_failure (c : IGitHubClient σ) (fuel : Nat)
    (repo : WorkflowRepository) (title description : String)
    (pre post : List String) (name : String)
    (w w1 w3 : World σ) (ps : List (Option Project)) (created : Option Project) (s2 s4 : σ)
    (cols : List (Option ProjectColumn)) (e : String)
    (hfetch : fetchProjects c fuel repo { State := "", Page := 0 } w = some (.ok ps, w1))
    (hnone : ∀ proj ∈ ps, Project.GetName proj ≠ title)
    (hcreate : c.CreateProject repo.owner repo.name { Name := title, Body := description } w1.st
      = (.ok created, s2))
    (hname : name ≠ "")
    (hpre : createProjectColumns c created pre
      (w1.step (Call.CreateProject repo.owner repo.name { Name := title, Body := description }) s2)
      = (.ok cols, w3))
    (hfail : c.CreateProjectColumn (Project.GetID created) { Name := name } w3.st =
      (.error e, s4)) :
    CreateOrUpdateProject c fuel repo title description (pre ++ name :: post) w =
      some (.error e,
        { st := s4
          trace := w1.trace ++
            [Call.CreateProject repo.owner repo.name { Name := title, Body := description }] ++
            ((pre.filter fun n => n ≠ "").map fun n =>
              Call.CreateProjectColumn (Project.GetID created) { Name := n }) ++
            [Call.CreateProjectColumn (Project.GetID created) { Name := name }] }) := by
  have hpf : findProjectByName title ps = none := by
    have : (ps.find? fun proj => Project.GetName proj == title) = none := by
      rw [List.find?_eq_none]
      intro x hx
      simpa using hnone x hx
    simp [findProjectByName, this]
  have htr := createProjectColumnsLoop_trace c created pre [] cols _ w3 hpre
  have hloop : createProjectColumns c created (pre ++ name :: post)
      (w1.step (Call.CreateProject repo.owner repo.name { Name := title, Body := description }) s2)
      = (.error e, w3.step (Call.CreateProjectColumn (Project.GetID created) { Name := name }) s4)
      := by
    unfold createProjectColumns at hpre ⊢
    rw [createProjectColumnsLoop_append c created _ pre [] cols _ w3 hpre]
    unfold createProjectColumnsLoop
    simp only [hname, if_false, hfail]
  unfold CreateOrUpdateProject
  simp only [hfetch, hpf]
  simp only [ne_eq, not_true_eq_false, false_and, if_false, createProjectIfMissing, true_or,
    if_true, createProject, hcreate, hloop]
  simp [World.step, htr]

/-- C25 on the fake tracker that rejects the column "Review": of the four
columns the first two are created, the third fails, the fourth is not tried. -/
theorem CreateOrUpdateProject_column_failure_example :
    resultOf (CreateOrUpdateProject
      (TestGitHubClient.withColumnFailure ⟨0, 0⟩ ["Review"] "422 Validation Failed") 1 testRepo
      "testproject" "d" (["Backlog", "In Progress"] ++ "Review" :: ["Done"]) freshWorld) =
      some (.error "422 Validation Failed") ∧
    traceOf (CreateOrUpdateProject
      (TestGitHubClient.withColumnFailure ⟨0, 0⟩ ["Review"] "422 Validation Failed") 1 testRepo
      "testproject" "d" (["Backlog", "In Progress"] ++ "Review" :: ["Done"]) freshWorld) =
      [Call.ListProjects "testowner" "testrepo" ⟨"", 0⟩,
        Call.CreateProject "testowner" "testrepo" ⟨"testproject", "d"⟩,
        Call.CreateProjectColumn 0 ⟨"Backlog"⟩,
        Call.CreateProjectColumn 0 ⟨"In Progress"⟩,
        Call.CreateProjectColumn 0 ⟨"Review"⟩] := by
  have h := CreateOrUpdateProject_column_failure
    (TestGitHubClient.withColumnFailure ⟨0, 0⟩ ["Review"] "422 Validation Failed") 1 testRepo
    "testproject" "d" ["Backlog", "In Progress"] ["Done"] "Review" freshWorld
    ⟨TestCache.empty, [Call.ListProjects "testowner" "testrepo" ⟨"", 0⟩]⟩ _ _ _ TestCache.empty
    _ _ "422 Validation Failed" rfl (by decide) rfl (by decide) rfl rfl
  rw [h]
  exact ⟨rfl, rfl⟩

/-- C29: when the first fetched project carrying the title has a number > 0
and a differing body, and the update call succeeds but returns no project or
a project whose number is < 1, the same call goes on to the create step: with
the create-project call and the column loop succeeding, its trace is the
listings, the update call, one create-project call and one create-column call
per non-empty column name, in order, and it returns the newly created project,
not the updated one. -/
theorem CreateOrUpdateProject_update_then_create (c : IGitHubClient σ) (fuel : Nat)
    (repo : WorkflowRepository) (title description : String) (columns : List String)
    (w w1 w4 : World σ) (ps : List (Option Project)) (p : Project)
    (upd created : Option Project) (s2 s3 : σ) (cols : List (Option ProjectColumn))
    (hfetch : fetchProjects c fuel repo { State := "", Page := 0 } w = some (.ok ps, w1))
    (hfind : (ps.find? fun proj => Project.GetName proj == title) = some (some p))
    (hnum : Project.GetNumber (some p) > 0)
    (hbody : Project.GetBody (some p) ≠ description)
    (hupd : c.UpdateProject (Project.GetID (some p)) { Name := title, Body := description } w1.st
      = (.ok upd, s2))
    (hunusable : upd = none ∨ Project.GetNumber upd < 1)
    (hcreate : c.CreateProject repo.owner repo.name { Name := title, Body := description } s2
      = (.ok created, s3))
    (hcols : createProjectColumns c created columns
      { st := s3
        trace := w1.trace ++
          [Call.UpdateProject (Project.GetID (some p)) { Name := title, Body := description },
           Call.CreateProject repo.owner repo.name { Name := title, Body := description }] }
      = (.ok cols, w4)) :
    CreateOrUpdateProject c fuel repo title description columns w = some (.ok created, w4) ∧
    ∃ calls : List Call,
      (∀ x ∈ calls, ∃ opts, x = Call.ListProjects repo.owner repo.name opts) ∧
      w4.trace = w.trace ++ calls ++
        [Call.UpdateProject (Project.GetID (some p)) { Name := title, Body := description },
         Call.CreateProject repo.owner repo.name { Name := title, Body := description }] ++
        (columns.filter fun n => n ≠ "").map fun n =>
          Call.CreateProjectColumn (Project.GetID created) { Name := n } := by
  obtain ⟨calls, hcalls, hlist⟩ := fetchProjectsLoop_trace c _ _ _ _ _ _ _ _ hfetch
  have hpf : findProjectByName title ps = some p := by
    simp [findProjectByName, hfind]
  have hcond : findProjectByName title ps ≠ none ∧
      Project.GetNumber (findProjectByName title ps) > 0 := by
    rw [hpf]
    exact ⟨by simp, hnum⟩
  have hbody1 : Project.GetBody (findProjectByName title ps) ≠ description := by
    rw [hpf]
    exact hbody
  constructor
  · unfold CreateOrUpdateProject
    simp only [hfetch]
    rw [if_pos hcond, if_pos hbody1, hpf]
    simp only [updateProject, hupd, createProjectIfMissing, if_pos hunusable, createProject,
      World.step, hcreate, List.append_assoc, List.singleton_append, hcols]
  · refine ⟨calls, hlist, ?_⟩
    have := createProjectColumnsLoop_trace c created columns [] cols _ w4 hcols
    rw [this]
    simp [hcalls]

/-- C29 on the fake tracker whose update answers with a project that carries
no number: "Project 1" is updated, then created again with its column. -/
theorem CreateOrUpdateProject_update_then_create_example :
    resultOf (CreateOrUpdateProject
      (TestGitHubClient.withUpdateResult ⟨0, 0⟩
        (.ok (some ⟨some 5, some "Project 1", some "new", none, none, none⟩)))
      1 testRepo "Project 1" "new" ["Backlog"] freshWorld) =
      some (.ok (some ⟨none, some "Project 1", some "new", some 1001, some ⟨0, 0⟩,
        some ⟨0, 0⟩⟩)) := by
  have h := (CreateOrUpdateProject_update_then_create
    (TestGitHubClient.withUpdateResult ⟨0, 0⟩
      (.ok (some ⟨some 5, some "Project 1", some "new", none, none, none⟩)))
    1 testRepo "Project 1" "new" ["Backlog"] freshWorld
    ⟨TestCache.empty, [Call.ListProjects "testowner" "testrepo" ⟨"", 0⟩]⟩ _ _
    ⟨none, some "Project 1", some "This is a project", some 3, none, none⟩ _ _
    TestCache.empty TestCache.empty _
    rfl rfl (by decide) (by decide) rfl (by decide) rfl rfl).1
  rw [h]
  rfl

end ProjectColumnFailure

/-! ## The column map -/

section ColumnMapTheorems

theorem mapGet_mapSet {κ α : Type} [DecidableEq κ] (m : List (κ × α)) (k k1 : κ) (v : α) :
    mapGet (mapSet m k v) k1 = if k = k1 then some v else mapGet m k1 := by
  induction m with
  | nil => simp [mapSet, mapGet]
  | cons kv rest ih =>
    obtain ⟨k0, v0⟩ := kv
    unfold mapSet
    by_cases h0 : k0 = k
    · simp only [h0, if_true]
      by_cases h1 : k = k1
      · simp [mapGet, h1]
      · simp [mapGet, h1]
    · simp only [h0, if_false]
      by_cases h1 : k0 = k1
      · have : ¬ k = k1 := fun h => h0 (h1.trans h.symm)
        simp [mapGet, h1, this]
      · simp [mapGet, h1, ih]

theorem mem_keys_iff_mapGet {κ α : Type} [DecidableEq κ] (m : List (κ × α)) (k : κ) :
    k ∈ m.map Prod.fst ↔ (mapGet m k).isSome = true := by
  induction m with
  | nil => simp [mapGet]
  | cons kv rest ih =>
    obtain ⟨k0, v0⟩ := kv
    by_cases h : k0 = k
    · simp [mapGet, h]
    · have h1 : ¬ k = k0 := fun h2 => h h2.symm
      simp [mapGet, h, h1, ih]

/-- Filling the map from a list of columns: a name is looked up as the last
column of the list carrying it, or as it was before when no column carries
it. -/
theorem foldl_mapSet_get (cols : List (Option ProjectColumn)) :
    ∀ (m : List (String × Option ProjectColumn)) (name : String),
      mapGet (cols.foldl (fun m col => mapSet m (ProjectColumn.GetName col) col) m) name =
        ((cols.reverse.find? fun col => ProjectColumn.GetName col == name).or (mapGet m name)) := by
  induction cols with
  | nil => intro m name; simp
  | cons col rest ih =>
    intro m name
    rw [List.foldl_cons, ih, mapGet_mapSet, List.reverse_cons, List.find?_append]
    cases hfind : (rest.reverse.find? fun col => ProjectColumn.GetName col == name) with
    | some x => simp
    | none =>
      by_cases h : ProjectColumn.GetName col = name
      · simp [h]
      · simp [h]

theorem mapColumnsByName_get (cols : List (Option ProjectColumn)) (name : String) :
    mapGet (mapColumnsByName cols) name =
      cols.reverse.find? fun col => ProjectColumn.GetName col == name := by
  unfold mapColumnsByName
  rw [foldl_mapSet_get]
  simp [mapGet]

theorem mapColumnsByName_keys (cols : List (Option ProjectColumn)) (name : String) :
    name ∈ (mapColumnsByName cols).map Prod.fst ↔ name ∈ cols.map ProjectColumn.GetName := by
  rw [mem_keys_iff_mapGet, mapColumnsByName_get, List.find?_isSome]
  simp only [List.mem_reverse, beq_iff_eq, List.mem_map]

theorem mapColumnsByName_last (cols before after : List (Option ProjectColumn))
    (col : Option ProjectColumn) (hsplit : cols = before ++ col :: after)
    (hafter : ∀ x ∈ after, ProjectColumn.GetName x ≠ ProjectColumn.GetName col) :
    mapGet (mapColumnsByName cols) (ProjectColumn.GetName col) = some col := by
  rw [mapColumnsByName_get, hsplit, List.reverse_append, List.reverse_cons, List.append_assoc,
    List.find?_append]
  have : (after.reverse.find? fun c => ProjectColumn.GetName c == ProjectColumn.GetName col) =
      none := by
    rw [List.find?_eq_none]
    intro x hx
    simpa using hafter x (List.mem_reverse.mp hx)
  rw [this]
  simp

end ColumnMapTheorems

section ColumnMapClaim

variable {σ : Type}

/-- C22: when the tracker returns the column list `cols`,
`FetchMappedProjectColumns` returns a map whose keys are exactly the names
occurring in `cols` and in which each name is mapped to the last column of
`cols`, in list order, that carries it; when the listing fails with `e` it
returns the error `e` and no map. -/
theorem FetchMappedProjectColumns_map (c : IGitHubClient σ) (fuel : Nat)
    (project : Option Project) (w : World σ) :
    (∀ (cols : List (Option ProjectColumn)) (w1 : World σ),
      fetchProjectColumns c fuel project w = some (.ok cols, w1) →
      ∃ m : List (String × Option ProjectColumn),
        FetchMappedProjectColumns c fuel project w = some (.ok m, w1) ∧
        (∀ name, name ∈ m.map Prod.fst ↔ name ∈ cols.map ProjectColumn.GetName) ∧
        (∀ (before after : List (Option ProjectColumn)) (col : Option ProjectColumn),
          cols = before ++ col :: after →
          (∀ x ∈ after, ProjectColumn.GetName x ≠ ProjectColumn.GetName col) →
          mapGet m (ProjectColumn.GetName col) = some col)) ∧
    (∀ (e : String) (w1 : World σ),
      fetchProjectColumns c fuel project w = some (.error e, w1) →
      FetchMappedProjectColumns c fuel project w = some (.error e, w1)) := by
  constructor
  · intro cols w1 h
    refine ⟨mapColumnsByName cols, ?_, mapColumnsByName_keys cols, ?_⟩
    · unfold FetchMappedProjectColumns
      simp only [h]
    · intro before after col hsplit hafter
      exact mapColumnsByName_last cols before after col hsplit hafter
  · intro e w1 h
    unfold FetchMappedProjectColumns
    simp only [h]

/-- C22 on the fake tracker after the columns "Backlog", "Done", "Backlog"
were created: the map has the keys "Backlog" and "Done", and "Backlog" is the
third column (id 3). -/
theorem FetchMappedProjectColumns_map_example :
    ∃ m : List (String × Option ProjectColumn),
      resultOf (FetchMappedProjectColumns (TestGitHubClient ⟨0, 0⟩) 1 none
        (createProjectColumns (TestGitHubClient ⟨0, 0⟩) none ["Backlog", "Done", "Backlog"]
          freshWorld).2) = some (.ok m) ∧
      (∀ name, name ∈ m.map Prod.fst ↔ name ∈ ["Backlog", "Done", "Backlog"]) ∧
      mapGet m "Backlog" = some (some ⟨some 3, some "Backlog", some ⟨0, 0⟩⟩) := by
  obtain ⟨m, hm, hkeys, hlast⟩ := (FetchMappedProjectColumns_map (TestGitHubClient ⟨0, 0⟩) 1 none
    (createProjectColumns (TestGitHubClient ⟨0, 0⟩) none ["Backlog", "Done", "Backlog"]
      freshWorld).2).1
    [some ⟨some 1, some "Backlog", some ⟨0, 0⟩⟩, some ⟨some 2, some "Done", some ⟨0, 0⟩⟩,
      some ⟨some 3, some "Backlog", some ⟨0, 0⟩⟩] _ rfl
  refine ⟨m, by rw [hm]; rfl, hkeys, ?_⟩
  exact hlast [some ⟨some 1, some "Backlog", some ⟨0, 0⟩⟩, some ⟨some 2, some "Done", some ⟨0, 0⟩⟩]
    [] (some ⟨some 3, some "Backlog", some ⟨0, 0⟩⟩) rfl (by simp)

/-- The map of that example, written out. -/
theorem FetchMappedProjectColumns_map_values :
    resultOf (FetchMappedProjectColumns (TestGitHubClient ⟨0, 0⟩) 1 none
      (createProjectColumns (TestGitHubClient ⟨0, 0⟩) none ["Backlog", "Done", "Backlog"]
        freshWorld).2) =
      some (.ok [("Backlog", some ⟨some 3, some "Backlog", some ⟨0, 0⟩⟩),
        ("Done", some ⟨some 2, some "Done", some ⟨0, 0⟩⟩)]) := by
  decide

end ColumnMapClaim

/-! ## The count of `ColumnsPresent` -/

section ColumnsPresentTheorems

theorem countMissing_inner (x : String) (columns : List String) :
    ∀ cm : Int, columns.foldl (fun cm1 name => if name = x then cm1 - 1 else cm1) cm =
      cm - (columns.countP fun n => decide (n = x) : Nat) := by
  induction columns with
  | nil => intro cm; simp
  | cons n rest ih =>
    intro cm
    rw [List.foldl_cons, ih, List.countP_cons]
    by_cases h : n = x
    · simp [h]; omega
    · simp [h]

theorem matchingPairs_cons_left (col : Option ProjectColumn) (found : List (Option ProjectColumn))
    (columns : List String) :
    matchingPairs (col :: found) columns =
      (columns.countP fun n => decide (n = ProjectColumn.GetName col)) +
        matchingPairs found columns := by
  simp [matchingPairs]

theorem countMissing_outer (columns : List String) (found : List (Option ProjectColumn)) :
    ∀ cm : Int, found.foldl
      (fun cm col => columns.foldl
        (fun cm1 name => if name = ProjectColumn.GetName col then cm1 - 1 else cm1) cm) cm =
      cm - (matchingPairs found columns : Nat) := by
  induction found with
  | nil => intro cm; simp [matchingPairs]
  | cons col rest ih =>
    intro cm
    rw [List.foldl_cons, ih, countMissing_inner, matchingPairs_cons_left]
    push_cast
    ring

theorem countMissing_eq (found : List (Option ProjectColumn)) (columns : List String) :
    countMissing found columns = (columns.length : Int) - (matchingPairs found columns : Nat) := by
  unfold countMissing
  exact countMissing_outer columns found _

theorem matchingPairs_nil_right (found : List (Option ProjectColumn)) :
    matchingPairs found [] = 0 := by
  simp [matchingPairs]

theorem matchingPairs_cons_right (n : String) (columns : List String) :
    ∀ found : List (Option ProjectColumn),
      matchingPairs found (n :: columns) =
        (found.countP fun c => decide (n = ProjectColumn.GetName c)) +
          matchingPairs found columns := by
  intro found
  induction found with
  | nil => simp [matchingPairs]
  | cons col rest ih =>
    rw [matchingPairs_cons_left, matchingPairs_cons_left, ih, List.countP_cons, List.countP_cons]
    omega

/-- With pairwise distinct live names, the pairs are counted once per
required entry that is a live name. -/
theorem matchingPairs_of_nodup (found : List (Option ProjectColumn))
    (hnodup : (found.map ProjectColumn.GetName).Nodup) :
    ∀ columns : List String,
      matchingPairs found columns =
        columns.countP fun n => decide (n ∈ found.map ProjectColumn.GetName) := by
  intro columns
  induction columns with
  | nil => simp [matchingPairs_nil_right]
  | cons n rest ih =>
    rw [matchingPairs_cons_right, ih, List.countP_cons]
    have hcount : (found.countP fun c => decide (n = ProjectColumn.GetName c)) =
        (found.map ProjectColumn.GetName).count n := by
      rw [List.count_eq_countP, List.countP_map]
      congr 1
      funext c
      by_cases h : ProjectColumn.GetName c = n
      · simp [h]
      · have : ¬ n = ProjectColumn.GetName c := fun h1 => h h1.symm
        simp [h, this]
    rw [hcount]
    by_cases hmem : n ∈ found.map ProjectColumn.GetName
    · rw [List.count_eq_one_of_mem hnodup hmem]
      simp [hmem]
      omega
    · rw [List.count_eq_zero_of_not_mem hmem]
      simp [hmem]

end ColumnsPresentTheorems

section ColumnsPresentClaim

variable {σ : Type}

/-- C28: when the tracker returns the live columns `found`, `ColumnsPresent`
computes `len(required)` minus the number of pairs (live column, required
entry) that agree on the name, and returns true exactly when that difference
is below 1. Consequently, when the live columns' names are pairwise distinct
it returns true if and only if every required name is the name of a live
column, and an empty required list always yields true. -/
theorem ColumnsPresent_count (c : IGitHubClient σ) (fuel : Nat) (project : Option Project)
    (columns : List String) (w w1 : World σ) (found : List (Option ProjectColumn))
    (hfetch : fetchProjectColumns c fuel project w = some (.ok found, w1)) :
    countMissing found columns = (columns.length : Int) - (matchingPairs found columns : Nat) ∧
    ColumnsPresent c fuel project columns w =
      some (.ok (decide ((columns.length : Int) - (matchingPairs found columns : Nat) < 1)), w1) ∧
    ((found.map ProjectColumn.GetName).Nodup →
      (ColumnsPresent c fuel project columns w = some (.ok true, w1) ↔
        ∀ n ∈ columns, n ∈ found.map ProjectColumn.GetName)) ∧
    (columns = [] → ColumnsPresent c fuel project columns w = some (.ok true, w1)) := by
  have heq := countMissing_eq found columns
  have hres : ColumnsPresent c fuel project columns w =
      some (.ok (decide ((columns.length : Int) - (matchingPairs found columns : Nat) < 1)), w1) := by
    unfold ColumnsPresent
    simp only [hfetch, heq]
  refine ⟨heq, hres, ?_, ?_⟩
  · intro hnodup
    rw [hres, matchingPairs_of_nodup found hnodup columns]
    have hle := List.countP_le_length
      (fun n => decide (n ∈ found.map ProjectColumn.GetName)) (l := columns)
    have hiff := List.countP_eq_length (l := columns)
      (p := fun n => decide (n ∈ found.map ProjectColumn.GetName))
    simp only [decide_eq_true_eq] at hiff
    rw [← hiff]
    simp only [Option.some.injEq, Prod.mk.injEq, and_true, Except.ok.injEq, decide_eq_true_eq]
    omega
  · intro hempty
    rw [hres, hempty, matchingPairs_nil_right]
    rfl

/-- C28 on the fake tracker with the live columns "Backlog", "Review", "Done":
the required names "Backlog" and "Done" are present, "Backlog" and "Doing" are
not. -/
theorem ColumnsPresent_count_example :
    resultOf (ColumnsPresent (TestGitHubClient ⟨0, 0⟩) 1 none ["Backlog", "Done"]
      (createProjectColumns (TestGitHubClient ⟨0, 0⟩) none ["Backlog", "Review", "Done"]
        freshWorld).2) = some (.ok true) ∧
    resultOf (ColumnsPresent (TestGitHubClient ⟨0, 0⟩) 1 none ["Backlog", "Doing"]
      (createProjectColumns (TestGitHubClient ⟨0, 0⟩) none ["Backlog", "Review", "Done"]
        freshWorld).2) = some (.ok false) := by
  have h1 := (ColumnsPresent_count (TestGitHubClient ⟨0, 0⟩) 1 none ["Backlog", "Done"]
    (createProjectColumns (TestGitHubClient ⟨0, 0⟩) none ["Backlog", "Review", "Done"]
      freshWorld).2 _
    [some ⟨some 1, some "Backlog", some ⟨0, 0⟩⟩, some ⟨some 2, some "Review", some ⟨0, 0⟩⟩,
      some ⟨some 3, some "Done", some ⟨0, 0⟩⟩] rfl).2.1
  have h2 := (ColumnsPresent_count (TestGitHubClient ⟨0, 0⟩) 1 none ["Backlog", "Doing"]
    (createProjectColumns (TestGitHubClient ⟨0, 0⟩) none ["Backlog", "Review", "Done"]
      freshWorld).2 _
    [some ⟨some 1, some "Backlog", some ⟨0, 0⟩⟩, some ⟨some 2, some "Review", some ⟨0, 0⟩⟩,
      some ⟨some 3, some "Done", some ⟨0, 0⟩⟩] rfl).2.1
  rw [h1, h2]
  exact ⟨by decide, by decide⟩

end ColumnsPresentClaim

/-! ## Project creation and column map on the fake tracker -/

section FakeProjectColumns

/-- On the fake tracker the column loop never fails, and the names stored for
the project grow by the non-empty names of `columns`, in order. -/
theorem fake_createProjectColumnsLoop_names (now : Time) (project : Option Project) :
    ∀ (columns : List String) (acc : List (Option ProjectColumn)) (w : World TestCache),
      ∃ (cols : List (Option ProjectColumn)) (w1 : World TestCache),
        createProjectColumnsLoop (TestGitHubClient now) project columns acc w = (.ok cols, w1) ∧
        (((mapGet w1.st.projectColumns (Project.GetID project)).getD []).map fun c =>
          ProjectColumn.GetName (some c)) =
          (((mapGet w.st.projectColumns (Project.GetID project)).getD []).map fun c =>
            ProjectColumn.GetName (some c)) ++ columns.filter fun n => n ≠ "" := by
  intro columns
  induction columns with
  | nil => intro acc w; exact ⟨acc, w, rfl, by simp⟩
  | cons col rest ih =>
    intro acc w
    unfold createProjectColumnsLoop
    by_cases hcol : col = ""
    · simp only [hcol, if_true]
      obtain ⟨cols, w1, h1, h2⟩ := ih acc w
      exact ⟨cols, w1, h1, by rw [h2]; simp⟩
    · simp only [hcol, if_false, TestGitHubClient, TestProjects.CreateProjectColumn]
      obtain ⟨cols, w1, h1, h2⟩ := ih
        (acc ++ [some { ID := some (if w.st.columnCount.getD 1 < 1 then 1000
            else w.st.columnCount.getD 1), Name := some col, CreatedAt := some now }])
        (w.step (Call.CreateProjectColumn (Project.GetID project) { Name := col })
          { w.st with
            columnCount := some ((if w.st.columnCount.getD 1 < 1 then 1000
              else w.st.columnCount.getD 1) + 1)
            columnByID := mapSet w.st.columnByID
              (if w.st.columnCount.getD 1 < 1 then 1000 else w.st.columnCount.getD 1)
              { ID := some (if w.st.columnCount.getD 1 < 1 then 1000
                  else w.st.columnCount.getD 1), Name := some col, CreatedAt := some now }
            projectColumns := mapSet w.st.projectColumns (Project.GetID project)
              ((mapGet w.st.projectColumns (Project.GetID project)).getD [] ++
                [{ ID := some (if w.st.columnCount.getD 1 < 1 then 1000
                    else w.st.columnCount.getD 1), Name := some col, CreatedAt := some now }]) })
      simp only [TestGitHubClient] at h1
      refine ⟨cols, w1, h1, ?_⟩
      rw [h2]
      simp [World.step, mapGet_mapSet, hcol, ProjectColumn.GetName]

/-- A value looked up in the column map carries the name it is looked up by. -/
theorem mapColumnsByName_name (cols : List (Option ProjectColumn)) (name : String)
    (col : Option ProjectColumn) (h : mapGet (mapColumnsByName cols) name = some col) :
    ProjectColumn.GetName col = name := by
  rw [mapColumnsByName_get] at h
  have := List.find?_some h
  simpa using this

/-- C23: on a fresh fake tracker, for every title that is not one of the
fake's listed projects, every description and every list of column names,
`CreateOrUpdateProject` returns a project, `FetchMappedProjectColumns` on that
project returns a map, the keys of the map are exactly the non-empty names of
the input list, and each key is mapped to a column with that name. -/
theorem fake_project_then_columns (now : Time) (fuel : Nat) (repo : WorkflowRepository)
    (title description : String) (columns : List String)
    (htitle : title ∉ ["Project 1", "Project 2", "Project 3"]) :
    ∃ (project : Option Project) (w1 : World TestCache)
      (m : List (String × Option ProjectColumn)) (w2 : World TestCache),
      CreateOrUpdateProject (TestGitHubClient now) (fuel + 1) repo title description columns
        freshWorld = some (.ok project, w1) ∧
      FetchMappedProjectColumns (TestGitHubClient now) (fuel + 1) project w1 = some (.ok m, w2) ∧
      (∀ name, name ∈ m.map Prod.fst ↔ (name ∈ columns ∧ name ≠ "")) ∧
      (∀ name col, mapGet m name = some col → ProjectColumn.GetName col = name) := by
  simp only [List.mem_cons, List.mem_singleton, List.not_mem_nil, or_false, not_or] at htitle
  obtain ⟨ht1, ht2, ht3⟩ := htitle
  have hfind : findProjectByName title
      (["Project 1", "Project 2", "Project 3"].map fun name =>
        some ({ ID := none, Name := some name, Body := some "This is a project",
                Number := some 3, CreatedAt := none, UpdatedAt := none } : Project)) = none := by
    have h1 : ¬ "Project 1" = title := fun h => ht1 h.symm
    have h2 : ¬ "Project 2" = title := fun h => ht2 h.symm
    have h3 : ¬ "Project 3" = title := fun h => ht3 h.symm
    have b1 : ("Project 1" == title) = false := by simpa using h1
    have b2 : ("Project 2" == title) = false := by simpa using h2
    have b3 : ("Project 3" == title) = false := by simpa using h3
    simp [findProjectByName, List.find?, Project.GetName, b1, b2, b3]
  obtain ⟨cols, w1, hloop, hnames⟩ := fake_createProjectColumnsLoop_names now
    (some { ID := none, Name := some title, Body := some description, Number := some 1001,
            CreatedAt := some now, UpdatedAt := some now })
    columns []
    (freshWorld.step (Call.ListProjects repo.owner repo.name { State := "", Page := 0 })
        TestCache.empty |>.step
      (Call.CreateProject repo.owner repo.name { Name := title, Body := description })
      TestCache.empty)
  have hproj : CreateOrUpdateProject (TestGitHubClient now) (fuel + 1) repo title description
      columns freshWorld =
      some (.ok (some (Project.mk none (some title) (some description) (some 1001) (some now)
        (some now))), w1) := by
    unfold CreateOrUpdateProject
    simp only [fetchProjects, fetchProjectsLoop, TestGitHubClient, TestRepositories.ListProjects,
      prepareGitHubAPIResponse, if_true, List.nil_append, hfind]
    simp only [ne_eq, not_true_eq_false, false_and, if_false, createProjectIfMissing, true_or,
      if_true, createProject, TestRepositories.CreateProject, createProjectColumns]
    simp only [TestGitHubClient] at hloop
    erw [hloop]
  have hid : Project.GetID (some (Project.mk none (some title) (some description) (some 1001)
      (some now) (some now))) = 0 := rfl
  rw [hid] at hnames
  have hstart : mapGet (World.st ((freshWorld.step
      (Call.ListProjects repo.owner repo.name { State := "", Page := 0 }) TestCache.empty).step
      (Call.CreateProject repo.owner repo.name { Name := title, Body := description })
      TestCache.empty)).projectColumns 0 = none := rfl
  rw [hstart] at hnames
  simp only [Option.getD_none, List.map_nil, List.nil_append] at hnames
  have hfetched : ∃ (found : List (Option ProjectColumn)) (w2 : World TestCache),
      FetchMappedProjectColumns (TestGitHubClient now) (fuel + 1)
        (some { ID := none, Name := some title, Body := some description, Number := some 1001,
                CreatedAt := some now, UpdatedAt := some now }) w1 =
        some (.ok (mapColumnsByName found), w2) ∧
      found.map ProjectColumn.GetName = columns.filter fun n => n ≠ "" := by
    unfold FetchMappedProjectColumns fetchProjectColumns fetchProjectColumnsLoop
    simp only [TestGitHubClient, TestProjects.ListProjectColumns, hid]
    cases hget : mapGet w1.st.projectColumns 0 with
    | none =>
      rw [hget] at hnames
      refine ⟨[], _, by simp [prepareGitHubAPIResponse]; rfl, ?_⟩
      simpa using hnames
    | some lst =>
      rw [hget] at hnames
      refine ⟨lst.map some, _, by simp [prepareGitHubAPIResponse]; rfl, ?_⟩
      simpa [List.map_map, Function.comp] using hnames
  obtain ⟨found, w2, hmap, hfound⟩ := hfetched
  refine ⟨_, w1, mapColumnsByName found, w2, hproj, hmap, ?_, ?_⟩
  · intro name
    rw [mapColumnsByName_keys, hfound]
    simp
  · intro name col h
    exact mapColumnsByName_name found name col h

/-- C23 at the inputs of `TestProjectCreateAndUpdate`. -/
theorem fake_project_then_columns_example :
    ∃ (project : Option Project) (w1 : World TestCache)
      (m : List (String × Option ProjectColumn)) (w2 : World TestCache),
      CreateOrUpdateProject (TestGitHubClient ⟨0, 0⟩) (0 + 1) testRepo "testproject"
        "this is a test project. super awesome." ["test column 1", "test column 2"]
        freshWorld = some (.ok project, w1) ∧
      FetchMappedProjectColumns (TestGitHubClient ⟨0, 0⟩) (0 + 1) project w1 =
        some (.ok m, w2) ∧
      (∀ name, name ∈ m.map Prod.fst ↔
        (name ∈ ["test column 1", "test column 2"] ∧ name ≠ "")) ∧
      (∀ name col, mapGet m name = some col → ProjectColumn.GetName col = name) :=
  fake_project_then_columns ⟨0, 0⟩ 0 testRepo "testproject"
    "this is a test project. super awesome." ["test column 1", "test column 2"] (by decide)

/-- The map of that example, written out. -/
theorem fake_project_then_columns_values :
    ((CreateOrUpdateProject (TestGitHubClient ⟨0, 0⟩) 1 testRepo "testproject"
        "this is a test project. super awesome." ["test column 1", "", "test column 2"]
        freshWorld).bind fun r =>
      match r.1 with
      | .ok project => resultOf (FetchMappedProjectColumns (TestGitHubClient ⟨0, 0⟩) 1 project r.2)
      | .error _ => none) =
      some (.ok [("test column 1", some ⟨some 1, some "test column 1", some ⟨0, 0⟩⟩),
        ("test column 2", some ⟨some 2, some "test column 2", some ⟨0, 0⟩⟩)]) := by
  decide

end FakeProjectColumns

/-! ## The job: no "Backlog" column -/

section RunWithoutBacklog

variable {σ : Type}

/-- `CreateCardForIssue` makes one call: the creation of a card for the issue
in the column. -/
theorem CreateCardForIssue_trace (c : IGitHubClient σ) (issue : Option Issue)
    (column : Option ProjectColumn) (w : World σ) :
    (CreateCardForIssue c issue column w).2.trace =
      w.trace ++ [Call.CreateProjectCard (ProjectColumn.GetID column)
        { ContentID := Issue.GetID issue, ContentType := "Issue" }] := by
  unfold CreateCardForIssue
  simp only
  rcases c.CreateProjectCard (ProjectColumn.GetID column)
    { ContentID := Issue.GetID issue, ContentType := "Issue" } w.st with ⟨r, s⟩
  cases r <;> rfl

/-- The create-card calls of the task loop are one per outcome whose issue
reconciliation succeeded, each for that issue and for the column the map has
under "Backlog" (id 0 when there is none). -/
theorem taskOutcomes_card_calls (c : IGitHubClient σ) (fuel : Nat) (repo : WorkflowRepository)
    (milestone : Option Milestone) (columns : List (String × Option ProjectColumn)) :
    ∀ (tasks : List TaskEntry) (w w1 : World σ) (outs : List TaskOutcome),
      taskOutcomes c fuel repo milestone columns tasks w = some (outs, w1) →
      ∃ calls : List Call, w1.trace = w.trace ++ calls ∧
        calls.filter Call.isCreateProjectCard =
          cardCallsOf (ProjectColumn.GetID (mapGet columns "Backlog").join) outs := by
  intro tasks
  induction tasks with
  | nil =>
    intro w w1 outs h
    simp only [taskOutcomes, Option.some.injEq, Prod.mk.injEq] at h
    obtain ⟨h1, h2⟩ := h
    subst h1 h2
    exact ⟨[], by simp, rfl⟩
  | cons task rest ih =>
    intro w w1 outs h
    unfold taskOutcomes at h
    rcases hissue : CreateOrUpdateIssue c fuel repo (some task.Assignee.GithubUsername)
      (some task.Title) (some task.Description) (Milestone.GetNumber milestone) w
      with _ | ⟨r, w2⟩
    · rw [hissue] at h; simp at h
    · rw [hissue] at h
      obtain ⟨icalls, hic, hall⟩ := CreateOrUpdateIssue_trace c fuel repo _ _ _ _ w w2 r hissue
      have hnone : icalls.filter Call.isCreateProjectCard = [] := by
        rw [List.filter_eq_nil_iff]
        intro x hx
        rcases hall x hx with ⟨_, rfl⟩ | ⟨_, rfl⟩ | ⟨_, _, rfl⟩ <;> simp [Call.isCreateProjectCard]
      cases r with
      | error e =>
        simp only [Option.some.injEq, Prod.mk.injEq] at h
        obtain ⟨h1, h2⟩ := h
        subst h1 h2
        exact ⟨icalls, hic, by rw [hnone]; rfl⟩
      | ok issue =>
        simp only at h
        have hcard := CreateCardForIssue_trace c issue ((mapGet columns "Backlog").join) w2
        rcases hcc : CreateCardForIssue c issue ((mapGet columns "Backlog").join) w2
          with ⟨rc, w3⟩
        rw [hcc] at h hcard
        simp only at h hcard
        rcases hrest : taskOutcomes c fuel repo milestone columns rest w3 with _ | ⟨outs1, w4⟩
        · rw [hrest] at h; simp at h
        · rw [hrest] at h
          simp only [Option.some.injEq, Prod.mk.injEq] at h
          obtain ⟨h1, h2⟩ := h
          subst h1 h2
          obtain ⟨rcalls, hrc, hrf⟩ := ih w3 w4 outs1 hrest
          refine ⟨icalls ++ [Call.CreateProjectCard
            (ProjectColumn.GetID (mapGet columns "Backlog").join)
            (ProjectCardOptions.mk (Issue.GetID issue) "Issue")] ++ rcalls, ?_, ?_⟩
          · rw [hrc, hcard, hic]; simp
          · simp only [List.filter_append, hnone, hrf, List.nil_append]
            simp [cardCallsOf, Call.isCreateProjectCard]

/-- C30, the run that stops: on a tracker where the project is reused and has
no column, the column map has no "Backlog" key, and when the issue of the
second task cannot be created the run ends with that error event; no complete
event is sent. The tasks are those of `TestFullWorkload` with one assignee
each, so the second task finds no issue and asks for its own. -/
theorem Run_without_backlog_issue_failure :
    (∃ (repo : WorkflowRepository) (milestone : Option Milestone)
      (w1 w2 w3 w4 : World TestCache),
      GetRepository
        (TestGitHubClient.withProject ⟨0, 0⟩ welcomeProject ["test2"] [] "500 Server Error")
        "testOrganization" "testRepository" freshWorld = (.ok repo, w1) ∧
      CreateOrUpdateMilestone
        (TestGitHubClient.withProject ⟨0, 0⟩ welcomeProject ["test2"] [] "500 Server Error") 1
        repo (some "Welcome @test!")
        (some "Let's setup up @test for success. Here's what we need to cover...")
        (some (getMilestoneDueTime ⟨0, 0⟩ none)) w1 = some (.ok milestone, w2) ∧
      CreateOrUpdateProject
        (TestGitHubClient.withProject ⟨0, 0⟩ welcomeProject ["test2"] [] "500 Server Error") 1
        repo "Welcome @test!"
        "Let's setup up @test for success. Here's what we need to cover..."
        ["Backlog", "In Progress", "Review", "Done"] w2 = some (.ok (some welcomeProject), w3) ∧
      FetchMappedProjectColumns
        (TestGitHubClient.withProject ⟨0, 0⟩ welcomeProject ["test2"] [] "500 Server Error") 1
        (some welcomeProject) w3 = some (.ok [], w4)) ∧
    eventTypes (Run
      (TestGitHubClient.withProject ⟨0, 0⟩ welcomeProject ["test2"] [] "500 Server Error") 1
      ⟨0, 0⟩ "test" ⟨42, testSetupByOwner⟩ freshWorld) =
      ["start", "progress", "progress", "progress", "progress", "error"] := by
  refine ⟨⟨_, _, _, _, _, _, rfl, rfl, rfl, rfl⟩, by decide⟩

/-- C30, amended: when the repository, the milestone, the project and the
column map are obtained and the map has no key "Backlog", the task loop still
makes exactly one create-card call per task whose issue reconciliation
succeeded, for that issue and addressed to column id 0; and when no issue
reconciliation fails, every task is reached, the run returns, its last event
is the complete event, and it sends exactly one error event per rejected
card. -/
theorem Run_without_backlog (c : IGitHubClient σ) (fuel : Nat) (now : Time) (username : String)
    (job : GenerateProject) (w w1 w2 w3 w4 w5 : World σ) (repo : WorkflowRepository)
    (milestone : Option Milestone) (project : Option Project)
    (columns : List (String × Option ProjectColumn)) (outs : List TaskOutcome)
    (hrepo : GetRepository c job.Setup.GithubOrganization job.Setup.GithubRepository w =
      (.ok repo, w1))
    (hms : CreateOrUpdateMilestone c fuel repo (some ("Welcome @" ++ username ++ "!"))
      (some ("Let's setup up @" ++ username ++ " for success. Here's what we need to cover..."))
      (some (getMilestoneDueTime now none)) w1 = some (.ok milestone, w2))
    (hproj : CreateOrUpdateProject c fuel repo ("Welcome @" ++ username ++ "!")
      ("Let's setup up @" ++ username ++ " for success. Here's what we need to cover...")
      ["Backlog", "In Progress", "Review", "Done"] w2 = some (.ok project, w3))
    (hcols : FetchMappedProjectColumns c fuel project w3 = some (.ok columns, w4))
    (hback : mapGet columns "Backlog" = none)
    (houts : taskOutcomes c fuel repo milestone columns job.Setup.Tasks w4 = some (outs, w5)) :
    (∃ calls : List Call, w5.trace = w4.trace ++ calls ∧
      calls.filter Call.isCreateProjectCard = cardCallsOf 0 outs) ∧
    (outs.any TaskOutcome.issueFailed = false →
      outs.map (fun o => o.task) = job.Setup.Tasks ∧
      ∃ evs : List Event,
        Run c fuel now username job w = some (evs, w5) ∧
        evs.getLast?.map (fun e => e.Typ) = some "complete" ∧
        (evs.filter Event.isError).length = (outs.filter TaskOutcome.cardFailed).length) := by
  constructor
  · obtain ⟨calls, h1, h2⟩ :=
      taskOutcomes_card_calls c fuel repo milestone columns _ _ _ _ houts
    rw [hback] at h2
    exact ⟨calls, h1, h2⟩
  · intro hany
    have htasks : outs.map (fun o => o.task) = job.Setup.Tasks := by
      rcases taskOutcomes_shape c fuel repo milestone columns _ _ _ _ houts with
        ⟨_, h2⟩ | ⟨before, o, e, h1, h2, _⟩
      · exact h2
      · rw [h1] at hany
        simp [TaskOutcome.issueFailed, h2] at hany
    obtain ⟨hcount, _⟩ := outcomeEvents_counts now job.ID outs hany
    refine ⟨htasks, _, Run_of_outcomes c fuel now username job w w1 w2 w3 w4 w5 repo milestone
      project columns outs hrepo hms hproj hcols houts hany, ?_, ?_⟩
    · rw [List.getLast?_concat]
      rfl
    · simp only [List.filter_append, List.length_append, hcount]
      simp [List.filter_cons, Event.isError, NewEvent]

/-- C30 on the fake tracker where the project is reused without columns and
the card for issue 2 is rejected, for the tasks of `TestFullWorkload` with one
assignee each (issues 1, 2, 3 are created): three card calls go to column 0,
one error event is sent and the run ends with the complete event. -/
theorem Run_without_backlog_example :
    ∃ (evs : List Event) (w5 : World TestCache),
      Run (TestGitHubClient.withProject ⟨0, 0⟩ welcomeProject [] [2] "422 Unprocessable Entity")
        1 ⟨0, 0⟩ "test" ⟨42, testSetupByOwner⟩ freshWorld = some (evs, w5) ∧
      w5.trace.filter Call.isCreateProjectCard =
        [Call.CreateProjectCard 0 ⟨1, "Issue"⟩, Call.CreateProjectCard 0 ⟨2, "Issue"⟩,
          Call.CreateProjectCard 0 ⟨3, "Issue"⟩] ∧
      (evs.filter Event.isError).length = 1 ∧
      evs.getLast?.map (fun e => e.Typ) = some "complete" := by
  obtain ⟨⟨calls, htrace, hcalls⟩, hrun⟩ :=
    Run_without_backlog
      (TestGitHubClient.withProject ⟨0, 0⟩ welcomeProject [] [2] "422 Unprocessable Entity")
      1 ⟨0, 0⟩ "test" ⟨42, testSetupByOwner⟩ freshWorld _ _ _ _ _ _ _ _ _ _ rfl rfl rfl rfl
      rfl rfl
  obtain ⟨_, evs, hevs, hlast, herr⟩ := hrun (by decide)
  refine ⟨evs, _, hevs, ?_, herr.trans (by decide), hlast⟩
  rw [htrace, List.filter_append, hcalls]
  decide

end RunWithoutBacklog

/-! ## Issues under a milestone on the fake tracker -/

section FakeIssuesUnderMilestone

/-- A string other than "" has a positive length. -/
theorem length_pos_of_ne_empty (a : String) (h : a ≠ "") : 0 < a.length := by
  rcases a with ⟨cs⟩
  cases cs with
  | nil => exact absurd rfl h
  | cons x xs => simp [String.length]

/-- The filter of the fake tracker for a named assignee and milestone "1", on
an issue stored under milestone 1: the issue passes exactly when the name is
that of its assignee. -/
theorem matches_fakeIssue (a : String) (page : Int) (n : Int) (t b a1 : String)
    (h1 : a ≠ "") (h2 : a ≠ "*") (h3 : a ≠ "none") :
    TestIssues.matches { Milestone := Itoa 1, Assignee := a, Page := page }
      (fakeIssue n t b a1 1) = decide (a = a1) := by
  have hat : Atoi (Itoa 1) = some 1 := by decide
  have hne : ¬ Itoa 1 = "none" := by decide
  have hlen : 0 < (Itoa 1).length := by decide
  have hal := length_pos_of_ne_empty a h1
  unfold TestIssues.matches
  simp [fakeIssue, hat, hne, hlen, hal, h2, h3, assigneeListContainsUsername, User.GetLogin,
    Milestone.GetNumber]

/-- With assignee "*" and milestone "1" every issue stored under milestone 1
passes the filter of the fake tracker. -/
theorem matches_fakeIssue_any (page : Int) (n : Int) (t b a1 : String) :
    TestIssues.matches { Milestone := Itoa 1, Assignee := "*", Page := page }
      (fakeIssue n t b a1 1) = true := by
  have hat : Atoi (Itoa 1) = some 1 := by decide
  have hne : ¬ Itoa 1 = "none" := by decide
  have hlen : 0 < (Itoa 1).length := by decide
  unfold TestIssues.matches
  simp [fakeIssue, hat, hne, hlen, Milestone.GetNumber]

/-- The two passes of a search by title, assignee and milestone 1 over the
stored issues, the filter of the fake tracker and the title pass of
`GetIssuesByRequest`, keep the issues with that title and that assignee. -/
theorem fake_search (a t : String) (h1 : a ≠ "") (h2 : a ≠ "*") (h3 : a ≠ "none") :
    ∀ (stored : List Issue), (∀ i ∈ stored, ∃ n t1 b1 a1, i = fakeIssue n t1 b1 a1 1) →
      (((stored.filter (TestIssues.matches { Milestone := Itoa 1, Assignee := a, Page := 0 })).map
        some).filter fun thisIssue => t == Issue.GetTitle thisIssue) =
      (stored.filter fun i => decide (issueKey i = (t, a))).map some := by
  intro stored
  induction stored with
  | nil => intro _; rfl
  | cons i rest ih =>
    intro hwf
    obtain ⟨n, t1, b1, a1, rfl⟩ := hwf _ (List.mem_cons_self _ _)
    have ih1 := ih fun j hj => hwf j (List.mem_cons_of_mem _ hj)
    have hkey : issueKey (fakeIssue n t1 b1 a1 1) = (t1, a1) := rfl
    have htitle : Issue.GetTitle (some (fakeIssue n t1 b1 a1 1)) = t1 := rfl
    simp only [List.filter_cons, matches_fakeIssue a 0 n t1 b1 a1 h1 h2 h3, hkey]
    by_cases ha : a = a1
    · subst ha
      by_cases ht : t = t1
      · subst ht
        simp [ih1, htitle]
      · have ht1 : ¬ t1 = t := fun h => ht h.symm
        simp [ht, ht1, ih1, htitle]
    · have ha1 : ¬ a1 = a := fun h => ha h.symm
      simp [ha, ha1, ih1]

/-- The search `CreateOrUpdateIssue` starts with, on the fake tracker. -/
theorem fake_GetIssuesByRequest_entry (now : Time) (fuel : Nat) (repo : WorkflowRepository)
    (a t b : String) (w : World TestCache)
    (h1 : a ≠ "") (h2 : a ≠ "*") (h3 : a ≠ "none")
    (hwf : ∀ i ∈ w.st.issues.getD [], ∃ n t1 b1 a1, i = fakeIssue n t1 b1 a1 1) :
    ∃ w1 : World TestCache,
      GetIssuesByRequest (TestGitHubClient now) (fuel + 1) repo
        (issueRequestFor (some a) (some t) (some b) 1) w =
        some (.ok (((w.st.issues.getD []).filter fun i => decide (issueKey i = (t, a))).map some),
          w1) ∧
      w1.st = { w.st with issues := some (w.st.issues.getD []) } := by
  unfold GetIssuesByRequest fetchIssues fetchIssuesLoop
  simp only [TestGitHubClient, TestIssues.ListByRepo, prepareGitHubAPIResponse, if_true,
    issueRequestFor, IssueRequest.GetAssignees, Option.map_some', Option.getD_some, ne_eq, h3,
    not_false_eq_true, List.nil_append, gt_iff_lt, Int.lt_irrefl, zero_lt_one]
  rw [← fake_search a t h1 h2 h3 _ hwf]
  exact ⟨_, rfl, rfl⟩

/-- One `CreateOrUpdateIssue` on the fake tracker under milestone 1: the stored
issues are unchanged when one of them has the title and the assignee, and
otherwise grow by the new issue. -/
theorem fake_CreateOrUpdateIssue_stored (now : Time) (fuel : Nat) (repo : WorkflowRepository)
    (a t b : String) (w : World TestCache)
    (h1 : a ≠ "") (h2 : a ≠ "*") (h3 : a ≠ "none")
    (hwf : ∀ i ∈ w.st.issues.getD [], ∃ n t1 b1 a1, i = fakeIssue n t1 b1 a1 1) :
    ∃ (r : Except String (Option Issue)) (w1 : World TestCache),
      CreateOrUpdateIssue (TestGitHubClient now) (fuel + 1) repo (some a) (some t) (some b) 1 w =
        some (r, w1) ∧
      w1.st.issues.getD [] =
        if (t, a) ∈ (w.st.issues.getD []).map issueKey then w.st.issues.getD []
        else w.st.issues.getD [] ++ [fakeIssue ((w.st.issues.getD []).length + 1) t b a 1] := by
  obtain ⟨w1, hsearch, hst⟩ := fake_GetIssuesByRequest_entry now fuel repo a t b w h1 h2 h3 hwf
  unfold CreateOrUpdateIssue
  simp only
  rw [hsearch]
  simp only
  cases hf : (w.st.issues.getD []).filter fun i => decide (issueKey i = (t, a)) with
  | nil =>
    have hnot : (t, a) ∉ (w.st.issues.getD []).map issueKey := by
      rw [List.filter_eq_nil_iff] at hf
      intro hmem
      obtain ⟨i, hi, hk⟩ := List.mem_map.mp hmem
      exact hf i hi (by simpa using hk)
    rw [if_neg hnot]
    simp [createIssue, TestGitHubClient, TestIssues.Create, issueRequestFor, hst, Issue.GetBody,
      World.step, fakeIssue]
    exact ⟨_, _, ⟨rfl, rfl⟩, rfl⟩
  | cons i rest =>
    have hmem : (t, a) ∈ (w.st.issues.getD []).map issueKey := by
      have hi : i ∈ (w.st.issues.getD []).filter fun i => decide (issueKey i = (t, a)) := by
        rw [hf]; exact List.mem_cons_self _ _
      rw [List.mem_filter] at hi
      exact List.mem_map.mpr ⟨i, hi.1, by simpa using hi.2⟩
    rw [if_pos hmem]
    simp only [List.map_cons, List.find?_cons, Option.isSome_some, Option.some.injEq,
      Prod.mk.injEq]
    exact ⟨_, _, ⟨rfl, rfl⟩, by rw [hst]; rfl⟩

/-- The loop over the entries on the fake tracker: it returns, the stored issues
keep distinct (title, assignee) pairs, and these pairs are the ones stored
before together with the ones of the entries. -/
theorem fake_createIssuesLoop (now : Time) (fuel : Nat) (repo : WorkflowRepository) :
    ∀ (entries : List (String × String × String)) (w : World TestCache),
      (∀ e ∈ entries, e.2.2 ≠ "" ∧ e.2.2 ≠ "*" ∧ e.2.2 ≠ "none") →
      (∀ i ∈ w.st.issues.getD [], ∃ n t1 b1 a1, i = fakeIssue n t1 b1 a1 1) →
      ((w.st.issues.getD []).map issueKey).Nodup →
      ∃ w2 : World TestCache,
        createIssuesLoop (TestGitHubClient now) (fuel + 1) repo 1 entries w = some w2 ∧
        (∀ i ∈ w2.st.issues.getD [], ∃ n t1 b1 a1, i = fakeIssue n t1 b1 a1 1) ∧
        ((w2.st.issues.getD []).map issueKey).Nodup ∧
        ∀ p, p ∈ (w2.st.issues.getD []).map issueKey ↔
          (p ∈ (w.st.issues.getD []).map issueKey ∨ p ∈ entries.map entryKey) := by
  intro entries
  induction entries with
  | nil =>
    intro w _ hwf hnd
    exact ⟨w, rfl, hwf, hnd, by simp⟩
  | cons e rest ih =>
    intro w hnormal hwf hnd
    obtain ⟨t, b, a⟩ := e
    obtain ⟨h1, h2, h3⟩ := hnormal (t, b, a) (List.mem_cons_self _ _)
    obtain ⟨r, w1, hstep, hstored⟩ :=
      fake_CreateOrUpdateIssue_stored now fuel repo a t b w h1 h2 h3 hwf
    have hkey : issueKey (fakeIssue ((w.st.issues.getD []).length + 1) t b a 1) = (t, a) := rfl
    have hwf1 : ∀ i ∈ w1.st.issues.getD [], ∃ n t1 b1 a1, i = fakeIssue n t1 b1 a1 1 := by
      rw [hstored]
      split
      · exact hwf
      · intro i hi
        rcases List.mem_append.mp hi with hi | hi
        · exact hwf i hi
        · exact ⟨_, _, _, _, List.mem_singleton.mp hi⟩
    have hnd1 : ((w1.st.issues.getD []).map issueKey).Nodup := by
      rw [hstored]
      split
      · exact hnd
      · next hnot =>
        rw [List.map_append, List.map_singleton, hkey]
        exact List.Nodup.append hnd (List.nodup_singleton _)
          (by simpa [List.Disjoint] using hnot)
    have hmem1 : ∀ p, p ∈ (w1.st.issues.getD []).map issueKey ↔
        (p ∈ (w.st.issues.getD []).map issueKey ∨ p = (t, a)) := by
      intro p
      rw [hstored]
      split
      · next hin =>
        constructor
        · exact Or.inl
        · rintro (h | h)
          · exact h
          · rw [h]; exact hin
      · rw [List.map_append, List.map_singleton, hkey, List.mem_append, List.mem_singleton]
    obtain ⟨w2, hloop, hwf2, hnd2, hmem2⟩ :=
      ih w1 (fun e he => hnormal e (List.mem_cons_of_mem _ he)) hwf1 hnd1
    refine ⟨w2, ?_, hwf2, hnd2, ?_⟩
    · simp only [createIssuesLoop, hstep, hloop]
    · intro p
      rw [hmem2 p, hmem1 p, List.map_cons, List.mem_cons]
      simp only [entryKey, or_assoc]

/-- The search by milestone 1 alone returns every stored issue. -/
theorem fake_GetIssuesByRequest_milestone (now : Time) (fuel : Nat) (repo : WorkflowRepository)
    (w : World TestCache)
    (hwf : ∀ i ∈ w.st.issues.getD [], ∃ n t1 b1 a1, i = fakeIssue n t1 b1 a1 1) :
    ∃ w1 : World TestCache,
      GetIssuesByRequest (TestGitHubClient now) (fuel + 1) repo
        { Title := none, Body := none, Assignee := none, Milestone := some 1,
          Assignees := none } w =
        some (.ok ((w.st.issues.getD []).map some), w1) := by
  have hall : (w.st.issues.getD []).filter
      (TestIssues.matches { Milestone := Itoa 1, Assignee := "*", Page := 0 }) =
      w.st.issues.getD [] := by
    rw [List.filter_eq_self]
    intro i hi
    obtain ⟨n, t1, b1, a1, rfl⟩ := hwf i hi
    exact matches_fakeIssue_any 0 n t1 b1 a1
  unfold GetIssuesByRequest fetchIssues fetchIssuesLoop
  simp only [TestGitHubClient, TestIssues.ListByRepo, prepareGitHubAPIResponse, if_true,
    IssueRequest.GetAssignees, Option.getD_none, List.nil_append, gt_iff_lt, zero_lt_one, hall,
    List.filter_true]
  exact ⟨_, rfl⟩

/-- On a fresh fake tracker `CreateOrUpdateMilestone` creates milestone number
1 and stores no issue. -/
theorem fake_CreateOrUpdateMilestone_fresh (now : Time) (fuel : Nat) (repo : WorkflowRepository)
    (name description : String) (due : Time) :
    ∃ w1 : World TestCache,
      CreateOrUpdateMilestone (TestGitHubClient now) (fuel + 1) repo (some name)
        (some description) (some due) freshWorld =
        some (.ok (some ⟨some 1, some name, some description, some now, some due⟩), w1) ∧
      w1.st.issues = none := by
  simp only [CreateOrUpdateMilestone, fetchMilestones, fetchMilestonesLoop, TestGitHubClient,
      TestIssues.ListMilestones, prepareGitHubAPIResponse, findMilestoneByTitle, createMilestone,
      TestIssues.CreateMilestone, if_true, List.nil_append]
  exact ⟨_, rfl, rfl⟩

/-- C24, two entries counted once: with the entries ("Issue #1", "First
Issue", "testuser1") and ("Issue #1", "Awesome Issue", "none") the second
search goes out with assignee "*" and finds the first issue, so one issue is
returned for two distinct (title, assignee) pairs. -/
theorem issuesUnderMilestone_none_assignee :
    (issuesUnderMilestone (TestGitHubClient ⟨0, 0⟩) 1 testRepo "Test Milestone"
      "This stone is a mile high." (getMilestoneDueTime ⟨0, 0⟩ none)
      [("Issue #1", "First Issue", "testuser1"), ("Issue #1", "Awesome Issue", "none")]
      freshWorld).map (fun r => r.2.1.map List.length) = some (.ok 1) ∧
    (([("Issue #1", "First Issue", "testuser1"),
      ("Issue #1", "Awesome Issue", "none")].map entryKey).dedup).length = 2 := by
  decide

/-- C24, amended: on a fresh fake tracker, for every milestone name,
description and due date and every list of entries (title, description,
assignee) whose assignee names are non-empty and are neither "*" nor "none",
the steps of `TestCreateIssuesMilestones` return: `CreateOrUpdateMilestone`
gives a milestone M, and after one `CreateOrUpdateIssue` per entry with the
number of M, `GetIssuesByRequest` with only the milestone set to the number of
M returns exactly as many issues as the entries have distinct (title,
assignee) pairs, each of them carrying a milestone with the number of M. -/
theorem fake_issues_under_milestone (now : Time) (fuel : Nat) (repo : WorkflowRepository)
    (milestoneName milestoneDescription : String) (duedate : Time)
    (entries : List (String × String × String))
    (hnames : ∀ e ∈ entries, e.2.2 ≠ "" ∧ e.2.2 ≠ "*" ∧ e.2.2 ≠ "none") :
    ∃ (M : Milestone) (issuesFound : List (Option Issue)) (w3 : World TestCache),
      issuesUnderMilestone (TestGitHubClient now) (fuel + 1) repo milestoneName
        milestoneDescription duedate entries freshWorld = some (some M, .ok issuesFound, w3) ∧
      issuesFound.length = ((entries.map entryKey).dedup).length ∧
      ∀ i ∈ issuesFound, ∃ (issue : Issue) (ms : Milestone), i = some issue ∧
        issue.Milestone = some ms ∧ Milestone.GetNumber (some ms) = Milestone.GetNumber (some M) := by
  obtain ⟨w1, hms, hnone⟩ :=
    fake_CreateOrUpdateMilestone_fresh now fuel repo milestoneName milestoneDescription duedate
  have hempty : w1.st.issues.getD [] = [] := by rw [hnone]; rfl
  obtain ⟨w2, hloop, hwf, hnd, hmem⟩ := fake_createIssuesLoop now fuel repo entries w1 hnames
    (by rw [hempty]; intro i hi; cases hi) (by rw [hempty]; exact List.nodup_nil)
  obtain ⟨w3, hfound⟩ := fake_GetIssuesByRequest_milestone now fuel repo w2 hwf
  refine ⟨⟨some 1, some milestoneName, some milestoneDescription, some now, some duedate⟩,
    (w2.st.issues.getD []).map some, w3, ?_, ?_, ?_⟩
  · unfold issuesUnderMilestone
    rw [hms]
    simp only
    have hnum : Milestone.GetNumber
        (some ⟨some 1, some milestoneName, some milestoneDescription, some now, some duedate⟩) =
        1 := rfl
    rw [hnum, hloop]
    simp only
    rw [hfound]
  · rw [List.length_map, ← List.length_map (w2.st.issues.getD []) issueKey,
      ← List.toFinset_card_of_nodup hnd, ← List.card_toFinset]
    congr 1
    ext p
    rw [List.mem_toFinset, List.mem_toFinset, hmem p, hempty]
    simp
  · intro i hi
    obtain ⟨issue, hissue, rfl⟩ := List.mem_map.mp hi
    obtain ⟨n, t1, b1, a1, rfl⟩ := hwf issue hissue
    exact ⟨_, _, rfl, rfl, rfl⟩

/-- C24 at the entries of `TestCreateIssuesMilestones`: three issues for the
four entries, each under the milestone returned. -/
theorem fake_issues_under_milestone_example :
    ∃ (M : Milestone) (issuesFound : List (Option Issue)) (w3 : World TestCache),
      issuesUnderMilestone (TestGitHubClient ⟨0, 0⟩) (0 + 1) testRepo "Test Milestone"
        "This stone is a mile high." (getMilestoneDueTime ⟨0, 0⟩ none) testIssues freshWorld =
        some (some M, .ok issuesFound, w3) ∧
      issuesFound.length = 3 ∧
      ∀ i ∈ issuesFound, ∃ (issue : Issue) (ms : Milestone), i = some issue ∧
        issue.Milestone = some ms ∧
        Milestone.GetNumber (some ms) = Milestone.GetNumber (some M) := by
  obtain ⟨M, issuesFound, w3, h1, h2, h3⟩ :=
    fake_issues_under_milestone ⟨0, 0⟩ 0 testRepo "Test Milestone" "This stone is a mile high."
      (getMilestoneDueTime ⟨0, 0⟩ none) testIssues (by decide)
  exact ⟨M, issuesFound, w3, h1, h2.trans (by decide), h3⟩

/-- The numbers and titles of the issues found in that example. -/
theorem fake_issues_under_milestone_values :
    (issuesUnderMilestone (TestGitHubClient ⟨0, 0⟩) 1 testRepo "Test Milestone"
      "This stone is a mile high." (getMilestoneDueTime ⟨0, 0⟩ none) testIssues
      freshWorld).map (fun r => r.2.1.map (List.map fun i => (Issue.GetNumber i,
        Issue.GetTitle i))) =
      some (.ok [(1, "Issue #1"), (2, "Issue #2"), (3, "Issue #3")]) := by
  decide

end FakeIssuesUnderMilestone

end Onboarding
